import Mathlib

/-!
# OpenConnect: login state machine, ESP datapath and cancellable transport

A shallow embedding of parts of `gnutls-esp.c` (`decrypt_and_queue_esp_packet`,
`setup_esp_keys`, `init_esp_ciphers`, `destroy_esp_ciphers`), of `ssl.c`
(`check_cmd_fd`, `poll_cmd_fd`, the cancellable socket helpers, `ssl_reconnect`,
`openconnect_passphrase_from_fsid`), of `auth-common.c` (`append_form_opts`,
`do_gen_tokencode`) and of `auth-juniper.c` (`check_cookie_success`, `tncc_preauth`,
the HTML form parser, `oncp_obtain_cookie`).

Bytes are natural numbers, buffers are lists, and a function that fails returns the
negative errno value the C code returns.  C `int`s are integers; where the code
stores a value in an `int` that need not fit (the byte count that
`cancellable_recv` and `cancellable_send` return, `timeout` and `interval` of
`ssl_reconnect`), the value is reduced to 32 bits with `int_wrap`.  The strings
of the C code are byte strings; they are held as `String`s with one character for
each byte, the character whose code is the byte.  What the operating system,
GnuTLS, libxml2, the gateway and the user do is an input of the functions.
-/

namespace Openconnect

/-! ## Constants of the C library -/

/-- Value of `EPERM` in `errno.h` (Linux numbering). -/
def EPERM : Int := 1

/-- Value of `ENOENT` in `errno.h` (Linux numbering). -/
def ENOENT : Int := 2

/-- Value of `EIO` in `errno.h` (Linux numbering). -/
def EIO : Int := 5

/-- Value of `EOPNOTSUPP` in `errno.h` (Linux numbering). -/
def EOPNOTSUPP : Int := 95

/-- Value of `GNUTLS_CIPHER_AES_128_CBC` in `gnutls.h`. -/
def GNUTLS_CIPHER_AES_128_CBC : Nat := 4

/-- Value of `GNUTLS_CIPHER_AES_256_CBC` in `gnutls.h`. -/
def GNUTLS_CIPHER_AES_256_CBC : Nat := 5

/-- Value of `GNUTLS_MAC_MD5` in `gnutls.h`. -/
def GNUTLS_MAC_MD5 : Nat := 2

/-- Value of `GNUTLS_MAC_SHA1` in `gnutls.h`. -/
def GNUTLS_MAC_SHA1 : Nat := 3

/-- The result of `gnutls_hmac_get_len(macalg)`: 16 bytes for MD5, 20 for SHA1. -/
def gnutls_hmac_get_len (macalg : Nat) : Nat :=
  if macalg = GNUTLS_MAC_MD5 then 16 else if macalg = GNUTLS_MAC_SHA1 then 20 else 0

/-- Value of `EINTR` in `errno.h` (Linux numbering). -/
def EINTR : Int := 4

/-- Value of `ENOMEM` in `errno.h` (Linux numbering). -/
def ENOMEM : Int := 12

/-- Value of `EINVAL` in `errno.h` (Linux numbering). -/
def EINVAL : Int := 22

/-- Value of `ECONNRESET` in `errno.h` (Linux numbering). -/
def ECONNRESET : Int := 104

/-- Value of `INT_MAX` in `limits.h`, for the 32-bit `int` of the platforms
OpenConnect is built for. -/
def INT_MAX : Nat := 2147483647

/-- Value of `INT_MIN` in `limits.h`. -/
def INT_MIN : Int := -2147483648

/-- The value that an `int` holds after `x` has been stored in it: `x` reduced
modulo `2^32` to the range `-2^31 .. 2^31 - 1`.  This is what the conversion of a
`size_t` to `int` does, and what the compiled program does when `int` arithmetic
overflows (the C standard leaves the latter undefined). -/
def int_wrap (x : Int) : Int :=
  (x + 2 ^ 31) % 2 ^ 32 - 2 ^ 31

/-- Modelled from the spec: the command bytes of the public header `openconnect.h`,
which is not among the sources; the spec only says they are four single-byte
commands.  `OC_CMD_CANCEL` is the character `x`. -/
def OC_CMD_CANCEL : Nat := 120

/-- Modelled from the spec: `OC_CMD_PAUSE` of `openconnect.h`, the character `p`. -/
def OC_CMD_PAUSE : Nat := 112

/-- Modelled from the spec: `OC_CMD_DETACH` of `openconnect.h`, the character `d`. -/
def OC_CMD_DETACH : Nat := 100

/-- Modelled from the spec: `OC_CMD_STATS` of `openconnect.h`, the character `s`. -/
def OC_CMD_STATS : Nat := 115

/-! ## Data model -/

/-- An initialised `gnutls_cipher_hd_t`: the algorithm and key given to
`gnutls_cipher_init`. -/
structure cipher_hd where
  alg : Nat
  key : List Nat
deriving DecidableEq, Repr

/-- An initialised `gnutls_hmac_hd_t`: the algorithm and key given to
`gnutls_hmac_init`. -/
structure hmac_hd where
  alg : Nat
  key : List Nat
deriving DecidableEq, Repr

/-- The fields of `struct esp`; a `NULL` handle is `none`. -/
structure esp where
  spi : List Nat := []
  secrets : List Nat := []
  cipher : Option cipher_hd := none
  hmac : Option hmac_hd := none
deriving DecidableEq, Repr

/-- The fields of `struct pkt` that the ESP receive path sets: `len`, and the
`data` bytes of the allocation (`len - 36` of them for a datagram of `len` bytes). -/
structure pkt where
  len : Int
  data : List Nat
deriving DecidableEq, Repr

/-- An entry of the cookie jar, `struct oc_vpn_option`: the cookie's name and value,
neither of them `NULL`. -/
structure oc_vpn_option where
  option : String
  value : String
deriving DecidableEq, Repr

/-- The values of `vpninfo->token_mode`. -/
inductive oc_token_mode where
  | OC_TOKEN_MODE_NONE
  | OC_TOKEN_MODE_STOKEN
  | OC_TOKEN_MODE_TOTP
  | OC_TOKEN_MODE_HOTP
  | OC_TOKEN_MODE_YUBIOATH
deriving DecidableEq, Repr

/-- Modelled from the spec: the values of `vpninfo->dtls_state`, whose enumeration
is declared outside the sources.  The spec lists the states `Disabled`, `Secret`,
`Connected`, `Established`, `Sleeping` and `Reconnecting`; the sources name
`DTLS_DISABLED` and `DTLS_SECRET`. -/
inductive dtls_state_t where
  | DTLS_DISABLED
  | DTLS_SECRET
  | DTLS_CONNECTED
  | DTLS_ESTABLISHED
  | DTLS_SLEEPING
  | DTLS_RECONNECTING
deriving DecidableEq, Repr

/-- The fields of `struct openconnect_info` used by the embedded functions.
`stats_handler` says whether a callback is installed and `stats_seen` records the
counters each invocation of it was given; `reconnected` says whether the
`reconnected` callback is installed; `cookies` is the cookie jar in list order; a
`NULL` string is `none`. -/
structure openconnect_info where
  esp_in : esp := {}
  esp_out : esp := {}
  incoming_queue : List pkt := []
  cmd_fd : Int := -1
  cmd_fd_write : Int := -1
  got_cancel_cmd : Bool := false
  got_pause_cmd : Bool := false
  cancel_type : Nat := 0
  stats : List Nat := []
  stats_handler : Bool := false
  stats_seen : List (List Nat) := []
  reconnect_timeout : Int := 0
  reconnect_interval : Int := 0
  reconnected : Bool := false
  dtls_pkt : Option pkt := none
  tun_pkt : Option pkt := none
  cookies : List oc_vpn_option := []
  cookie : Option String := none
  tncc_fd : Int := -1
  redirect_url : Option String := none
  token_mode : oc_token_mode := .OC_TOKEN_MODE_NONE
  token_bypassed : Bool := false
  csd_wrapper : Option String := none
  hostname : Option String := none
  port : Int := 443
  urlpath : Option String := none
  dtls_state : dtls_state_t := .DTLS_DISABLED
  esp_enc : Nat := 0
  esp_hmac : Nat := 0
  sslkey : Option String := none
  cert_password : Option String := none
deriving DecidableEq, Repr

/-- The GnuTLS services the receive path calls, as functions of the handle
and the data: `hmac` is `gnutls_hmac` followed by `gnutls_hmac_output`, `decrypt` is
`gnutls_cipher_set_iv` followed by `gnutls_cipher_decrypt2` (`none` when it reports
an error). -/
structure Gnutls where
  hmac : Option hmac_hd → List Nat → List Nat
  decrypt : Option cipher_hd → List Nat → List Nat → Option (List Nat)

/-! ## `gnutls-esp.c` -/

/-- Modelled from the spec: `queue_packet` of `openconnect-internal.h`, which is not
among the sources; the spec calls `incoming_queue` a FIFO, so the packet goes to the
tail. -/
def queue_packet (q : List pkt) (new : pkt) : List pkt :=
  q ++ [new]

/-- The `n` bytes at `p + off`, `p` being memory addressed relative to `pkt->data`. -/
def mem_read (p : Int → Nat) (off n : Int) : List Nat :=
  (List.range n.toNat).map (fun (i : Nat) => p (off + (i : Int)))

/-- Memory `p` after the bytes `bs` have been stored at offset 0. -/
def mem_store (p : Int → Nat) (bs : List Nat) : Int → Nat :=
  fun i => if 0 ≤ i ∧ i < (bs.length : Int) then bs.getD i.toNat 0 else p i

/-- `decrypt_and_queue_esp_packet(vpninfo, esp, len)` with `len` the length of the
datagram `esp`.  `fresh` is the outcome of `malloc`: `none` for `NULL`, else the
memory found at the new packet, addressed relative to `pkt->data`: offsets below 0
are the header of `struct pkt`, offsets from `len - 36` on lie behind the
allocation.  The cipher is given `pkt->data + 8 + ivsize` as its input, as in the
source, and its input is taken as it is before the call.  The result is the return
value and the session afterwards. -/
def decrypt_and_queue_esp_packet (g : Gnutls) (vpninfo : openconnect_info)
    (fresh : Option (Int → Nat)) (esp : List Nat) : Int × openconnect_info :=
  let len : Int := esp.length
  let ivsize : Int := 16
  if len < 20 + ivsize then (-EINVAL, vpninfo)
  else if esp.take 4 ≠ vpninfo.esp_in.spi.take 4 then (-EINVAL, vpninfo)
  else
    let hmac_buf := g.hmac vpninfo.esp_in.hmac (esp.take (len - 12).toNat)
    if hmac_buf.take 12 ≠ (esp.drop (len - 12).toNat).take 12 then (-EINVAL, vpninfo)
    else
      let iv := (esp.drop 8).take ivsize.toNat
      let len := len - (20 + ivsize)
      match fresh with
      | none => (-ENOMEM, vpninfo)
      | some p =>
        match g.decrypt vpninfo.esp_in.cipher iv (mem_read p (8 + ivsize) len) with
        | none => (-EINVAL, vpninfo)
        | some plain =>
          let data := mem_store p (plain.take len.toNat)
          if data (len - 1) ≠ 0x04 ∧ data (len - 1) ≠ 0x29 then (-EINVAL, vpninfo)
          else if len ≤ 2 + (data (len - 2) : Int) then (-EINVAL, vpninfo)
          else
            let new : pkt := { len := len - 2 + (data (len - 2) : Int),
                               data := mem_read data 0 len }
            (0, { vpninfo with
                    incoming_queue := queue_packet vpninfo.incoming_queue new })

/-- `destroy_esp_ciphers(esp)`, `e` being `*esp`. -/
def destroy_esp_ciphers (e : esp) : esp :=
  let e := if e.cipher.isSome then { e with cipher := none } else e
  if e.hmac.isSome then { e with hmac := none } else e

/-- `init_esp_ciphers(vpninfo, esp, macalg, encalg)`: the return value and `*esp`
afterwards, `e` being `*esp` before.  `cipher_ok` and `hmac_ok` say whether
`gnutls_cipher_init` and `gnutls_hmac_init` succeed; a call that fails stores no
handle. -/
def init_esp_ciphers (cipher_ok hmac_ok : Bool) (e : esp) (macalg encalg : Nat) :
    Int × esp :=
  if encalg ≠ GNUTLS_CIPHER_AES_128_CBC ∧ encalg ≠ GNUTLS_CIPHER_AES_256_CBC then
    (-EINVAL, e)
  else
    let size : Nat := if encalg = GNUTLS_CIPHER_AES_128_CBC then 16 else 32
    if cipher_ok = false then (- EIO, e)
    else
      let e := { e with cipher := some { alg := encalg, key := e.secrets.take size } }
      if hmac_ok = false then (0, destroy_esp_ciphers e)
      else
        (0, { e with
          hmac := some { alg := macalg,
                         key := (e.secrets.drop size).take (gnutls_hmac_get_len macalg) } })

/-- What GnuTLS does during one call of `setup_esp_keys`: the SPI and the secrets
that `gnutls_rnd` writes (`none` when it reports an error), and whether the
initialisation of the cipher and of the HMAC succeeds, for the outbound and then
for the inbound direction. -/
structure esp_keygen where
  rnd : Option (List Nat × List Nat)
  cipher_out_ok : Bool := true
  hmac_out_ok : Bool := true
  cipher_in_ok : Bool := true
  hmac_in_ok : Bool := true
deriving DecidableEq, Repr

/-- `setup_esp_keys(vpninfo)`: the return value and the session afterwards. -/
def setup_esp_keys (g : esp_keygen) (vpninfo : openconnect_info) : Int × openconnect_info :=
  if vpninfo.dtls_state = .DTLS_DISABLED then (-EOPNOTSUPP, vpninfo)
  else if vpninfo.esp_enc ≠ 0x02 ∧ vpninfo.esp_enc ≠ 0x05 then (-EINVAL, vpninfo)
  else
    let encalg :=
      if vpninfo.esp_enc = 0x02 then GNUTLS_CIPHER_AES_128_CBC else GNUTLS_CIPHER_AES_256_CBC
    if vpninfo.esp_hmac ≠ 0x01 ∧ vpninfo.esp_hmac ≠ 0x02 then (-EINVAL, vpninfo)
    else
      let macalg := if vpninfo.esp_hmac = 0x01 then GNUTLS_MAC_MD5 else GNUTLS_MAC_SHA1
      match g.rnd with
      | none => (- EIO, vpninfo)
      | some (spi, secrets) =>
        let vpninfo :=
          { vpninfo with esp_in := { vpninfo.esp_in with spi := spi, secrets := secrets } }
        let out := init_esp_ciphers g.cipher_out_ok g.hmac_out_ok vpninfo.esp_out macalg encalg
        let vpninfo := { vpninfo with esp_out := out.2 }
        if out.1 ≠ 0 then (out.1, vpninfo)
        else
          let inb := init_esp_ciphers g.cipher_in_ok g.hmac_in_ok vpninfo.esp_in macalg encalg
          let vpninfo := { vpninfo with esp_in := inb.2 }
          if inb.1 ≠ 0 then
            (inb.1, { vpninfo with esp_out := destroy_esp_ciphers vpninfo.esp_out })
          else (0, { vpninfo with dtls_state := .DTLS_SECRET })

/-- A call among those that touch the cipher and HMAC handles of a session: the
three functions of `gnutls-esp.c`, `init_esp_ciphers` and `destroy_esp_ciphers`
on either direction, and an assignment of the negotiated parameters by other
code. -/
inductive esp_call where
  | init_in (cipher_ok hmac_ok : Bool) (macalg encalg : Nat)
  | init_out (cipher_ok hmac_ok : Bool) (macalg encalg : Nat)
  | setup (g : esp_keygen)
  | destroy_in
  | destroy_out
  | configure (state : dtls_state_t) (esp_enc esp_hmac : Nat)
deriving DecidableEq, Repr

/-- The session after one call. -/
def esp_call.run (c : esp_call) (vpninfo : openconnect_info) : openconnect_info :=
  match c with
  | .init_in cipher_ok hmac_ok macalg encalg =>
    { vpninfo with
      esp_in := (init_esp_ciphers cipher_ok hmac_ok vpninfo.esp_in macalg encalg).2 }
  | .init_out cipher_ok hmac_ok macalg encalg =>
    { vpninfo with
      esp_out := (init_esp_ciphers cipher_ok hmac_ok vpninfo.esp_out macalg encalg).2 }
  | .setup g => (setup_esp_keys g vpninfo).2
  | .destroy_in => { vpninfo with esp_in := destroy_esp_ciphers vpninfo.esp_in }
  | .destroy_out => { vpninfo with esp_out := destroy_esp_ciphers vpninfo.esp_out }
  | .configure state esp_enc esp_hmac =>
    { vpninfo with dtls_state := state, esp_enc := esp_enc, esp_hmac := esp_hmac }

/-- The session after a sequence of calls. -/
def run_esp_calls (calls : List esp_call) (vpninfo : openconnect_info) : openconnect_info :=
  calls.foldl (fun v c => c.run v) vpninfo

/-! ## `ssl.c`: the command channel and the cancellable socket helpers

The socket and the command descriptor are the environment of these functions.
It is given as the list of wake-ups of `select` still to come, each saying which
descriptors are ready and what the system calls made at that wake-up return, and
as the bytes the peer has sent and the code has not read yet.  A loop that waits
with no wake-up left never returns: the result is `none`. -/

/-- What `recv` or `send` does when called at a wake-up: `xfer n` moves up to `n`
bytes (for `recv`, `n = 0` is the peer's close), `fail errno` returns `-1` and sets
`errno`. -/
inductive io_result where
  | xfer (n : Nat)
  | fail (errno : Nat)
deriving DecidableEq, Repr

/-- One return of `select`: `cmd_set` is `FD_ISSET(cmd_fd, &rd_set)`, `cmd_read` the
byte that `read(cmd_fd, &cmd, 1)` delivers (`none` when it does not return 1),
`fd_set` is `FD_ISSET(fd, ...)` for the socket, `io` what `recv` or `send` on the
socket does. -/
structure wake where
  cmd_set : Bool := false
  cmd_read : Option Nat := none
  fd_set : Bool := true
  io : io_result := .xfer 1
deriving DecidableEq, Repr

/-- The state the helpers work on: the session, the bytes `rx` the peer has sent
that are still unread, the bytes `tx` sent to the peer so far, and the caller's
buffer `buf`. -/
structure io_state where
  vpninfo : openconnect_info := {}
  rx : List Nat := []
  tx : List Nat := []
  buf : List Nat := []
deriving DecidableEq, Repr

/-- `check_cmd_fd(vpninfo, fds)` at the wake-up `w`. -/
def check_cmd_fd (vpninfo : openconnect_info) (w : wake) : openconnect_info :=
  if vpninfo.cmd_fd = -1 ∨ w.cmd_set = false then vpninfo
  else if vpninfo.cmd_fd_write = -1 then
    { vpninfo with got_cancel_cmd := true }
  else
    match w.cmd_read with
    | none => vpninfo
    | some cmd =>
      if cmd = OC_CMD_CANCEL ∨ cmd = OC_CMD_DETACH then
        { vpninfo with got_cancel_cmd := true, cancel_type := cmd }
      else if cmd = OC_CMD_PAUSE then
        { vpninfo with got_pause_cmd := true }
      else if cmd = OC_CMD_STATS then
        if vpninfo.stats_handler then
          { vpninfo with stats_seen := vpninfo.stats_seen ++ [vpninfo.stats] }
        else vpninfo
      else vpninfo

/-- What `statfs(sslkey, &buf)` does: it fails and sets `errno`, or it fills
`buf.f_fsid`, read as the two `unsigned` words `fsid[0]` and `fsid[1]`. -/
inductive statfs_result where
  | fail (errno : Nat)
  | fsid (fsid0 fsid1 : Nat)
deriving DecidableEq, Repr

/-- What `asprintf` writes for `%llx`: the number in lowercase hexadecimal digits,
without leading zeros. -/
def fmt_llx (n : Nat) : String :=
  String.mk (Nat.toDigits 16 n)

/-- `openconnect_passphrase_from_fsid(vpninfo)`, the variant compiled with
`HAVE_STATFS`: the return value and the session afterwards; `asprintf_ok` says
whether `asprintf` succeeds. -/
def openconnect_passphrase_from_fsid (st : statfs_result) (asprintf_ok : Bool)
    (vpninfo : openconnect_info) : Int × openconnect_info :=
  match st with
  | .fail errno =>
    let err : Int := -(errno : Int)
    (-err, vpninfo)
  | .fsid fsid0 fsid1 =>
    let fsid64 : Nat := (((fsid0 % 2 ^ 32) <<< 32) ||| (fsid1 % 2 ^ 32)) % 2 ^ 64
    if asprintf_ok then (0, { vpninfo with cert_password := some (fmt_llx fsid64) })
    else (-ENOMEM, vpninfo)

/-- `is_cancel_pending(vpninfo, fds)`: the return value and the session afterwards. -/
def is_cancel_pending (vpninfo : openconnect_info) (w : wake) : Bool × openconnect_info :=
  let vpninfo := check_cmd_fd vpninfo w
  (vpninfo.got_cancel_cmd || vpninfo.got_pause_cmd, vpninfo)

/-- The number of bytes that one call of `recv` or `send` moves when the code asks
for `want` bytes at a wake-up that offers `n`.  A single call never moves more than
`INT_MAX` bytes (Linux stops at `0x7ffff000`), so the value fits the `int i` that
the code stores it in. -/
def io_count (n want : Nat) : Nat :=
  min (min n want) INT_MAX

/-- Buffer `buf` after the bytes `bs` have been stored from index `pos` on. -/
def store_bytes : List Nat → Nat → List Nat → List Nat
  | buf, _, [] => buf
  | buf, pos, b :: bs => store_bytes (buf.set pos b) (pos + 1) bs

/-- The `for` loop of `cancellable_recv(vpninfo, fd, buf + off, len)`, entered with
`count` bytes received, and the `return count` after it, which converts the
`size_t` to `int`.  At a wake-up with `io = xfer n`, `recv` delivers the next
`io_count n (len - count)` unread bytes, and 0 bytes when none is left (the peer
has closed).  The result is the return value, the wake-ups left and the state
afterwards. -/
def recv_loop (off len : Nat) :
    List wake → io_state → Nat → Option (Int × List wake × io_state)
  | [], s, count => if count < len then none else some (int_wrap (count : Int), [], s)
  | w :: ws, s, count =>
    if count < len then
      let (pending, vpninfo) := is_cancel_pending s.vpninfo w
      let s := { s with vpninfo := vpninfo }
      if pending then some (-EINTR, ws, s)
      else if w.fd_set = false then recv_loop off len ws s count
      else
        match w.io with
        | .fail errno => some (-(errno : Int), ws, s)
        | .xfer n =>
          let got := s.rx.take (io_count n (len - count))
          if got.length = 0 then some (-ECONNRESET, ws, s)
          else
            recv_loop off len ws
              { s with rx := s.rx.drop got.length
                       buf := store_bytes s.buf (off + count) got }
              (count + got.length)
    else some (int_wrap (count : Int), w :: ws, s)

/-- `cancellable_recv(vpninfo, fd, buf + off, len)`. -/
def cancellable_recv (fd : Int) (off len : Nat) (ws : List wake) (s : io_state) :
    Option (Int × List wake × io_state) :=
  if fd = -1 then some (-EINVAL, ws, s)
  else recv_loop off len ws s 0

/-- The `for` loop of `cancellable_send(vpninfo, fd, buf, len)`, entered with
`count` bytes sent, and the `return count` after it, which converts the `size_t`
to `int`. -/
def send_loop (len : Nat) :
    List wake → io_state → Nat → Option (Int × List wake × io_state)
  | [], s, count => if count < len then none else some (int_wrap (count : Int), [], s)
  | w :: ws, s, count =>
    if count < len then
      let (pending, vpninfo) := is_cancel_pending s.vpninfo w
      let s := { s with vpninfo := vpninfo }
      if pending then some (-EINTR, ws, s)
      else if w.fd_set = false then send_loop len ws s count
      else
        match w.io with
        | .fail errno => some (-(errno : Int), ws, s)
        | .xfer n =>
          let i := io_count n (len - count)
          send_loop len ws { s with tx := s.tx ++ (s.buf.drop count).take i } (count + i)
    else some (int_wrap (count : Int), w :: ws, s)

/-- `cancellable_send(vpninfo, fd, buf, len)`. -/
def cancellable_send (fd : Int) (len : Nat) (ws : List wake) (s : io_state) :
    Option (Int × List wake × io_state) :=
  if fd = -1 then some (-EINVAL, ws, s)
  else send_loop len ws s 0

/-- The `while` loop of `cancellable_gets(vpninfo, fd, buf, len)`, entered with
`i` bytes in the buffer.  Every iteration that does not return increments `i` and
`i` stays below `len - 1`, so `fuel = len` iterations are never used up. -/
def gets_loop (fd : Int) (len : Nat) :
    Nat → List wake → io_state → Nat → Option (Int × List wake × io_state)
  | 0, _, _, _ => none
  | fuel + 1, ws, s, i =>
    match cancellable_recv fd i 1 ws s with
    | none => none
    | some (ret, ws, s) =>
      if ret = 1 then
        if s.buf.getD i 0 = 10 then
          let buf := s.buf.set i 0
          if i ≠ 0 ∧ buf.getD (i - 1) 0 = 13 then
            some (((i - 1 : Nat) : Int), ws, { s with buf := buf.set (i - 1) 0 })
          else some ((i : Int), ws, { s with buf := buf })
        else
          let i := i + 1
          if i ≥ len - 1 then some ((i : Int), ws, { s with buf := s.buf.set i 0 })
          else gets_loop fd len fuel ws s i
      else
        some (if i ≠ 0 then (i : Int) else ret, ws, { s with buf := s.buf.set i 0 })

/-- `cancellable_gets(vpninfo, fd, buf, len)`. -/
def cancellable_gets (fd : Int) (len : Nat) (ws : List wake) (s : io_state) :
    Option (Int × List wake × io_state) :=
  if len < 2 then some (-EINVAL, ws, s)
  else gets_loop fd len len ws s 0

/-- `poll_cmd_fd(vpninfo, timeout)`: `ws` are the wake-ups of `select` before the
sleep expires.  The loop stops at once when a cancel or pause is pending. -/
def poll_cmd_fd (vpninfo : openconnect_info) : List wake → openconnect_info
  | [] => vpninfo
  | w :: ws =>
    if vpninfo.got_cancel_cmd || vpninfo.got_pause_cmd then vpninfo
    else poll_cmd_fd (check_cmd_fd vpninfo w) ws

/-- What one round of the loop of `ssl_reconnect` meets: the value that
`vpninfo->proto->tcp_connect` returns, and the wake-ups of `select` during the sleep
that follows it. -/
structure reconnect_round where
  connect : Int
  wakes : List wake := []
deriving DecidableEq, Repr

/-- What a run of `ssl_reconnect` does, as seen from outside: the remaining
`timeout` at each call of `tcp_connect`, the `interval` passed to each call of
`poll_cmd_fd`, and how often the `reconnected` callback was invoked. -/
structure reconnect_log where
  attempts : List Int := []
  sleeps : List Int := []
  reconnected_calls : Nat := 0
deriving DecidableEq, Repr

/-- The `while (1)` loop of `ssl_reconnect` and the code after it, entered with the
local variables `timeout` and `interval`; `interval_max` is the value of the macro
`RECONNECT_INTERVAL_MAX`, which is defined outside the sources.  Both variables
are `int`s: `timeout -= interval` and `interval += vpninfo->reconnect_interval`
store a 32-bit value.  The result is the return value (`none` while the function is
still looping when the rounds given are used up), the session and the record of
the run. -/
def reconnect_loop (interval_max : Int) :
    List reconnect_round → openconnect_info → Int → Int →
      Option Int × openconnect_info × reconnect_log
  | [], vpninfo, _, _ => (none, vpninfo, {})
  | r :: rs, vpninfo, timeout, interval =>
    let ret := r.connect
    if ret = 0 then
      (some 0, vpninfo,
        { attempts := [timeout], reconnected_calls := if vpninfo.reconnected then 1 else 0 })
    else if timeout ≤ 0 then (some ret, vpninfo, { attempts := [timeout] })
    else if ret = -EPERM then (some ret, vpninfo, { attempts := [timeout] })
    else
      let vpninfo := poll_cmd_fd vpninfo r.wakes
      if vpninfo.got_cancel_cmd then
        (some (-EINTR), vpninfo, { attempts := [timeout], sleeps := [interval] })
      else if vpninfo.got_pause_cmd then
        (some 0, vpninfo, { attempts := [timeout], sleeps := [interval] })
      else
        let timeout' := int_wrap (timeout - interval)
        let interval' := int_wrap (interval + vpninfo.reconnect_interval)
        let interval' := if interval' > interval_max then interval_max else interval'
        let out := reconnect_loop interval_max rs vpninfo timeout' interval'
        (out.1, out.2.1,
          { out.2.2 with attempts := timeout :: out.2.2.attempts
                         sleeps := interval :: out.2.2.sleeps })

/-- `ssl_reconnect(vpninfo)`. -/
def ssl_reconnect (interval_max : Int) (rounds : List reconnect_round)
    (vpninfo : openconnect_info) : Option Int × openconnect_info × reconnect_log :=
  let timeout := vpninfo.reconnect_timeout
  let interval := vpninfo.reconnect_interval
  let vpninfo := { vpninfo with dtls_pkt := none, tun_pkt := none }
  reconnect_loop interval_max rounds vpninfo timeout interval

/-! ## Text buffers and forms

`struct oc_text_buf` with `buf_alloc`, `buf_append`, `buf_truncate`, `buf_error`
and `buf_free`, and the form structures `struct oc_auth_form`, `struct oc_form_opt`
and `struct oc_choice`, are declared outside the sources. -/

/-- Modelled from the spec: `struct oc_text_buf`, which is not among the sources.
The spec only speaks of request bodies being built; the buffer is the text appended
so far (`data`, `pos` being its length) and the error code that `buf_error`
returns. -/
structure oc_text_buf where
  data : String := ""
  error : Int := 0
deriving DecidableEq, Repr

/-- Modelled from the spec: `buf_alloc()`, not among the sources: an empty buffer,
or one in error `-ENOMEM` when the allocation fails. -/
def buf_alloc (ok : Bool) : oc_text_buf :=
  if ok then {} else { error := -ENOMEM }

/-- Modelled from the spec: `buf_error(buf)`, not among the sources. -/
def buf_error (buf : oc_text_buf) : Int :=
  buf.error

/-- Modelled from the spec: `buf->pos`, the length of the text in the buffer. -/
def buf_pos (buf : oc_text_buf) : Nat :=
  buf.data.length

/-- Modelled from the spec: `buf_append(buf, ...)` with the formatted text `s`, not
among the sources: nothing is appended to a buffer in error. -/
def buf_append (buf : oc_text_buf) (s : String) : oc_text_buf :=
  if buf.error ≠ 0 then buf else { buf with data := buf.data ++ s }

/-- Modelled from the spec: `buf_truncate(buf)`, not among the sources. -/
def buf_truncate (buf : oc_text_buf) : oc_text_buf :=
  { buf with data := "" }

/-- What `printf` writes for `%s`: the string, or `(null)` for a `NULL` pointer. -/
def fmt_s (s : Option String) : String :=
  s.getD "(null)"

/-- The values of `opt->type`, `OC_FORM_OPT_*`. -/
inductive oc_form_opt_type where
  | OC_FORM_OPT_TEXT
  | OC_FORM_OPT_PASSWORD
  | OC_FORM_OPT_SELECT
  | OC_FORM_OPT_HIDDEN
  | OC_FORM_OPT_TOKEN
deriving DecidableEq, Repr

/-- The fields of `struct oc_choice` that the parser sets. -/
structure oc_choice where
  name : Option String := none
  label : Option String := none
deriving DecidableEq, Repr

/-- The fields of `struct oc_form_opt`, and for a `SELECT` option the `choices` of
`struct oc_form_opt_select`; the `next` pointer is the list order of `opts`. -/
structure oc_form_opt where
  type : oc_form_opt_type
  name : Option String := none
  label : Option String := none
  _value : Option String := none
  choices : List oc_choice := []
deriving DecidableEq, Repr

/-- The fields of `struct oc_auth_form`; `authgroup_opt` holds the option it
points to. -/
structure oc_auth_form where
  method : Option String := none
  action : Option String := none
  auth_id : Option String := none
  banner : Option String := none
  opts : List oc_form_opt := []
  authgroup_opt : Option oc_form_opt := none
deriving DecidableEq, Repr

/-! ## `auth-common.c` -/

/-- `append_opt(body, opt, name)`; `enc` is the text that `buf_append_urlencoded`,
which is not among the sources, appends for a string. -/
def append_opt (enc : Option String → String) (body : oc_text_buf)
    (opt name : Option String) : Int × oc_text_buf :=
  if buf_error body ≠ 0 then (buf_error body, body)
  else
    let body := if buf_pos body ≠ 0 then buf_append body "&" else body
    let body := buf_append body (enc opt)
    let body := buf_append body "="
    let body := buf_append body (enc name)
    (0, body)

/-- The loop of `append_form_opts` over the options from `opt` on. -/
def append_opts_from (enc : Option String → String) :
    List oc_form_opt → oc_text_buf → Int × oc_text_buf
  | [], body => (0, body)
  | opt :: rest, body =>
    let r := append_opt enc body opt.name opt._value
    if r.1 ≠ 0 then r else append_opts_from enc rest r.2

/-- `append_form_opts(vpninfo, form, body)`. -/
def append_form_opts (enc : Option String → String) (form : oc_auth_form)
    (body : oc_text_buf) : Int × oc_text_buf :=
  append_opts_from enc form.opts body

/-- The token functions that `can_gen_tokencode` and `do_gen_tokencode` dispatch
to; they are declared outside the sources.  The soft-token and Yubikey functions
are compiled in only with `HAVE_LIBSTOKEN` and `HAVE_LIBPCSCLITE`: `none` is a build
without them.  A `do_gen_*` function returns its result and the form with the
tokencode stored. -/
structure token_lib where
  can_gen_stoken_code :
    Option (openconnect_info → oc_auth_form → oc_form_opt → Int) := none
  can_gen_totp_code : openconnect_info → oc_auth_form → oc_form_opt → Int
  can_gen_hotp_code : openconnect_info → oc_auth_form → oc_form_opt → Int
  can_gen_yubikey_code :
    Option (openconnect_info → oc_auth_form → oc_form_opt → Int) := none
  do_gen_stoken_code :
    Option (openconnect_info → oc_auth_form → oc_form_opt → Int × oc_auth_form) := none
  do_gen_totp_code : openconnect_info → oc_auth_form → oc_form_opt → Int × oc_auth_form
  do_gen_hotp_code : openconnect_info → oc_auth_form → oc_form_opt → Int × oc_auth_form
  do_gen_yubikey_code :
    Option (openconnect_info → oc_auth_form → oc_form_opt → Int × oc_auth_form) := none

/-- `do_gen_tokencode(vpninfo, form)`: 0 for a form without a `TOKEN` option,
otherwise what the token function of `vpninfo->token_mode` gives for the first
`TOKEN` option. -/
def do_gen_tokencode (lib : token_lib) (vpninfo : openconnect_info)
    (form : oc_auth_form) : Int × oc_auth_form :=
  match form.opts.find? (fun o => o.type = .OC_FORM_OPT_TOKEN) with
  | none => (0, form)
  | some opt =>
    match vpninfo.token_mode with
    | .OC_TOKEN_MODE_STOKEN =>
      match lib.do_gen_stoken_code with
      | some f => f vpninfo form opt
      | none => (-EINVAL, form)
    | .OC_TOKEN_MODE_TOTP => lib.do_gen_totp_code vpninfo form opt
    | .OC_TOKEN_MODE_HOTP => lib.do_gen_hotp_code vpninfo form opt
    | .OC_TOKEN_MODE_YUBIOATH =>
      match lib.do_gen_yubikey_code with
      | some f => f vpninfo form opt
      | none => (-EINVAL, form)
    | .OC_TOKEN_MODE_NONE => (-EINVAL, form)

/-- `can_gen_tokencode(vpninfo, form, opt)`. -/
def can_gen_tokencode (lib : token_lib) (vpninfo : openconnect_info)
    (form : oc_auth_form) (opt : oc_form_opt) : Int :=
  match vpninfo.token_mode with
  | .OC_TOKEN_MODE_STOKEN =>
    match lib.can_gen_stoken_code with
    | some f => f vpninfo form opt
    | none => -EINVAL
  | .OC_TOKEN_MODE_TOTP => lib.can_gen_totp_code vpninfo form opt
  | .OC_TOKEN_MODE_HOTP => lib.can_gen_hotp_code vpninfo form opt
  | .OC_TOKEN_MODE_YUBIOATH =>
    match lib.can_gen_yubikey_code with
    | some f => f vpninfo form opt
    | none => -EINVAL
  | .OC_TOKEN_MODE_NONE => -EINVAL

/-! ## The HTML document

The parser of `auth-juniper.c` walks the tree that libxml2 builds.  A node of the
tree is an `xmlNode`; an `xmlNodePtr` is the path to a node from the root element,
the index among the siblings first, so that `node->parent` is the tail of the path.
The root element is taken to have no siblings: above it there is only the document
node, which has neither a `next` nor a `parent`. -/

/-- A node of the document: its `name` (`NULL` is `none`), its attributes as
`xmlGetProp` finds them, the text that `xmlNodeGetContent` returns for it, and its
children in document order. -/
inductive xmlNode where
  | mk (name : Option String) (props : List (String × String)) (content : Option String)
      (children : List xmlNode)

namespace xmlNode

/-- The field `node->name`. -/
def name : xmlNode → Option String
  | mk n _ _ _ => n

/-- The attributes of the node. -/
def props : xmlNode → List (String × String)
  | mk _ p _ _ => p

/-- The result of `xmlNodeGetContent(node)`. -/
def content : xmlNode → Option String
  | mk _ _ c _ => c

/-- The children of the node, in document order. -/
def children : xmlNode → List xmlNode
  | mk _ _ _ cs => cs

mutual
/-- The number of nodes of the tree below and including this node. -/
def size : xmlNode → Nat
  | mk _ _ _ cs => 1 + sizeList cs
/-- The number of nodes of a list of trees. -/
def sizeList : List xmlNode → Nat
  | [] => 0
  | c :: cs => size c + sizeList cs
end

end xmlNode

/-- A pointer to a node of the document. -/
abbrev xmlNodePtr := List Nat

/-- The node that a pointer refers to, if the path exists in the document. -/
def node_at (doc : xmlNode) : xmlNodePtr → Option xmlNode
  | [] => some doc
  | i :: p => (node_at doc p).bind (fun n => n.children[i]?)

/-- `node->children`: the first child. -/
def node_children (doc : xmlNode) (node : xmlNodePtr) : Option xmlNodePtr :=
  if (node_at doc (0 :: node)).isSome then some (0 :: node) else none

/-- `node->last`: the last child. -/
def node_last (doc : xmlNode) (node : xmlNodePtr) : Option xmlNodePtr :=
  match node_at doc node with
  | some n => if n.children.length = 0 then none else some ((n.children.length - 1) :: node)
  | none => none

/-- `node->next`: the next sibling. -/
def node_next (doc : xmlNode) : xmlNodePtr → Option xmlNodePtr
  | [] => none
  | i :: p => if (node_at doc ((i + 1) :: p)).isSome then some ((i + 1) :: p) else none

/-- `xmlGetProp(node, name)`: the value of the first attribute of that name. -/
def xmlGetProp (node : xmlNode) (name : String) : Option String :=
  node.props.lookup name

/-- Whether `strcasecmp(a, b)` is 0. -/
def strcaseeq (a b : String) : Bool :=
  a.data.map Char.toLower == b.data.map Char.toLower

/-- How a run of a parser function ends: it returns; or it passes a `NULL` string
to `strcmp` or `strdup`, for which C defines no behaviour; or the steps allowed to
the model are used up. -/
inductive outcome (α : Type) where
  | ok (a : α)
  | undefined
  | unfinished
deriving DecidableEq, Repr

/-! ## `auth-juniper.c`: the session cookie -/

/-- The local variables `dslast`, `dsfirst`, `dsurl`, `dsid` and `dspreauth` of
`check_cookie_success`. -/
structure ds_cookies where
  dslast : Option String := none
  dsfirst : Option String := none
  dsurl : Option String := none
  dsid : Option String := none
  dspreauth : Option String := none
deriving DecidableEq, Repr

/-- The body of the loop of `check_cookie_success` over the cookie jar. -/
def ds_cookie_step (c : ds_cookies) (cookie : oc_vpn_option) : ds_cookies :=
  if cookie.option = "DSFirstAccess" then { c with dsfirst := some cookie.value }
  else if cookie.option = "DSLastAccess" then { c with dslast := some cookie.value }
  else if cookie.option = "DSID" then { c with dsid := some cookie.value }
  else if cookie.option = "DSSignInUrl" then { c with dsurl := some cookie.value }
  else if cookie.option = "DSPREAUTH" then { c with dspreauth := some cookie.value }
  else c

/-- `check_cookie_success(vpninfo)`; `alloc_ok` says whether `buf_alloc` succeeds.
The result is the return value, the session afterwards and the text sent to
`tncc_fd`, if any; `buf_free` returns the error of the buffer it frees. -/
def check_cookie_success (vpninfo : openconnect_info) (alloc_ok : Bool) :
    Int × openconnect_info × Option String :=
  let c := vpninfo.cookies.foldl ds_cookie_step {}
  match c.dsid with
  | none => (-ENOENT, vpninfo, none)
  | some dsid =>
    let buf := buf_alloc alloc_ok
    let tncc := buf_append (buf_append buf "setcookie\n")
      ("Cookie=" ++ fmt_s c.dspreauth ++ "\n")
    if vpninfo.tncc_fd ≠ -1 ∧ buf_error tncc ≠ 0 then (buf_error tncc, vpninfo, none)
    else
      let sent := if vpninfo.tncc_fd ≠ -1 then some tncc.data else none
      let buf := if vpninfo.tncc_fd ≠ -1 then buf_truncate tncc else buf
      let buf := buf_append buf ("DSID=" ++ dsid)
      let buf := match c.dsfirst with
        | some v => buf_append buf ("; DSFirst=" ++ v)
        | none => buf
      let buf := match c.dslast with
        | some v => buf_append buf ("; DSLast=" ++ v)
        | none => buf
      let buf := match c.dsurl with
        | some v => buf_append buf ("; DSSignInUrl=" ++ v)
        | none => buf
      if buf_error buf ≠ 0 then (buf_error buf, vpninfo, sent)
      else (0, { vpninfo with cookie := some buf.data }, sent)

/-! ## `auth-juniper.c`: the TNCC helper

`tncc_preauth` starts the helper process and talks to it over a socket pair.  The
environment of the model says what `socketpair` and `fork` do, whether `buf_alloc`
succeeds, what the array `recvbuf` holds at the start, which bytes the helper sends
and at which wake-ups of `select` the socket is served.  The child process, which
only executes the helper, is not modelled. -/

/-- The bytes of a C string held as text: one byte for each character, its code. -/
def bytes_of (s : String) : List Nat :=
  s.data.map (fun c => c.toNat % 256)

/-- The C string that starts at the beginning of a buffer: the bytes before the
first NUL. -/
def c_string (buf : List Nat) : List Nat :=
  buf.takeWhile (fun b => b ≠ 0)

/-- The text that holds the C string whose bytes are `bs`: one character for each
byte, so that `bytes_of (string_of bs)` is `bs` again. -/
def string_of (bs : List Nat) : String :=
  String.mk (bs.map (fun b => Char.ofNat (b % 256)))

/-- Modelled from the spec: `http_add_cookie(vpninfo, option, value, 1)`, which is
not among the sources.  The spec says the cookie is replaced by the new value; the
jar keeps its order, so the first entry of that name takes the new value, and a
cookie that is not in the jar yet is added at its end. -/
def http_add_cookie : List oc_vpn_option → String → String → List oc_vpn_option
  | [], option, value => [⟨option, value⟩]
  | c :: cs, option, value =>
    if c.option = option then ⟨option, value⟩ :: cs
    else c :: http_add_cookie cs option value

/-- What `tncc_preauth` meets: the `errno` of a failing `socketpair` (`none` when a
pair is made), the two descriptors of the pair, the `errno` of a failing `fork`,
whether `buf_alloc` succeeds, the content of the 1024 bytes of `recvbuf` at the
start, the bytes that the helper sends, and the wake-ups of `select` to come. -/
structure tncc_env where
  socketpair_errno : Option Nat := none
  sockfd0 : Int := 5
  sockfd1 : Int := 6
  fork_errno : Option Nat := none
  buf_ok : Bool := true
  recvbuf : List Nat := List.replicate 1024 0
  rx : List Nat := []
  wakes : List wake := []
deriving DecidableEq, Repr

/-- The body of the loop of `tncc_preauth` over the cookie jar: the local variables
`dspreauth` and `dssignin`. -/
def tncc_cookie_step (c : Option String × String) (cookie : oc_vpn_option) :
    Option String × String :=
  if cookie.option = "DSPREAUTH" then (some cookie.value, c.2)
  else if cookie.option = "DSSIGNIN" then (c.1, cookie.value)
  else c

/-- The `do ... while (len && (count++ < 10))` loop of `tncc_preauth`, entered with
the value of `count`: the last value of `len`, which is negative when the loop was
left through `respfail`.  The loop reads at most eleven lines, so `fuel = 11`
iterations are never used up. -/
def tncc_extra_lines (fd : Int) :
    Nat → Nat → List wake → io_state → Option (Int × List wake × io_state)
  | 0, _, _, _ => none
  | fuel + 1, count, ws, s =>
    match cancellable_gets fd 1024 ws s with
    | none => none
    | some (len, ws, s) =>
      if len < 0 then some (len, ws, s)
      else if len ≠ 0 ∧ count < 10 then tncc_extra_lines fd fuel (count + 1) ws s
      else some (len, ws, s)

/-- The part of `tncc_preauth` after the third line has been read into `recvbuf`:
the cookie is replaced, `tncc_fd` is set and the further lines are read.  The
result is the return value, the session and whether `sockfd[1]` was closed. -/
def tncc_finish (fd : Int) (ws : List wake) (s : io_state) :
    Option (Int × openconnect_info × Bool) :=
  let vpninfo :=
    { s.vpninfo with
      cookies := http_add_cookie s.vpninfo.cookies "DSPREAUTH" (string_of (c_string s.buf))
      tncc_fd := fd }
  match tncc_extra_lines fd 11 0 ws { s with vpninfo := vpninfo } with
  | none => none
  | some (len, _, s) =>
    if len < 0 then some (- EIO, s.vpninfo, true)
    else if len > 0 then some (- EIO, s.vpninfo, true)
    else some (0, s.vpninfo, false)

/-- The part of `tncc_preauth` that reads the response of the helper from
`sockfd[1]`, after the start command has been sent. -/
def tncc_response (fd : Int) (ws : List wake) (s : io_state) :
    Option (Int × openconnect_info × Bool) :=
  match cancellable_gets fd 1024 ws s with
  | none => none
  | some (len, ws, s) =>
    if len < 0 then some (- EIO, s.vpninfo, true)
    else if c_string s.buf ≠ bytes_of "200" then some (-EINVAL, s.vpninfo, true)
    else
      match cancellable_gets fd 1024 ws s with
      | none => none
      | some (len, ws, s) =>
        if len < 0 then some (- EIO, s.vpninfo, true)
        else
          match cancellable_gets fd 1024 ws s with
          | none => none
          | some (len, ws, s) =>
            if len < 0 then some (- EIO, s.vpninfo, true)
            else tncc_finish fd ws s

/-- The start command that `tncc_preauth` builds in `buf`; `ok` says whether
`buf_alloc` succeeds. -/
def tncc_start_buf (ok : Bool) (vpninfo : openconnect_info) (dspreauth dssignin : String) :
    oc_text_buf :=
  let buf := buf_append (buf_alloc ok) "start\n"
  let buf := buf_append buf ("IC=" ++ fmt_s vpninfo.hostname ++ "\n")
  let buf := buf_append buf ("Cookie=" ++ dspreauth ++ "\n")
  buf_append buf ("DSSIGNIN=" ++ dssignin ++ "\n")

/-- `tncc_preauth(vpninfo)`, the variant for systems other than Windows: the return
value, the session afterwards and the descriptors that the function has closed;
`none` when the function waits for the helper for ever. -/
def tncc_preauth (env : tncc_env) (vpninfo : openconnect_info) :
    Option (Int × openconnect_info × List Int) :=
  let c := vpninfo.cookies.foldl tncc_cookie_step (none, "null")
  match c.1 with
  | none => some (-EINVAL, vpninfo, [])
  | some dspreauth =>
    match env.socketpair_errno with
    | some errno => some (-(errno : Int), vpninfo, [])
    | none =>
      match env.fork_errno with
      | some errno => some (-(errno : Int), vpninfo, [env.sockfd0, env.sockfd1])
      | none =>
        let buf := tncc_start_buf env.buf_ok vpninfo dspreauth c.2
        if buf_error buf ≠ 0 then some (buf_error buf, vpninfo, [env.sockfd0, env.sockfd1])
        else
          let data := bytes_of buf.data
          match cancellable_send env.sockfd1 data.length env.wakes
              { vpninfo := vpninfo, rx := env.rx, buf := data } with
          | none => none
          | some (ret, ws, s) =>
            if ret ≠ (data.length : Int) then
              some (- EIO, s.vpninfo, [env.sockfd0, env.sockfd1])
            else
              match tncc_response env.sockfd1 ws { s with buf := env.recvbuf } with
              | none => none
              | some (ret, v, closed) =>
                some (ret, v, if closed then [env.sockfd0, env.sockfd1] else [env.sockfd0])

/-! ## `auth-juniper.c`: the form parser

Allocation failures (`calloc`, `realloc`, `asprintf`, `strdup`) are not modelled:
every allocation succeeds. -/

/-- `htmlnode_next(top, node)`, the part after `node->children` was found `NULL`:
the loop that climbs to the first ancestor-or-self with a next sibling. -/
def htmlnode_climb (doc : xmlNode) (top : xmlNodePtr) : xmlNodePtr → Option xmlNodePtr
  | [] => none
  | i :: p =>
    match node_next doc (i :: p) with
    | some n => some n
    | none => if p = top then none else htmlnode_climb doc top p

/-- `htmlnode_next(top, node)`. -/
def htmlnode_next (doc : xmlNode) (top node : xmlNodePtr) : Option xmlNodePtr :=
  match node_children doc node with
  | some c => some c
  | none => htmlnode_climb doc top node

/-- `oncp_can_gen_tokencode(vpninfo, form, opt)`; `form->auth_id` is passed to
`strcmp`. -/
def oncp_can_gen_tokencode (lib : token_lib) (vpninfo : openconnect_info)
    (form : oc_auth_form) (opt : oc_form_opt) : outcome Int :=
  if vpninfo.token_mode = .OC_TOKEN_MODE_NONE ∨ vpninfo.token_bypassed = true then
    .ok (-EINVAL)
  else
    match form.auth_id with
    | none => .undefined
    | some id =>
      if id ≠ "frmDefender" ∧ id ≠ "frmNextToken" ∧ id ≠ "frmTotpToken" then .ok (-EINVAL)
      else .ok (can_gen_tokencode lib vpninfo form opt)

/-- The loop at the end of `parse_input_node` that appends `opt` to the list unless
an option of the same name is met first; both names are passed to `strcmp`. -/
def append_unless_duplicate :
    List oc_form_opt → oc_form_opt → outcome (List oc_form_opt)
  | [], opt => .ok [opt]
  | p :: rest, opt =>
    match p.name, opt.name with
    | some a, some b =>
      if a = b then .ok (p :: rest)
      else
        match append_unless_duplicate rest opt with
        | .ok l => .ok (p :: l)
        | .undefined => .undefined
        | .unfinished => .unfinished
    | _, _ => .undefined

/-- The option that `parse_input_node` builds from an input element of the given
`type`, or `none` where it gives up with `-EINVAL`. -/
def input_opt (lib : token_lib) (vpninfo : openconnect_info) (form : oc_auth_form)
    (node : xmlNode) (submit_button : String) (type : String) :
    outcome (Option oc_form_opt) :=
  let name := xmlGetProp node "name"
  let value := xmlGetProp node "value"
  if strcaseeq type "hidden" then
    .ok (some { type := .OC_FORM_OPT_HIDDEN, name := name, _value := value })
  else if strcaseeq type "password" then
    let opt : oc_form_opt :=
      { type := .OC_FORM_OPT_PASSWORD, name := name, label := some (fmt_s name ++ ":") }
    match oncp_can_gen_tokencode lib vpninfo form opt with
    | .ok r => .ok (some (if r = 0 then { opt with type := .OC_FORM_OPT_TOKEN } else opt))
    | .undefined => .undefined
    | .unfinished => .unfinished
  else if strcaseeq type "text" then
    .ok (some { type := .OC_FORM_OPT_TEXT, name := name, label := some (fmt_s name ++ ":") })
  else if strcaseeq type "username" then
    .ok (some { type := .OC_FORM_OPT_TEXT, name := name, label := some (fmt_s name ++ ":") })
  else if strcaseeq type "submit" then
    match name with
    | some n =>
      if n = submit_button ∨ n = "sn-postauth-proceed" ∨ n = "sn-preauth-proceed" then
        .ok (some { type := .OC_FORM_OPT_HIDDEN, name := name, _value := value })
      else .ok none
    | none => .ok none
  else if strcaseeq type "checkbox" then
    .ok (some { type := .OC_FORM_OPT_HIDDEN, name := name, _value := value })
  else .ok none

/-- `parse_input_node(vpninfo, form, node, submit_button)`: the return value and
the form afterwards. -/
def parse_input_node (lib : token_lib) (vpninfo : openconnect_info) (form : oc_auth_form)
    (node : xmlNode) (submit_button : String) : outcome (Int × oc_auth_form) :=
  match xmlGetProp node "type" with
  | none => .ok (-EINVAL, form)
  | some type =>
    match input_opt lib vpninfo form node submit_button type with
    | .undefined => .undefined
    | .unfinished => .unfinished
    | .ok none => .ok (-EINVAL, form)
    | .ok (some opt) =>
      match append_unless_duplicate form.opts opt with
      | .ok opts => .ok (0, { form with opts := opts })
      | .undefined => .undefined
      | .unfinished => .unfinished

/-- The choices that `parse_select_node` collects from the `option` children of
the select element; the content of each is passed to `strdup`. -/
def select_choices : List xmlNode → outcome (List oc_choice)
  | [] => .ok []
  | child :: rest =>
    match child.name with
    | none => select_choices rest
    | some n =>
      if strcaseeq n "option" then
        match child.content with
        | none => .undefined
        | some label =>
          match select_choices rest with
          | .ok l => .ok ({ name := some label, label := some label } :: l)
          | .undefined => .undefined
          | .unfinished => .unfinished
      else select_choices rest

/-- `parse_select_node(vpninfo, form, node)`: the return value and the form
afterwards; the name of the element is passed to `strdup` and `strcmp`. -/
def parse_select_node (form : oc_auth_form) (node : xmlNode) :
    outcome (Int × oc_auth_form) :=
  match xmlGetProp node "name" with
  | none => .undefined
  | some name =>
    match select_choices node.children with
    | .undefined => .undefined
    | .unfinished => .unfinished
    | .ok choices =>
      let opt : oc_form_opt :=
        { type := .OC_FORM_OPT_SELECT, name := some name, label := some name,
          choices := choices }
      .ok (0, { form with
        opts := opt :: form.opts
        authgroup_opt := if name = "realm" then some opt else form.authgroup_opt })

/-- The loop `while (child->children) child = child->last;` of `parse_form_node`. -/
def skip_children (doc : xmlNode) : Nat → xmlNodePtr → xmlNodePtr
  | 0, child => child
  | fuel + 1, child =>
    match node_last doc child with
    | some l => skip_children doc fuel l
    | none => child

/-- The body of the loop of `parse_form_node` for the element `n` at `child`: the
form afterwards and the node at which the walk goes on. -/
def parse_form_child (lib : token_lib) (vpninfo : openconnect_info) (doc : xmlNode)
    (submit_button : String) (form : oc_auth_form) (child : xmlNodePtr) (n : xmlNode) :
    outcome (oc_auth_form × xmlNodePtr) :=
  match n.name with
  | none => .ok (form, child)
  | some name =>
    if strcaseeq name "input" then
      match parse_input_node lib vpninfo form n submit_button with
      | .ok r => .ok (r.2, child)
      | .undefined => .undefined
      | .unfinished => .unfinished
    else if strcaseeq name "select" then
      match parse_select_node form n with
      | .ok r => .ok (r.2, skip_children doc doc.size child)
      | .undefined => .undefined
      | .unfinished => .unfinished
    else if strcaseeq name "textarea" then
      match xmlGetProp n "name" with
      | some fieldname =>
        if strcaseeq fieldname "sn-postauth-text" ∨ strcaseeq fieldname "sn-preauth-text" then
          match n.content with
          | some postauth_msg => .ok ({ form with banner := some postauth_msg }, child)
          | none => .ok (form, child)
        else .ok (form, child)
      | none => .ok (form, child)
    else .ok (form, child)

/-- The loop of `parse_form_node` from the node `child` on, for at most `fuel`
nodes. -/
def parse_form_loop (lib : token_lib) (vpninfo : openconnect_info) (doc : xmlNode)
    (node : xmlNodePtr) (submit_button : String) :
    Nat → Option xmlNodePtr → oc_auth_form → outcome oc_auth_form
  | _, none, form => .ok form
  | 0, some _, _ => .unfinished
  | fuel + 1, some child, form =>
    if child = node then .ok form
    else
      match node_at doc child with
      | none => .undefined
      | some n =>
        match parse_form_child lib vpninfo doc submit_button form child n with
        | .ok r =>
          parse_form_loop lib vpninfo doc node submit_button fuel
            (htmlnode_next doc node r.2) r.1
        | .undefined => .undefined
        | .unfinished => .unfinished

/-- `parse_form_node(vpninfo, node, submit_button)` on the element at `node` of
the document: `ok none` is the return value `NULL`.  The name of the form is passed
to `strdup`. -/
def parse_form_node (lib : token_lib) (vpninfo : openconnect_info) (doc : xmlNode)
    (node : xmlNodePtr) (submit_button : String) : outcome (Option oc_auth_form) :=
  match node_at doc node with
  | none => .undefined
  | some n =>
    let method := xmlGetProp n "method"
    let action := xmlGetProp n "action"
    if method.all (fun m => !strcaseeq m "POST") ∨ action.all (fun a => a = "") then
      .ok none
    else
      match xmlGetProp n "name" with
      | none => .undefined
      | some auth_id =>
        let form : oc_auth_form :=
          { method := method, action := action, auth_id := some auth_id,
            banner := some auth_id }
        match parse_form_loop lib vpninfo doc node submit_button (doc.size + 1)
            (htmlnode_next doc node node) form with
        | .ok form => .ok (some form)
        | .undefined => .undefined
        | .unfinished => .unfinished

/-- The loop of `find_form_node` from `node` on, for at most `fuel` nodes; the
walk starts at the root element, which is also its `top`. -/
def find_form_loop (doc : xmlNode) : Nat → Option xmlNodePtr → outcome (Option xmlNodePtr)
  | _, none => .ok none
  | 0, some _ => .unfinished
  | fuel + 1, some node =>
    match node_at doc node with
    | none => .undefined
    | some n =>
      if n.name.any (fun name => strcaseeq name "form") then .ok (some node)
      else find_form_loop doc fuel (htmlnode_next doc [] node)

/-- `find_form_node(doc)`. -/
def find_form_node (doc : xmlNode) : outcome (Option xmlNodePtr) :=
  find_form_loop doc (doc.size + 1) (some [])

/-- Whether `node->name` is set and equal to `name` ignoring case. -/
def node_is (name : String) (node : xmlNode) : Bool :=
  node.name.any (fun n => strcaseeq n name)

/-- The choices that `parse_roles_table_node` collects: one for each `a` element
with an `href` and a content, in a `td` of a `tr` of the table. -/
def roles_choices (node : xmlNode) : List oc_choice :=
  (node.children.filter (node_is "tr")).flatMap fun table_itr =>
    (table_itr.children.filter (node_is "td")).flatMap fun row_itr =>
      (row_itr.children.filter (node_is "a")).filterMap fun data_itr =>
        match xmlGetProp data_itr "href", data_itr.content with
        | some role_link, some role_name =>
          some { name := some role_link, label := some role_name }
        | _, _ => none

/-- `parse_roles_table_node(node)`. -/
def parse_roles_table_node (node : xmlNode) : oc_auth_form :=
  { opts := [{ type := .OC_FORM_OPT_SELECT, name := some "frmSelectRoles",
               label := some "frmSelectRoles", choices := roles_choices node }] }

/-- The loop of `parse_roles_form_node` from `child` on, for at most `fuel`
nodes. -/
def parse_roles_form_loop (doc : xmlNode) (node : xmlNodePtr) :
    Nat → Option xmlNodePtr → outcome (Option oc_auth_form)
  | _, none => .ok none
  | 0, some _ => .unfinished
  | fuel + 1, some child =>
    if child = node then .ok none
    else
      match node_at doc child with
      | none => .undefined
      | some n =>
        if node_is "table" n ∧ xmlGetProp n "id" = some "TABLE_SelectRole_1" then
          .ok (some (parse_roles_table_node n))
        else parse_roles_form_loop doc node fuel (htmlnode_next doc node child)

/-- `parse_roles_form_node(node)` on the element at `node` of the document. -/
def parse_roles_form_node (doc : xmlNode) (node : xmlNodePtr) :
    outcome (Option oc_auth_form) :=
  parse_roles_form_loop doc node (doc.size + 1) (htmlnode_next doc node node)

/-! ## `auth-juniper.c`: `oncp_obtain_cookie`

The function talks to the gateway (`do_https_request`), to libxml2
(`htmlReadMemory`), to the user (`process_auth_form`) and to the TNCC helper
(`tncc_preauth`).  What they answer is an input of the model: a list of
`oncp_round`s, one for each pass of the `while (1)` loop, and the functions of
`oncp_services`.  The model returns how the function ends, the session afterwards
and the requests and prompts it made, in order. -/

/-- Modelled from the spec: the constant `OC_FORM_RESULT_NEWGROUP` of
`openconnect.h`, which is not among the sources; the spec calls it `NewGroup`. -/
def OC_FORM_RESULT_NEWGROUP : Int := 2

/-- One call of `process_auth_form(vpninfo, form)`: the return value and the form
with the values that the user entered. -/
abbrev auth_prompt := oc_auth_form → Int × oc_auth_form

/-- The functions that `oncp_obtain_cookie` calls and that are not modelled in
detail: the token functions, the text that `buf_append_urlencoded` appends,
`handle_redirect` and `tncc_preauth`. -/
structure oncp_services where
  lib : token_lib
  urlencoded : Option String → String
  handle_redirect : openconnect_info → openconnect_info
  tncc_preauth : openconnect_info → Int × openconnect_info

/-- What the environment answers during one pass of the loop: the return value
of `do_https_request` and the cookie jar after it, the document that
`htmlReadMemory` makes of the response (`none` is `NULL`), whether the two
`buf_alloc` calls of the pass succeed, and the answers of the user to the
successive calls of `process_auth_form`. -/
structure oncp_round where
  https_ret : Int
  cookies : List oc_vpn_option := []
  doc : Option xmlNode := none
  url_ok : Bool := true
  cookie_buf_ok : Bool := true
  prompts : List auth_prompt := []

/-- How a run of `oncp_obtain_cookie` ends: it returns `ret`; or the answers given
to the model are used up while it is still running; or it passes a `NULL` string to
`strcmp` or `strdup`. -/
inductive oncp_end where
  | returned (ret : Int)
  | pending
  | undefined
deriving DecidableEq, Repr

/-- What `oncp_obtain_cookie` does towards the outside: a call of
`do_https_request` with its method and, for a `POST`, the request body, in the
session as it is at the call; a call of `process_auth_form` with the form shown; a
call of `tncc_preauth`. -/
inductive oncp_event where
  | request (method : String) (body : Option String) (session : openconnect_info)
  | prompt (form : oc_auth_form)
  | tncc
deriving DecidableEq, Repr

/-- Where a part of the loop body leaves the function: at `out` or at a `return`,
or at the end of the body, going round again. -/
inductive oncp_step where
  | stop (e : oncp_end) (vpninfo : openconnect_info)
  | again (vpninfo : openconnect_info) (resp_buf : oc_text_buf) (try_tncc : Bool)
deriving DecidableEq, Repr

/-- The state of the loop body once a form is parsed: the session, `resp_buf`,
`try_tncc`, the form, `role_select`, and `ask`, which is false for the form that
goes straight to `form_done`. -/
structure oncp_parsed where
  vpninfo : openconnect_info
  resp_buf : oc_text_buf
  try_tncc : Bool
  form : oc_auth_form
  role_select : Bool
  ask : Bool
deriving DecidableEq, Repr

/-- The chain of comparisons of `form_id` in `oncp_obtain_cookie`: the parsed
form with `role_select` and whether `process_auth_form` is called for it;
`ok none` where `ret` is set to `-EINVAL`. -/
def oncp_parse_form (sv : oncp_services) (vpninfo : openconnect_info) (doc : xmlNode)
    (node : xmlNodePtr) (form_id : Option String) :
    outcome (Option (oc_auth_form × Bool × Bool)) :=
  let parsed (r : outcome (Option oc_auth_form)) (role_select ask : Bool) :
      outcome (Option (oc_auth_form × Bool × Bool)) :=
    match r with
    | .ok (some form) => .ok (some (form, role_select, ask))
    | .ok none => .ok none
    | .undefined => .undefined
    | .unfinished => .unfinished
  match form_id with
  | none => .ok none
  | some id =>
    if id = "frmLogin" then
      parsed (parse_form_node sv.lib vpninfo doc node "btnSubmit") false true
    else if id = "frmDefender" ∨ id = "frmNextToken" then
      parsed (parse_form_node sv.lib vpninfo doc node "btnAction") false true
    else if id = "frmConfirmation" then
      parsed (parse_form_node sv.lib vpninfo doc node "btnContinue") false false
    else if id = "frmSelectRoles" then
      parsed (parse_roles_form_node doc node) true true
    else if id = "frmTotpToken" then
      parsed (parse_form_node sv.lib vpninfo doc node "totpactionEnter") false true
    else .ok none

/-- The first part of the loop body of `oncp_obtain_cookie`: from the request to
the parsed form.  The text of `url` only serves `htmlReadMemory`, whose result is
given; of `do_https_request` the model keeps the return value and the cookie jar. -/
def oncp_fetch (sv : oncp_services) (r : oncp_round) (vpninfo : openconnect_info)
    (resp_buf : oc_text_buf) (try_tncc : Bool) :
    (oncp_step ⊕ oncp_parsed) × List oncp_event :=
  let ev : oncp_event :=
    if buf_pos resp_buf ≠ 0 then .request "POST" (some resp_buf.data) vpninfo
    else .request "GET" none vpninfo
  let vpninfo := { vpninfo with cookies := r.cookies }
  if r.https_ret < 0 then (.inl (.stop (.returned r.https_ret) vpninfo), [ev])
  else if buf_error (buf_alloc r.url_ok) ≠ 0 then
    (.inl (.stop (.returned (buf_error (buf_alloc r.url_ok))) vpninfo), [ev])
  else
    let c := check_cookie_success vpninfo r.cookie_buf_ok
    if c.1 = 0 then (.inl (.stop (.returned 0) c.2.1), [ev])
    else
      let vpninfo := c.2.1
      match r.doc with
      | none => (.inl (.stop (.returned (-EINVAL)) vpninfo), [ev])
      | some doc =>
        let resp_buf := buf_truncate resp_buf
        match find_form_node doc with
        | .undefined => (.inl (.stop .undefined vpninfo), [ev])
        | .unfinished => (.inl (.stop .pending vpninfo), [ev])
        | .ok none =>
          if try_tncc then
            let t := sv.tncc_preauth vpninfo
            if t.1 ≠ 0 then (.inl (.stop (.returned t.1) t.2), [ev, .tncc])
            else (.inl (.again t.2 resp_buf false), [ev, .tncc])
          else (.inl (.stop (.returned (-EINVAL)) vpninfo), [ev])
        | .ok (some node) =>
          let form_id := (node_at doc node).bind (fun n => xmlGetProp n "name")
          match oncp_parse_form sv vpninfo doc node form_id with
          | .undefined => (.inl (.stop .undefined vpninfo), [ev])
          | .unfinished => (.inl (.stop .pending vpninfo), [ev])
          | .ok none => (.inl (.stop (.returned (-EINVAL)) vpninfo), [ev])
          | .ok (some (form, role_select, ask)) =>
            (.inr { vpninfo := vpninfo, resp_buf := resp_buf, try_tncc := try_tncc,
                    form := form, role_select := role_select, ask := ask }, [ev])

/-- The loop `do { ret = process_auth_form(vpninfo, form); } while (ret ==
OC_FORM_RESULT_NEWGROUP);` over the answers of the user: the last return value with
the form as it then is (`none` when the answers are used up), and the forms shown,
in order. -/
def process_auth_form_loop :
    List auth_prompt → oc_auth_form → Option (Int × oc_auth_form) × List oncp_event
  | [], _ => (none, [])
  | p :: ps, form =>
    let r := p form
    if r.1 = OC_FORM_RESULT_NEWGROUP then
      let out := process_auth_form_loop ps r.2
      (out.1, .prompt form :: out.2)
    else (some r, [.prompt form])

/-- The part of the loop body of `oncp_obtain_cookie` from the label `form_done`
on. -/
def oncp_form_done (sv : oncp_services) (vpninfo : openconnect_info)
    (resp_buf : oc_text_buf) (try_tncc : Bool) (form : oc_auth_form) : oncp_step :=
  let resp_buf := (append_form_opts sv.urlencoded form resp_buf).2
  if buf_error resp_buf ≠ 0 then .stop (.returned (buf_error resp_buf)) vpninfo
  else
    let vpninfo := { vpninfo with redirect_url := form.action }
    .again (sv.handle_redirect vpninfo) resp_buf try_tncc

/-- The second part of the loop body of `oncp_obtain_cookie`: from the call of
`process_auth_form` to the end of the body.  `form->opts[0]._value` is passed to
`strdup`. -/
def oncp_submit (sv : oncp_services) (prompts : List auth_prompt) (s : oncp_parsed) :
    oncp_step × List oncp_event :=
  if s.ask then
    match process_auth_form_loop prompts s.form with
    | (none, evs) => (.stop .pending s.vpninfo, evs)
    | (some (ret, form), evs) =>
      if ret ≠ 0 then (.stop (.returned ret) s.vpninfo, evs)
      else
        let g := do_gen_tokencode sv.lib s.vpninfo form
        if g.1 ≠ 0 then
          (.stop (.returned g.1) { s.vpninfo with token_bypassed := true }, evs)
        else if s.role_select then
          match g.2.opts.head?.bind (fun o => o._value) with
          | none => (.stop .undefined s.vpninfo, evs)
          | some v =>
            (.again (sv.handle_redirect { s.vpninfo with redirect_url := some v })
              s.resp_buf s.try_tncc, evs)
        else (oncp_form_done sv s.vpninfo s.resp_buf s.try_tncc g.2, evs)
  else (oncp_form_done sv s.vpninfo s.resp_buf s.try_tncc s.form, [])

/-- What follows a part of the loop body: the result of the function, with the
events `evs` so far, where `rest` is the run of the loop from the next pass on. -/
def oncp_continue (rest : openconnect_info → oc_text_buf → Bool →
      oncp_end × openconnect_info × List oncp_event)
    (step : oncp_step) (evs : List oncp_event) :
    oncp_end × openconnect_info × List oncp_event :=
  match step with
  | .stop e v => (e, v, evs)
  | .again v b t => ((rest v b t).1, (rest v b t).2.1, evs ++ (rest v b t).2.2)

/-- The `while (1)` loop of `oncp_obtain_cookie`, one round of answers for each
pass. -/
def oncp_loop (sv : oncp_services) :
    List oncp_round → openconnect_info → oc_text_buf → Bool →
      oncp_end × openconnect_info × List oncp_event
  | [], vpninfo, _, _ => (.pending, vpninfo, [])
  | r :: rs, vpninfo, resp_buf, try_tncc =>
    match oncp_fetch sv r vpninfo resp_buf try_tncc with
    | (.inl step, evs) => oncp_continue (oncp_loop sv rs) step evs
    | (.inr s, evs) =>
      oncp_continue (oncp_loop sv rs) (oncp_submit sv r.prompts s).1
        (evs ++ (oncp_submit sv r.prompts s).2)

/-- `oncp_obtain_cookie(vpninfo)`; `resp_ok` says whether the `buf_alloc` of
`resp_buf` succeeds. -/
def oncp_obtain_cookie (sv : oncp_services) (resp_ok : Bool) (rounds : List oncp_round)
    (vpninfo : openconnect_info) : oncp_end × openconnect_info × List oncp_event :=
  let try_tncc := vpninfo.csd_wrapper.isSome
  let resp_buf := buf_alloc resp_ok
  if buf_error resp_buf ≠ 0 then (.returned (-ENOMEM), vpninfo, [])
  else oncp_loop sv rounds vpninfo resp_buf try_tncc

/-! ## Vocabulary of the statements about `ssl.c` -/

/-- The wake-ups left after the socket has been read `k` times with no command
arriving: wake-ups at which neither descriptor is ready are passed over, every
other one has only the socket ready, with at least one byte to deliver.  `none`
when the wake-ups `ws` are not of this kind. -/
def after_reads : Nat → List wake → Option (List wake)
  | 0, ws => some ws
  | _ + 1, [] => none
  | k + 1, w :: ws =>
    if w.cmd_set then none
    else if w.fd_set = false then after_reads (k + 1) ws
    else
      match w.io with
      | .xfer (_ + 1) => after_reads k ws
      | _ => none

/-- Neither the cancel flag nor the pause flag of the session is set. -/
@[reducible] def no_cmd_pending (v : openconnect_info) : Prop :=
  v.got_cancel_cmd = false ∧ v.got_pause_cmd = false

/-- The interval of the next round of `ssl_reconnect`: `interval` plus
`reconnect_interval` as an `int`, replaced by `interval_max` when it is larger. -/
def next_interval (interval_max ri interval : Int) : Int :=
  if int_wrap (interval + ri) > interval_max then interval_max else int_wrap (interval + ri)

/-- A line without one trailing carriage return (byte 13), if it has one. -/
def strip_cr (line : List Nat) : List Nat :=
  if line.getLast? = some 13 then line.dropLast else line

/-! ## Vocabulary of the statements about the session cookie and form bodies -/

/-- The value of the last entry of the cookie jar named `name`, if there is one. -/
def last_cookie_named (jar : List oc_vpn_option) (name : String) : Option String :=
  (jar.reverse.find? (fun c => c.option = name)).map (fun c => c.value)

/-- The text `pre` followed by the value, for a value that is present; nothing
otherwise. -/
def cookie_part (pre : String) (v : Option String) : String :=
  match v with
  | some x => pre ++ x
  | none => ""

/-- The session cookie that the specification gives for a cookie jar holding a
`DSID` of value `v`. -/
def session_cookie_text (jar : List oc_vpn_option) (v : String) : String :=
  "DSID=" ++ v ++ cookie_part "; DSFirst=" (last_cookie_named jar "DSFirstAccess")
    ++ cookie_part "; DSLast=" (last_cookie_named jar "DSLastAccess")
    ++ cookie_part "; DSSignInUrl=" (last_cookie_named jar "DSSignInUrl")

/-- The request body that the specification gives for a list of options: the
encoded `name=value` pairs joined by `&`. -/
def urlencoded_pairs (enc : Option String → String) (opts : List oc_form_opt) : String :=
  "&".intercalate (opts.map (fun o => enc o.name ++ "=" ++ enc o._value))

/-- Modelled from the spec: the URL encoding of one byte in
`application/x-www-form-urlencoded` bodies; `buf_append_urlencoded` is not among the
sources.  Letters, digits and `-`, `_`, `.`, `~` stand for themselves, every other
byte is `%` and its two hexadecimal digits. -/
def urlencode_byte (b : Nat) : List Char :=
  let c := Char.ofNat b
  if c.isAlphanum || c == '-' || c == '_' || c == '.' || c == '~' then [c]
  else ['%', Nat.digitChar (b / 16), Nat.digitChar (b % 16)]

/-- Modelled from the spec: the URL encoding of a string, byte by byte; a `NULL`
string gives no text. -/
def urlencode (s : Option String) : String :=
  match s with
  | none => ""
  | some s => String.mk ((bytes_of s).flatMap urlencode_byte)

/-! ## Vocabulary of the statements about the document walk -/

mutual
/-- The node `n` at the pointer `p` and all nodes below it, in document order, each
with its pointer. -/
def subtree : xmlNode → xmlNodePtr → List (xmlNodePtr × xmlNode)
  | .mk name props content cs, p => (p, .mk name props content cs) :: subtrees cs 0 p
/-- The nodes of the trees `cs`, which are the children of the node at `p` from
index `i` on, in document order. -/
def subtrees : List xmlNode → Nat → xmlNodePtr → List (xmlNodePtr × xmlNode)
  | [], _, _ => []
  | c :: cs, i, p => subtree c (i :: p) ++ subtrees cs (i + 1) p
end

/-- The descendants of the node `n` at the pointer `p`, in document order. -/
def descendants (n : xmlNode) (p : xmlNodePtr) : List (xmlNodePtr × xmlNode) :=
  subtrees n.children 0 p

/-- The pointer of the first entry of `l`, or `k` when `l` is empty. -/
def first_or (l : List (xmlNodePtr × xmlNode)) (k : Option xmlNodePtr) : Option xmlNodePtr :=
  match l with
  | [] => k
  | x :: _ => some x.1

/-- The walk by `htmlnode_next(top, ·)` goes through the nodes of `l` one after the
other and then to `k`: each entry is a node of the document, lies deeper than `top`,
and `htmlnode_next` leads from it to the next entry, from the last one to `k`. -/
def walks (doc : xmlNode) (top : xmlNodePtr) :
    List (xmlNodePtr × xmlNode) → Option xmlNodePtr → Prop
  | [], _ => True
  | x :: rest, k =>
    node_at doc x.1 = some x.2 ∧ top.length < x.1.length ∧
      htmlnode_next doc top x.1 = first_or rest k ∧ walks doc top rest k

/-- The names of the options of the form that a parser run returned, in list
order; `none` when the run returned no form. -/
def parsed_names (r : outcome (Option oc_auth_form)) : Option (List (Option String)) :=
  match r with
  | .ok (some form) => some (form.opts.map (fun o => o.name))
  | _ => none

/-- The bytes of a stream of lines, each followed by a newline. -/
def lines_bytes (lines : List (List Nat)) : List Nat :=
  lines.flatMap (fun l => l ++ [10])

/-- The invariant of an ESP state: the cipher handle and the HMAC handle are both
initialised or both null. -/
def handles_paired (e : esp) : Prop :=
  e.cipher.isSome = e.hmac.isSome

/-! ## Concrete inputs for the ESP receive path -/

/-- A stand-in cipher service for evaluating the code: the HMAC is twenty copies
of the byte sum of key and message, and decryption returns its input. -/
def toyGnutls : Gnutls where
  hmac := fun h msg =>
    List.replicate 20 (((h.map (fun k => k.key.sum)).getD 0 + msg.sum) % 256)
  decrypt := fun _ _ ct => some ct

/-- A session with initialised inbound handles whose inbound SPI is `01 02 03 04`. -/
def sessionA : openconnect_info :=
  { esp_in := { spi := [1, 2, 3, 4]
                cipher := some { alg := 2, key := List.replicate 16 1 }
                hmac := some { alg := 2, key := List.replicate 20 2 } } }

/-- A 16-byte block: nine payload bytes `b`, five padding bytes, `pad_len = 5`,
`next_header = 0x04`. -/
def blockOf (b : Nat) : List Nat :=
  List.replicate 9 b ++ [1, 2, 3, 4, 5] ++ [5, 4]

/-- A 16-byte block without payload: fourteen padding bytes, `pad_len = 14`,
`next_header = 0x04`. -/
def paddingOnlyBlock : List Nat :=
  [1, 2, 3, 4, 5, 6, 7, 8, 9, 10, 11, 12, 13, 14] ++ [14, 4]

/-- The datagram for `sessionA` that carries the ciphertext `ct`: SPI, sequence
number 1, a zero IV, `ct`, and the twelve HMAC bytes over what precedes them. -/
def datagramOf (ct : List Nat) : List Nat :=
  let body := [1, 2, 3, 4] ++ [0, 0, 0, 1] ++ List.replicate 16 0 ++ ct
  body ++ (toyGnutls.hmac sessionA.esp_in.hmac body).take 12

/-- An allocation that holds the bytes `bs` from offset 24 on and zero elsewhere. -/
def heapWith (bs : List Nat) : Int → Nat :=
  fun i => if 24 ≤ i then bs.getD (i - 24).toNat 0 else 0


/-! ## Concrete inputs for the cancellable helpers -/

/-- A session with a command descriptor and no command pending. -/
def sessionB : openconnect_info :=
  { cmd_fd := 3, cmd_fd_write := 4 }

/-- A wake-up at which only the socket is ready, with bytes to read. -/
def readyWake : wake :=
  { io := .xfer 4 }

/-- A wake-up at which no descriptor is ready. -/
def idleWake : wake :=
  { fd_set := false }

/-- A wake-up at which the command descriptor delivers `OC_CMD_CANCEL`. -/
def cancelWake : wake :=
  { cmd_set := true, cmd_read := some OC_CMD_CANCEL, fd_set := false }

/-- The bytes of `ab\r\r`, newline, `c`, newline arriving on the socket, and an
eight-byte buffer filled with `0xff`. -/
def lineState : io_state :=
  { vpninfo := sessionB, rx := [97, 98, 13, 13, 10, 99, 10], buf := List.replicate 8 255 }

/-- Wake-ups at which two bytes are moved, then nothing is ready, then the call on
the socket fails with `errno = 11` (`EAGAIN`). -/
def partialThenFail : List wake :=
  [{ io := .xfer 2 }, idleWake, { io := .fail 11 }, readyWake]

/-! ## Concrete inputs for `ssl_reconnect` -/

/-- Modelled from the spec: the macro `RECONNECT_INTERVAL_MAX` of
`openconnect-internal.h`, which is not among the sources; the spec names it as the
cap of the sleep interval, the value is the header's. -/
def RECONNECT_INTERVAL_MAX : Int := 100

/-- A round in which `tcp_connect` fails with `-ECONNRESET` and no command arrives
during the sleep. -/
def failRound : reconnect_round :=
  { connect := -ECONNRESET }

/-- A session configured with `reconnect_timeout = t` and `reconnect_interval = i`,
with a command descriptor and the `reconnected` callback installed. -/
def reconnectSession (t i : Int) : openconnect_info :=
  { cmd_fd := 3, cmd_fd_write := 4, reconnect_timeout := t, reconnect_interval := i,
    reconnected := true }


/-! ## Concrete inputs for the session cookie -/

/-- A session whose cookie jar is `jar`. -/
def cookieSession (jar : List oc_vpn_option) : openconnect_info :=
  { cmd_fd := 3, cmd_fd_write := 4, cookies := jar }

/-- The cookie jar after the response that sets `DSID=abcd`. -/
def jarAbcd : List oc_vpn_option :=
  [⟨"DSID", "abcd"⟩]

/-- A cookie jar in which `DSID` is assigned twice and the three optional cookies
are present, `DSLastAccess` before `DSFirstAccess`. -/
def jarFull : List oc_vpn_option :=
  [⟨"DSLastAccess", "20"⟩, ⟨"DSID", "old"⟩, ⟨"lang", "en"⟩, ⟨"DSSignInUrl", "/"⟩,
   ⟨"DSFirstAccess", "10"⟩, ⟨"DSID", "new"⟩]

/-- A cookie jar without `DSID`. -/
def jarAnonymous : List oc_vpn_option :=
  [⟨"DSSignInUrl", "/"⟩, ⟨"DSFirstAccess", "10"⟩]

/-! ## Concrete inputs for the form functions -/

/-- The login form of scenario S1 after the user has entered `alice` and
`hunter2`. -/
def formS1 : oc_auth_form :=
  { method := some "POST", action := some "/auth", auth_id := some "frmLogin",
    banner := some "frmLogin",
    opts :=
      [{ type := .OC_FORM_OPT_TEXT, name := some "username", label := some "username:",
         _value := some "alice" },
       { type := .OC_FORM_OPT_PASSWORD, name := some "password", label := some "password:",
         _value := some "hunter2" },
       { type := .OC_FORM_OPT_HIDDEN, name := some "btnSubmit", _value := some "Go" }] }

/-- A form whose values need escaping. -/
def formEscaped : oc_auth_form :=
  { method := some "POST", action := some "/auth", auth_id := some "frmLogin",
    opts :=
      [{ type := .OC_FORM_OPT_TEXT, name := some "user name", _value := some "a&b=c" },
       { type := .OC_FORM_OPT_HIDDEN, name := some "x", _value := none }] }

/-- An element without text content. -/
def element (name : String) (props : List (String × String)) (children : List xmlNode) :
    xmlNode :=
  .mk (some name) props (some "") children

/-- An element whose only child is a text node. -/
def text_element (name : String) (props : List (String × String)) (text : String) :
    xmlNode :=
  .mk (some name) props (some text) [.mk (some "text") [] (some text) []]

/-- A page whose body holds the given nodes. -/
def page (body : List xmlNode) : xmlNode :=
  element "html" [] [element "head" [] [], element "body" [] body]

/-- A build without token support: no tokencode can be generated. -/
def noTokens : token_lib :=
  { can_gen_totp_code := fun _ _ _ => -EINVAL
    can_gen_hotp_code := fun _ _ _ => -EINVAL
    do_gen_totp_code := fun _ form _ => (-EINVAL, form)
    do_gen_hotp_code := fun _ form _ => (-EINVAL, form) }

/-- The login page of scenario S1. -/
def pageS1 : xmlNode :=
  page [element "form" [("name", "frmLogin"), ("method", "POST"), ("action", "/auth")]
    [element "input" [("name", "username"), ("type", "text")] [],
     element "input" [("name", "password"), ("type", "password")] [],
     element "input" [("name", "btnSubmit"), ("type", "submit"), ("value", "Go")] []]]

/-- The `select` element of scenario S2, with the options `Staff` and `Guest`. -/
def selectRealm : xmlNode :=
  element "select" [("name", "realm")]
    [text_element "option" [] "Staff", text_element "option" [] "Guest"]

/-- A login page in which a text input named `realm` is followed by the `select`
element of the same name. -/
def pageRealmTwice : xmlNode :=
  page [element "form" [("name", "frmLogin"), ("method", "POST"), ("action", "/auth")]
    [element "input" [("name", "realm"), ("type", "text")] [],
     selectRealm]]

/-- The login page with the same two elements in the other order. -/
def pageRealmSelectFirst : xmlNode :=
  page [element "form" [("name", "frmLogin"), ("method", "POST"), ("action", "/auth")]
    [selectRealm,
     element "input" [("name", "realm"), ("type", "text")] []]]

/-- A login page in which the input named `username` occurs twice. -/
def pageUserTwice : xmlNode :=
  page [element "form" [("name", "frmLogin"), ("method", "post"), ("action", "/auth")]
    [element "input" [("name", "username"), ("type", "text")] [],
     element "input" [("name", "username"), ("type", "hidden"), ("value", "x")] [],
     element "input" [("name", "password"), ("type", "password")] []]]

/-- The role selection page of scenario S5. -/
def pageS5 : xmlNode :=
  page [element "form" [("name", "frmSelectRoles")]
    [element "table" [("id", "TABLE_SelectRole_1")]
      [element "tr" []
        [element "td" [] [text_element "a" [("href", "/rolepick?r=1")] "Admin"]],
       element "tr" []
        [element "td" [] [text_element "a" [("href", "/rolepick?r=2")] "User"]]]]]

/-- A login page whose form has no inputs. -/
def pageNoInputs : xmlNode :=
  page [element "form" [("name", "frmLogin"), ("method", "POST"), ("action", "/auth")] []]

/-- The pointer to the form of the pages above: the first child of `body`, the
second child of the root element. -/
def formPtr : xmlNodePtr :=
  [0, 1]

/-- The form that `parse_roles_form_node` returns for the page of scenario S5. -/
def formS5 : oc_auth_form :=
  { opts :=
      [{ type := .OC_FORM_OPT_SELECT, name := some "frmSelectRoles",
         label := some "frmSelectRoles",
         choices := [{ name := some "/rolepick?r=1", label := some "Admin" },
                     { name := some "/rolepick?r=2", label := some "User" }] }] }

/-- The form that `parse_form_node` returns for the page with the input named
`username` twice: the method is kept as the page writes it. -/
def formUserTwice : oc_auth_form :=
  { method := some "post", action := some "/auth", auth_id := some "frmLogin",
    banner := some "frmLogin",
    opts :=
      [{ type := .OC_FORM_OPT_TEXT, name := some "username", label := some "username:" },
       { type := .OC_FORM_OPT_PASSWORD, name := some "password",
         label := some "password:" }] }

/-! ## Concrete inputs for `oncp_obtain_cookie` -/

/-- Services for a build without token support: plain URL encoding, a
`handle_redirect` that moves `redirect_url` to `urlpath`, and a TNCC helper that
fails. -/
def plainServices : oncp_services :=
  { lib := noTokens
    urlencoded := urlencode
    handle_redirect := fun v => { v with urlpath := v.redirect_url, redirect_url := none }
    tncc_preauth := fun v => (-EINVAL, v) }

/-- The user enters `alice` and `hunter2` into the first two options. -/
def promptAlice : auth_prompt :=
  fun form =>
    (0, { form with
      opts := form.opts.zipWith (fun o v => { o with _value := v.orElse (fun _ => o._value) })
        [some "alice", some "hunter2", none] })

/-- The user has nothing to enter and confirms. -/
def promptOk : auth_prompt :=
  fun form => (0, form)

/-- The session at the start of a login. -/
def loginSession : openconnect_info :=
  { cmd_fd := 3, cmd_fd_write := 4, hostname := some "vpn.example.com" }

/-- The response that sets `DSID=abcd`. -/
def roundLoggedIn : oncp_round :=
  { https_ret := 0, cookies := jarAbcd }

/-- The scenario S1: the login page, then the response that sets `DSID=abcd`. -/
def roundsS1 : List oncp_round :=
  [{ https_ret := 100, doc := some pageS1, prompts := [promptAlice] }, roundLoggedIn]

/-- A login form without inputs, then the response that sets `DSID=abcd`. -/
def roundsNoInputs : List oncp_round :=
  [{ https_ret := 100, doc := some pageNoInputs, prompts := [promptOk] }, roundLoggedIn]

/-- The method and body of the requests among the events, in order. -/
def requests_of : List oncp_event → List (String × Option String)
  | [] => []
  | .request method body _ :: evs => (method, body) :: requests_of evs
  | _ :: evs => requests_of evs

/-- The events with the sessions and forms left out: `R` for a request, `P` for a
prompt, `T` for a call of `tncc_preauth`. -/
def kinds_of (evs : List oncp_event) : List Char :=
  evs.map fun e =>
    match e with
    | .request _ _ _ => 'R'
    | .prompt _ => 'P'
    | .tncc => 'T'

/-- A session in which ESP is enabled, with AES-128 and HMAC-SHA1 negotiated and
no handle initialised. -/
def espSession : openconnect_info :=
  { cmd_fd := 3, cmd_fd_write := 4, dtls_state := .DTLS_SLEEPING, esp_enc := 0x02,
    esp_hmac := 0x02, esp_out := { spi := [9, 9, 9, 9], secrets := List.replicate 64 7 } }

/-- The same session with ESP disabled. -/
def espDisabled : openconnect_info :=
  { espSession with dtls_state := .DTLS_DISABLED }

/-- A run of GnuTLS in which every call succeeds. -/
def keygenOk : esp_keygen :=
  { rnd := some ([1, 2, 3, 4], List.replicate 64 5) }

/-- A run of GnuTLS in which `gnutls_hmac_init` fails for the outbound direction. -/
def keygenHmacOutFails : esp_keygen :=
  { keygenOk with hmac_out_ok := false }

/-- A run of GnuTLS in which `gnutls_hmac_init` fails for the inbound direction. -/
def keygenHmacInFails : esp_keygen :=
  { keygenOk with hmac_in_ok := false }

/-- A run of GnuTLS in which `gnutls_cipher_init` fails for the inbound direction. -/
def keygenCipherInFails : esp_keygen :=
  { keygenOk with cipher_in_ok := false }

/-! ## Concrete inputs for `check_cmd_fd` and `openconnect_passphrase_from_fsid` -/

/-- A wake-up at which the command descriptor delivers the byte `cmd`. -/
def cmdWake (cmd : Nat) : wake :=
  { cmd_set := true, cmd_read := some cmd, fd_set := false }

/-- A session with a stats handler installed, the pause flag set and the counters
`[10, 20]`. -/
def statsSession : openconnect_info :=
  { cmd_fd := 3, cmd_fd_write := 4, got_pause_cmd := true, stats := [10, 20],
    stats_handler := true }

/-- A session whose key file is `/home/user/key.pem`. -/
def keySession : openconnect_info :=
  { cmd_fd := 3, cmd_fd_write := 4, sslkey := some "/home/user/key.pem" }

/-! ## Concrete inputs for the document walk -/

/-- A page on which the login form is empty and an input follows it as its next
sibling. -/
def pageEmptyForm : xmlNode :=
  page [element "form" [("name", "frmLogin"), ("method", "POST"), ("action", "/auth")] [],
        element "input" [("name", "outside"), ("type", "text")] []]

/-! ## Concrete inputs for `tncc_preauth` and for reading lines -/

/-- The session of scenario S4: `DSPREAUTH=cookieA` in the jar and a helper
configured. -/
def tnccSession : openconnect_info :=
  { cmd_fd := 3, cmd_fd_write := 4, hostname := some "vpn.example.com",
    csd_wrapper := some "/usr/bin/tncc", cookies := [⟨"DSPREAUTH", "cookieA"⟩] }

/-- An environment in which the helper sends `reply` and then closes its end of
the socket; the start command is taken at one wake-up and `n` more wake-ups serve
the socket. -/
def tnccEnv (reply : String) (n : Nat) : tncc_env :=
  { rx := bytes_of reply, wakes := { io := .xfer 1000 } :: List.replicate n readyWake }

/-- The reply of scenario S4 followed by `k` more lines `x` and an empty line. -/
def tnccReply (k : Nat) : String :=
  "200\nignored\ncookieB\n" ++ String.join (List.replicate k "x\n") ++ "\n"

/-- A run of 1023 bytes `x`: as many as `recvbuf` holds before its final NUL. -/
def longChunk : List Nat :=
  List.replicate 1023 120

/-- An environment in which the helper answers `200`, `ignored` and `cookieB` and
then sends eleven non-empty lines, the first of 1023 bytes and ten lines `x`,
followed by an empty line. -/
def tnccEnvExactFit : tncc_env :=
  { rx := lines_bytes ([bytes_of "200", bytes_of "ignored", bytes_of "cookieB"]
      ++ (longChunk :: List.replicate 10 [120]) ++ [[]]),
    wakes := { io := .xfer 1000 } :: List.replicate 1100 readyWake }

/-- An environment in which the helper answers `200`, `ignored` and `cookieB` and
then sends ten non-empty lines, the first of 1024 bytes and nine lines `x`,
followed by an empty line. -/
def tnccEnvSplitLine : tncc_env :=
  { rx := lines_bytes ([bytes_of "200", bytes_of "ignored", bytes_of "cookieB"]
      ++ ((longChunk ++ [120]) :: List.replicate 9 [120]) ++ [[]]),
    wakes := { io := .xfer 1000 } :: List.replicate 1100 readyWake }

theorem int_wrap_eq (x : Int) (h1 : -2 ^ 31 ≤ x) (h2 : x < 2 ^ 31) : int_wrap x = x := by
  unfold int_wrap
  omega

theorem int_wrap_lt (x : Int) : int_wrap x < 2 ^ 31 := by
  unfold int_wrap
  omega

theorem int_wrap_ge (x : Int) : -2 ^ 31 ≤ int_wrap x := by
  unfold int_wrap
  omega

theorem int_wrap_le_self (x : Int) (h : -2 ^ 31 ≤ x) : int_wrap x ≤ x := by
  unfold int_wrap
  omega

theorem int_wrap_nat (n : Nat) (h : n < 2 ^ 31) : int_wrap (n : Int) = (n : Int) := by
  unfold int_wrap
  omega

theorem io_count_le (n want : Nat) : io_count n want ≤ want := by
  unfold io_count INT_MAX
  omega

theorem io_count_pos (n want : Nat) (hn : 0 < n) (hw : 0 < want) : 0 < io_count n want := by
  unfold io_count INT_MAX
  omega

theorem io_count_one (n : Nat) : io_count (n + 1) 1 = 1 := by
  unfold io_count INT_MAX
  omega

theorem io_count_zero (want : Nat) : io_count 0 want = 0 := by
  unfold io_count
  simp

/-! ## The ESP receive path: lemmas -/

/-- The receive path with its lengths written out: `len - 36` plaintext bytes,
the tag at `len - 12`. -/
theorem decrypt_and_queue_eq (g : Gnutls) (v : openconnect_info)
    (fresh : Option (Int → Nat)) (esp : List Nat) :
    decrypt_and_queue_esp_packet g v fresh esp =
      if esp.length < 36 then (-EINVAL, v)
      else if esp.take 4 ≠ v.esp_in.spi.take 4 then (-EINVAL, v)
      else if (g.hmac v.esp_in.hmac (esp.take (esp.length - 12))).take 12
          ≠ (esp.drop (esp.length - 12)).take 12 then (-EINVAL, v)
      else match fresh with
        | none => (-ENOMEM, v)
        | some p =>
          match g.decrypt v.esp_in.cipher ((esp.drop 8).take 16)
              (mem_read p 24 ((esp.length : Int) - 36)) with
          | none => (-EINVAL, v)
          | some plain =>
            if mem_store p (plain.take (esp.length - 36)) ((esp.length : Int) - 37) ≠ 4 ∧
                mem_store p (plain.take (esp.length - 36)) ((esp.length : Int) - 37) ≠ 41
            then (-EINVAL, v)
            else if (esp.length : Int) - 36 ≤
                2 + (mem_store p (plain.take (esp.length - 36)) ((esp.length : Int) - 38) : Int)
            then (-EINVAL, v)
            else (0, { v with incoming_queue := v.incoming_queue ++
              [{ len := (esp.length : Int) - 38 +
                   (mem_store p (plain.take (esp.length - 36)) ((esp.length : Int) - 38) : Int),
                 data := mem_read (mem_store p (plain.take (esp.length - 36))) 0
                   ((esp.length : Int) - 36) }] }) := by
  have e1 : ((esp.length : Int) - 12).toNat = esp.length - 12 := by omega
  have e3 : (esp.length : Int) - (20 + 16) = (esp.length : Int) - 36 := by omega
  have e4 : (esp.length : Int) - 36 - 1 = (esp.length : Int) - 37 := by omega
  have e5 : (esp.length : Int) - 36 - 2 = (esp.length : Int) - 38 := by omega
  have e6 : ((esp.length : Int) < 20 + 16) ↔ esp.length < 36 := by omega
  have e7 : (16 : Int).toNat = 16 := rfl
  have e8 : ((8 : Int) + 16) = 24 := rfl
  have e9 : ((esp.length : Int) - 36).toNat = esp.length - 36 := by omega
  unfold decrypt_and_queue_esp_packet queue_packet
  simp only [e1, e3, e4, e5, e6, e7, e8]
  simp only [e9]

/-- What acceptance means: every check of the receive path passed, and the session
afterwards has one more packet at the tail of `incoming_queue`. -/
theorem decrypt_and_queue_accept {g : Gnutls} {v : openconnect_info}
    {fresh : Option (Int → Nat)} {esp : List Nat}
    (h : (decrypt_and_queue_esp_packet g v fresh esp).1 = 0) :
    ∃ p plain, fresh = some p ∧ 36 ≤ esp.length ∧
      esp.take 4 = v.esp_in.spi.take 4 ∧
      (g.hmac v.esp_in.hmac (esp.take (esp.length - 12))).take 12
        = (esp.drop (esp.length - 12)).take 12 ∧
      g.decrypt v.esp_in.cipher ((esp.drop 8).take 16)
        (mem_read p 24 ((esp.length : Int) - 36)) = some plain ∧
      (mem_store p (plain.take (esp.length - 36)) ((esp.length : Int) - 37) = 4 ∨
        mem_store p (plain.take (esp.length - 36)) ((esp.length : Int) - 37) = 41) ∧
      (mem_store p (plain.take (esp.length - 36)) ((esp.length : Int) - 38) : Int) + 2
        < (esp.length : Int) - 36 ∧
      (decrypt_and_queue_esp_packet g v fresh esp).2 =
        { v with incoming_queue := v.incoming_queue ++
            [{ len := (esp.length : Int) - 38 +
                 (mem_store p (plain.take (esp.length - 36)) ((esp.length : Int) - 38) : Int),
               data := mem_read (mem_store p (plain.take (esp.length - 36))) 0
                 ((esp.length : Int) - 36) }] } := by
  rw [decrypt_and_queue_eq] at h ⊢
  have hE : (-EINVAL : Int) ≠ 0 := by decide
  have hM : (-ENOMEM : Int) ≠ 0 := by decide
  split_ifs at h ⊢ with h1 h2 h3
  · exact absurd h hE
  · exact absurd h hE
  · exact absurd h hE
  · cases fresh with
    | none => exact absurd h hM
    | some p =>
      simp only [] at h ⊢
      cases hd : g.decrypt v.esp_in.cipher ((esp.drop 8).take 16)
              (mem_read p 24 ((esp.length : Int) - 36)) with
      | none => rw [hd] at h; exact absurd h hE
      | some plain =>
        rw [hd] at h
        simp only [] at h ⊢
        split_ifs at h ⊢ with h4 h5
        · exact absurd h hE
        · exact absurd h hE
        · refine ⟨p, plain, rfl, by omega, not_not.mp h2, not_not.mp h3, hd, ?_, by omega, rfl⟩
          by_contra hc
          exact h4 ⟨fun a => hc (Or.inl a), fun a => hc (Or.inr a)⟩

/-! ## Properties of the ESP receive path -/

/-- C1, the code at a failing input: the datagram carries the 16-byte plaintext
`blockOf 7` (nine payload bytes, `pad_len = 5`, `next_header = 4`).  It is accepted
and the queued packet has `len = 19 = 16 - 2 + 5`, whereas the payload length
`plaintext_len - 2 - pad_len` is `9`: the source adds `pad_len` where it has to
subtract it. -/
theorem esp_queued_len_adds_pad_len :
    decrypt_and_queue_esp_packet toyGnutls sessionA (some (heapWith (blockOf 7)))
        (datagramOf (blockOf 7))
      = (0, { sessionA with incoming_queue := [{ len := 19, data := blockOf 7 }] }) ∧
    ((datagramOf (blockOf 7)).length : Int) - 36 - 2 - 5 = 9 := by
  decide

/-- C2, the code at a failing input: the datagram carries the ciphertext `blockOf 7`
at `esp[24..40]`, the fresh allocation happens to hold `blockOf 9` at
`pkt->data + 24`.  The datagram is accepted and the queued data is the decryption
of the allocation's bytes (`blockOf 9`), not of the datagram's ciphertext
(`blockOf 7`): the source passes `pkt->data + 8 + ivsize` to the cipher where it
has to pass `esp + 8 + ivsize`. -/
theorem esp_plaintext_not_from_datagram :
    decrypt_and_queue_esp_packet toyGnutls sessionA (some (heapWith (blockOf 9)))
        (datagramOf (blockOf 7))
      = (0, { sessionA with incoming_queue := [{ len := 19, data := blockOf 9 }] }) ∧
    toyGnutls.decrypt sessionA.esp_in.cipher (((datagramOf (blockOf 7)).drop 8).take 16)
        (((datagramOf (blockOf 7)).drop 24).take
          ((datagramOf (blockOf 7)).length - 12 - 24)) = some (blockOf 7) ∧
    blockOf 9 ≠ blockOf 7 := by
  decide

/-- C4, counterexample: the datagram carries a plaintext of 16 bytes that is all
padding (`pad_len = 14`, `next_header = 4`), so `pad_len + 2 = plaintext_len` and
`pad_len + 2 > plaintext_len` is false.  It passes the length, SPI, HMAC and
next-header checks, and it is rejected with `-EINVAL` all the same. -/
theorem esp_empty_payload_rejected :
    36 ≤ (datagramOf paddingOnlyBlock).length ∧
    (datagramOf paddingOnlyBlock).take 4 = sessionA.esp_in.spi.take 4 ∧
    (toyGnutls.hmac sessionA.esp_in.hmac
        ((datagramOf paddingOnlyBlock).take ((datagramOf paddingOnlyBlock).length - 12))).take 12
      = (datagramOf paddingOnlyBlock).drop ((datagramOf paddingOnlyBlock).length - 12) ∧
    toyGnutls.decrypt sessionA.esp_in.cipher (((datagramOf paddingOnlyBlock).drop 8).take 16)
        (mem_read (heapWith paddingOnlyBlock) 24 16)
      = some ([1, 2, 3, 4, 5, 6, 7, 8, 9, 10, 11, 12, 13, 14] ++ [14, 4]) ∧
    ¬ (14 + 2 > ((datagramOf paddingOnlyBlock).length : Int) - 36) ∧
    decrypt_and_queue_esp_packet toyGnutls sessionA (some (heapWith paddingOnlyBlock))
        (datagramOf paddingOnlyBlock) = (-EINVAL, sessionA) := by
  decide

/-- C4 as amended: a datagram that passes the length, SPI and HMAC checks, is
decrypted without error into `plain`, and whose `next_header` byte
`pkt->data[plaintext_len - 1]` is `0x04` or `0x29`, is rejected (with `-EINVAL`, the
session unchanged) exactly when `pad_len + 2 ≥ plaintext_len`, and is accepted
(return value 0) exactly when `pad_len + 2 < plaintext_len`; here
`plaintext_len = len - 36` and `pad_len` is `pkt->data[plaintext_len - 2]`. -/
theorem esp_padding_check (g : Gnutls) (v : openconnect_info) (p : Int → Nat)
    (esp plain : List Nat) (pad_len next_header : Nat)
    (hlen : 36 ≤ esp.length)
    (hspi : esp.take 4 = v.esp_in.spi.take 4)
    (hmac : (g.hmac v.esp_in.hmac (esp.take (esp.length - 12))).take 12
      = esp.drop (esp.length - 12))
    (hdec : g.decrypt v.esp_in.cipher ((esp.drop 8).take 16)
      (mem_read p 24 ((esp.length : Int) - 36)) = some plain)
    (hnext : next_header
      = mem_store p (plain.take (esp.length - 36)) ((esp.length : Int) - 36 - 1))
    (hpad : pad_len
      = mem_store p (plain.take (esp.length - 36)) ((esp.length : Int) - 36 - 2))
    (hnh : next_header = 0x04 ∨ next_header = 0x29) :
    (decrypt_and_queue_esp_packet g v (some p) esp = (-EINVAL, v)
      ↔ (pad_len : Int) + 2 ≥ (esp.length : Int) - 36) ∧
    ((decrypt_and_queue_esp_packet g v (some p) esp).1 = 0
      ↔ (pad_len : Int) + 2 < (esp.length : Int) - 36) := by
  have htag : (esp.drop (esp.length - 12)).take 12 = esp.drop (esp.length - 12) := by
    apply List.take_of_length_le
    simp only [List.length_drop]
    omega
  have e4 : (esp.length : Int) - 36 - 1 = (esp.length : Int) - 37 := by omega
  have e5 : (esp.length : Int) - 36 - 2 = (esp.length : Int) - 38 := by omega
  rw [e4] at hnext
  rw [e5] at hpad
  rw [decrypt_and_queue_eq]
  have h1 : ¬ esp.length < 36 := by omega
  have h3 : ¬ ((g.hmac v.esp_in.hmac (esp.take (esp.length - 12))).take 12
      ≠ (esp.drop (esp.length - 12)).take 12) := by
    rw [htag]; exact not_not.mpr hmac
  have h4 : ¬ (mem_store p (plain.take (esp.length - 36)) ((esp.length : Int) - 37) ≠ 4 ∧
      mem_store p (plain.take (esp.length - 36)) ((esp.length : Int) - 37) ≠ 41) := by
    rw [← hnext]
    rcases hnh with h | h <;> simp [h]
  rw [if_neg h1, if_neg (not_not.mpr hspi), if_neg h3]
  simp only [hdec]
  rw [if_neg h4, ← hpad]
  by_cases h5 : (esp.length : Int) - 36 ≤ 2 + (pad_len : Int)
  · rw [if_pos h5]
    refine ⟨⟨fun _ => by omega, fun _ => rfl⟩, ⟨fun h => ?_, fun h => by omega⟩⟩
    exact absurd h (show (-EINVAL : Int) ≠ 0 by decide)
  · rw [if_neg h5]
    refine ⟨⟨fun h => ?_, fun h => by omega⟩, ⟨fun _ => by omega, fun _ => rfl⟩⟩
    have := congrArg Prod.fst h
    exact absurd this (show (0 : Int) ≠ -EINVAL by decide)

/-- C4 as amended, at a concrete input: the datagram carrying the all-padding block. -/
theorem esp_padding_check_witness :
    (decrypt_and_queue_esp_packet toyGnutls sessionA (some (heapWith paddingOnlyBlock))
        (datagramOf paddingOnlyBlock) = (-EINVAL, sessionA)
      ↔ ((14 : Nat) : Int) + 2 ≥ ((datagramOf paddingOnlyBlock).length : Int) - 36) ∧
    ((decrypt_and_queue_esp_packet toyGnutls sessionA (some (heapWith paddingOnlyBlock))
        (datagramOf paddingOnlyBlock)).1 = 0
      ↔ ((14 : Nat) : Int) + 2 < ((datagramOf paddingOnlyBlock).length : Int) - 36) :=
  esp_padding_check toyGnutls sessionA (heapWith paddingOnlyBlock)
    (datagramOf paddingOnlyBlock) paddingOnlyBlock 14 4
    (by decide) (by decide) (by decide) (by decide) (by decide) (by decide) (by decide)

/-- C5: a datagram of fewer than 36 bytes is rejected with `-EINVAL` whatever its
bytes, the session and the allocator are; a datagram of exactly 36 bytes is rejected
too, whatever its contents (with `-EINVAL`, or `-ENOMEM` when the allocation fails),
and the session is unchanged. -/
theorem esp_short_datagram_rejected (g : Gnutls) (v : openconnect_info)
    (fresh : Option (Int → Nat)) (esp : List Nat) (h : esp.length ≤ 36) :
    (esp.length < 36 → decrypt_and_queue_esp_packet g v fresh esp = (-EINVAL, v)) ∧
    ((decrypt_and_queue_esp_packet g v fresh esp).1 = -EINVAL ∨
      (decrypt_and_queue_esp_packet g v fresh esp).1 = -ENOMEM) ∧
    (decrypt_and_queue_esp_packet g v fresh esp).1 < 0 ∧
    (decrypt_and_queue_esp_packet g v fresh esp).2 = v := by
  have key : decrypt_and_queue_esp_packet g v fresh esp = (-EINVAL, v) ∨
      decrypt_and_queue_esp_packet g v fresh esp = (-ENOMEM, v) := by
    rw [decrypt_and_queue_eq]
    split_ifs with h1 h2 h3
    · exact Or.inl rfl
    · exact Or.inl rfl
    · exact Or.inl rfl
    · cases fresh with
      | none => exact Or.inr rfl
      | some p =>
        simp only []
        cases hd : g.decrypt v.esp_in.cipher ((esp.drop 8).take 16)
            (mem_read p 24 ((esp.length : Int) - 36)) with
        | none => exact Or.inl rfl
        | some plain =>
          simp only []
          split_ifs with h4 h5
          · exact Or.inl rfl
          · exact Or.inl rfl
          · omega
  refine ⟨fun hlt => ?_, ?_, ?_, ?_⟩
  · rw [decrypt_and_queue_eq, if_pos hlt]
  · rcases key with k | k <;> rw [k]
    · exact Or.inl rfl
    · exact Or.inr rfl
  · rcases key with k | k <;> rw [k]
    · exact (show (-EINVAL : Int) < 0 by decide)
    · exact (show (-ENOMEM : Int) < 0 by decide)
  · rcases key with k | k <;> rw [k]

/-- C5 at a concrete input: a 36-byte datagram with the right SPI and HMAC, and an
allocation whose byte before `pkt->data` is `0x04`. -/
theorem esp_short_datagram_rejected_witness :
    (datagramOf []).length ≤ 36 ∧
    ((datagramOf []).length < 36 →
      decrypt_and_queue_esp_packet toyGnutls sessionA
        (some (fun i => if i = -1 then 4 else 0)) (datagramOf []) = (-EINVAL, sessionA)) ∧
    ((decrypt_and_queue_esp_packet toyGnutls sessionA
        (some (fun i => if i = -1 then 4 else 0)) (datagramOf [])).1 = -EINVAL ∨
      (decrypt_and_queue_esp_packet toyGnutls sessionA
        (some (fun i => if i = -1 then 4 else 0)) (datagramOf [])).1 = -ENOMEM) ∧
    (decrypt_and_queue_esp_packet toyGnutls sessionA
        (some (fun i => if i = -1 then 4 else 0)) (datagramOf [])).1 < 0 ∧
    (decrypt_and_queue_esp_packet toyGnutls sessionA
        (some (fun i => if i = -1 then 4 else 0)) (datagramOf [])).2 = sessionA :=
  ⟨by decide, esp_short_datagram_rejected toyGnutls sessionA
    (some (fun i => if i = -1 then 4 else 0)) (datagramOf []) (by decide)⟩

/-- C6: a datagram of at least 36 bytes whose first four bytes differ from the
inbound SPI, or whose last twelve bytes differ from the first twelve bytes of the
HMAC over `esp[0..len-12]`, is rejected with the negative value `-EINVAL` and the
session, `incoming_queue` included, is unchanged.  Hence changing any one of the
last twelve bytes of an accepted datagram yields such a rejection. -/
theorem esp_bad_spi_or_hmac_rejected :
    (∀ (g : Gnutls) (v : openconnect_info) (fresh : Option (Int → Nat)) (esp : List Nat),
      36 ≤ esp.length →
      (esp.take 4 ≠ v.esp_in.spi.take 4 ∨
        esp.drop (esp.length - 12)
          ≠ (g.hmac v.esp_in.hmac (esp.take (esp.length - 12))).take 12) →
      (decrypt_and_queue_esp_packet g v fresh esp).1 = -EINVAL ∧
      (decrypt_and_queue_esp_packet g v fresh esp).1 < 0 ∧
      (decrypt_and_queue_esp_packet g v fresh esp).2 = v ∧
      (decrypt_and_queue_esp_packet g v fresh esp).2.incoming_queue = v.incoming_queue) ∧
    (∀ (g : Gnutls) (v : openconnect_info) (fresh fresh' : Option (Int → Nat))
        (esp : List Nat) (i b : Nat),
      (decrypt_and_queue_esp_packet g v fresh esp).1 = 0 →
      esp.length - 12 ≤ i → i < esp.length → esp.getD i 0 ≠ b →
      (decrypt_and_queue_esp_packet g v fresh' (esp.set i b)).1 = -EINVAL ∧
      (decrypt_and_queue_esp_packet g v fresh' (esp.set i b)).2.incoming_queue
        = v.incoming_queue) := by
  have main : ∀ (g : Gnutls) (v : openconnect_info) (fresh : Option (Int → Nat))
      (esp : List Nat), 36 ≤ esp.length →
      (esp.take 4 ≠ v.esp_in.spi.take 4 ∨
        esp.drop (esp.length - 12)
          ≠ (g.hmac v.esp_in.hmac (esp.take (esp.length - 12))).take 12) →
      decrypt_and_queue_esp_packet g v fresh esp = (-EINVAL, v) := by
    intro g v fresh esp hlen hbad
    have htag : (esp.drop (esp.length - 12)).take 12 = esp.drop (esp.length - 12) := by
      apply List.take_of_length_le
      simp only [List.length_drop]
      omega
    rw [decrypt_and_queue_eq, if_neg (by omega), htag]
    by_cases hspi : esp.take 4 ≠ v.esp_in.spi.take 4
    · rw [if_pos hspi]
    · rw [if_neg hspi]
      rcases hbad with hb | hb
      · exact absurd hb hspi
      · rw [if_pos (fun e => hb e.symm)]
  constructor
  · intro g v fresh esp hlen hbad
    rw [main g v fresh esp hlen hbad]
    exact ⟨rfl, (show (-EINVAL : Int) < 0 by decide), rfl, rfl⟩
  · intro g v fresh fresh' esp i b hacc hlo hhi hb
    obtain ⟨p, plain, -, hlen, -, hmac, -⟩ := decrypt_and_queue_accept hacc
    have htag : (esp.drop (esp.length - 12)).take 12 = esp.drop (esp.length - 12) := by
      apply List.take_of_length_le
      simp only [List.length_drop]
      omega
    rw [htag] at hmac
    have hlen' : (esp.set i b).length = esp.length := List.length_set ..
    have htake : (esp.set i b).take (esp.length - 12) = esp.take (esp.length - 12) := by
      rw [List.set_take]
      apply List.set_eq_of_length_le
      simp only [List.length_take]
      omega
    have hdrop : (esp.set i b).drop (esp.length - 12) ≠ esp.drop (esp.length - 12) := by
      intro e
      have e' := congrArg (fun l => l.getD (i - (esp.length - 12)) 0) e
      simp only [List.getD_eq_getElem?_getD, List.getElem?_drop] at e'
      have hi : esp.length - 12 + (i - (esp.length - 12)) = i := by omega
      rw [hi] at e'
      rw [List.getElem?_set_self hhi] at e'
      simp only [Option.getD_some] at e'
      apply hb
      rw [List.getD_eq_getElem?_getD]
      exact e'.symm
    have := main g v fresh' (esp.set i b) (by omega) (Or.inr (by
      rw [hlen', htake, hmac]; exact hdrop))
    rw [this]
    exact ⟨rfl, rfl⟩

/-- C6 at concrete inputs: a datagram with a wrong SPI byte, and the accepted
datagram carrying `blockOf 7` with its last HMAC byte changed from 138 to 139. -/
theorem esp_bad_spi_or_hmac_rejected_witness :
    ((decrypt_and_queue_esp_packet toyGnutls sessionA (some (heapWith (blockOf 7)))
        ((datagramOf (blockOf 7)).set 0 9)).1 = -EINVAL ∧
      (decrypt_and_queue_esp_packet toyGnutls sessionA (some (heapWith (blockOf 7)))
        ((datagramOf (blockOf 7)).set 0 9)).1 < 0 ∧
      (decrypt_and_queue_esp_packet toyGnutls sessionA (some (heapWith (blockOf 7)))
        ((datagramOf (blockOf 7)).set 0 9)).2 = sessionA ∧
      (decrypt_and_queue_esp_packet toyGnutls sessionA (some (heapWith (blockOf 7)))
        ((datagramOf (blockOf 7)).set 0 9)).2.incoming_queue = sessionA.incoming_queue) ∧
    ((decrypt_and_queue_esp_packet toyGnutls sessionA (some (heapWith (blockOf 7)))
        ((datagramOf (blockOf 7)).set 51 139)).1 = -EINVAL ∧
      (decrypt_and_queue_esp_packet toyGnutls sessionA (some (heapWith (blockOf 7)))
        ((datagramOf (blockOf 7)).set 51 139)).2.incoming_queue = sessionA.incoming_queue) :=
  ⟨esp_bad_spi_or_hmac_rejected.1 toyGnutls sessionA (some (heapWith (blockOf 7)))
      ((datagramOf (blockOf 7)).set 0 9) (by decide) (Or.inl (by decide)),
   esp_bad_spi_or_hmac_rejected.2 toyGnutls sessionA (some (heapWith (blockOf 7)))
      (some (heapWith (blockOf 7))) (datagramOf (blockOf 7)) 51 139
      (by decide) (by decide) (by decide) (by decide)⟩

/-- Every rejection of the ESP receive path leaves the session as it was: whenever
`decrypt_and_queue_esp_packet` returns a non-zero value, nothing has been queued
and no field of the session has changed. -/
theorem esp_reject_keeps_session (g : Gnutls) (v : openconnect_info)
    (fresh : Option (Int → Nat)) (esp : List Nat)
    (h : (decrypt_and_queue_esp_packet g v fresh esp).1 ≠ 0) :
    (decrypt_and_queue_esp_packet g v fresh esp).2 = v := by
  rw [decrypt_and_queue_eq] at h ⊢
  split_ifs at h ⊢ with h1 h2 h3
  · rfl
  · rfl
  · rfl
  · cases fresh with
    | none => rfl
    | some p =>
      simp only [] at h ⊢
      cases hd : g.decrypt v.esp_in.cipher ((esp.drop 8).take 16)
              (mem_read p 24 ((esp.length : Int) - 36)) with
      | none => rfl
      | some plain =>
        rw [hd] at h
        simp only [] at h ⊢
        split_ifs at h ⊢ with h4 h5
        · rfl
        · rfl
        · exact absurd rfl h

/-- A rejection at a concrete input: a valid datagram met by a zeroed allocation
fails the next-header test and the session is unchanged. -/
theorem esp_reject_keeps_session_witness :
    (decrypt_and_queue_esp_packet toyGnutls sessionA (some (fun _ => 0))
        (datagramOf (blockOf 7))).1 ≠ 0 ∧
    (decrypt_and_queue_esp_packet toyGnutls sessionA (some (fun _ => 0))
        (datagramOf (blockOf 7))).2 = sessionA :=
  ⟨by decide, esp_reject_keeps_session toyGnutls sessionA (some (fun _ => 0))
    (datagramOf (blockOf 7)) (by decide)⟩

/-! ## The cancellable helpers: lemmas -/

theorem check_cmd_fd_quiet (v : openconnect_info) (w : wake) (h : w.cmd_set = false) :
    check_cmd_fd v w = v := by
  simp [check_cmd_fd, h]

theorem recv_loop_done (off len : Nat) (ws : List wake) (s : io_state) (count : Nat)
    (h : len ≤ count) :
    recv_loop off len ws s count = some (int_wrap (count : Int), ws, s) := by
  cases ws with
  | nil => simp [recv_loop, Nat.not_lt.mpr h]
  | cons w ws => simp [recv_loop, Nat.not_lt.mpr h]

theorem after_reads_split (k : Nat) (ws r : List wake)
    (h : after_reads (k + 1) ws = some r) :
    ∃ ws1, after_reads 1 ws = some ws1 ∧ after_reads k ws1 = some r := by
  induction ws with
  | nil => simp [after_reads] at h
  | cons w ws ih =>
    simp only [after_reads] at h ⊢
    split_ifs at h ⊢ with h1 h2
    · exact ih h
    · cases hio : w.io with
      | fail e => rw [hio] at h; simp at h
      | xfer n =>
        cases n with
        | zero => rw [hio] at h; simp at h
        | succ n =>
          rw [hio] at h
          simp only [] at h ⊢
          exact ⟨ws, rfl, h⟩

/-- Reading one byte: with no command pending and `b` the next unread byte, the
receive loop for one byte stores `b` and returns 1. -/
theorem recv_one (off : Nat) (ws ws1 : List wake) (s : io_state) (b : Nat) (rx' : List Nat)
    (hws : after_reads 1 ws = some ws1) (hv : no_cmd_pending s.vpninfo)
    (hrx : s.rx = b :: rx') :
    recv_loop off 1 ws s 0 = some (1, ws1, { s with rx := rx', buf := s.buf.set off b }) := by
  induction ws with
  | nil => simp [after_reads] at hws
  | cons w ws ih =>
    simp only [after_reads] at hws
    split_ifs at hws with h1 h2
    · have hq : w.cmd_set = false := by simpa using h1
      simp only [recv_loop, is_cancel_pending, check_cmd_fd_quiet _ _ hq, hv.1, hv.2, h2]
      simpa using ih hws
    · have hq : w.cmd_set = false := by simpa using h1
      have hf : w.fd_set = true := by simpa using h2
      cases hio : w.io with
      | fail e => rw [hio] at hws; simp at hws
      | xfer n =>
        cases n with
        | zero => rw [hio] at hws; simp at hws
        | succ n =>
          rw [hio] at hws
          simp only [after_reads, Option.some.injEq] at hws
          subst hws
          simp only [recv_loop, is_cancel_pending, check_cmd_fd_quiet _ _ hq, hv.1, hv.2, hf,
            hio, hrx, io_count_one]
          simp [store_bytes, recv_loop_done, int_wrap, io_count_one]

/-- One iteration of the loop of `cancellable_gets` that reads a byte other than
a newline and does not fill the buffer. -/
theorem gets_loop_step (fd : Int) (len fuel i : Nat) (ws ws1 : List wake) (s : io_state)
    (b : Nat) (rx' : List Nat) (hfd : fd ≠ -1)
    (hws : after_reads 1 ws = some ws1) (hv : no_cmd_pending s.vpninfo)
    (hrx : s.rx = b :: rx') (hb : b ≠ 10) (hi : i + 1 < len - 1) (hbuf : i < s.buf.length) :
    gets_loop fd len (fuel + 1) ws s i
      = gets_loop fd len fuel ws1 { s with rx := rx', buf := s.buf.set i b } (i + 1) := by
  have hget : (s.buf.set i b).getD i 0 = b := by
    simp [List.getD_eq_getElem?_getD, List.getElem?_set_self hbuf]
  rw [gets_loop]
  simp only [cancellable_recv, if_neg hfd, recv_one i ws ws1 s b rx' hws hv hrx]
  simp only [hget, if_neg hb, if_true]
  rw [if_neg (by omega)]

/-- The loop of `cancellable_gets` over a run of bytes that holds no newline and
does not fill the buffer. -/
theorem gets_loop_advance (fd : Int) (len : Nat) (hfd : fd ≠ -1) (chunk : List Nat) :
    ∀ (fuel i : Nat) (ws ws1 : List wake) (s : io_state) (rx' : List Nat),
      after_reads chunk.length ws = some ws1 → no_cmd_pending s.vpninfo →
      s.rx = chunk ++ rx' → 10 ∉ chunk → i + chunk.length < len - 1 →
      i + chunk.length ≤ s.buf.length →
      gets_loop fd len (chunk.length + fuel) ws s i
        = gets_loop fd len fuel ws1
            { s with rx := rx', buf := store_bytes s.buf i chunk } (i + chunk.length) := by
  induction chunk with
  | nil =>
    intro fuel i ws ws1 s rx' hws hv hrx _ _ _
    simp only [after_reads, Option.some.injEq, List.length_nil] at hws
    subst hws
    simp only [List.nil_append] at hrx
    subst hrx
    simp [store_bytes]
  | cons b chunk ih =>
    intro fuel i ws ws1 s rx' hws hv hrx hnl hi hbuf
    simp only [List.length_cons] at hws hi hbuf ⊢
    obtain ⟨ws0, h1, h2⟩ := after_reads_split _ _ _ hws
    have hb : b ≠ 10 := fun e => hnl (by simp [e])
    have hnl' : 10 ∉ chunk := fun e => hnl (by simp [e])
    have e : chunk.length + 1 + fuel = (chunk.length + fuel) + 1 := by omega
    rw [e, gets_loop_step fd len _ i ws ws0 s b (chunk ++ rx') hfd h1 hv
      (by simpa using hrx) hb (by omega) (by omega)]
    rw [ih fuel (i + 1) ws0 ws1
      { vpninfo := s.vpninfo, rx := chunk ++ rx', tx := s.tx, buf := s.buf.set i b } rx'
      h2 hv rfl hnl' (by omega) (by simp only [List.length_set]; omega)]
    simp only [store_bytes]
    congr 1
    omega

/-- Storing `bs` at the start of a buffer that is long enough. -/
theorem store_bytes_zero (bs : List Nat) : ∀ (pre buf : List Nat),
    bs.length ≤ buf.length →
    store_bytes (pre ++ buf) pre.length bs = pre ++ bs ++ buf.drop bs.length := by
  induction bs with
  | nil => intro pre buf _; simp [store_bytes]
  | cons b bs ih =>
    intro pre buf h
    cases buf with
    | nil => simp at h
    | cons c buf =>
      simp only [List.length_cons, Nat.add_le_add_iff_right] at h
      have e : (pre ++ c :: buf).set pre.length b = (pre ++ [b]) ++ buf := by
        rw [List.set_append_right _ _ (Nat.le_refl _)]
        simp
      simp only [store_bytes, e]
      have := ih (pre ++ [b]) buf h
      simp only [List.length_append, List.length_singleton] at this
      rw [this]
      simp

/-- The iteration of the loop of `cancellable_gets` that reads the newline. -/
theorem gets_loop_newline (fd : Int) (len fuel i : Nat) (ws ws1 : List wake) (s : io_state)
    (rx' : List Nat) (hfd : fd ≠ -1)
    (hws : after_reads 1 ws = some ws1) (hv : no_cmd_pending s.vpninfo)
    (hrx : s.rx = 10 :: rx') (hbuf : i < s.buf.length) :
    gets_loop fd len (fuel + 1) ws s i =
      if i ≠ 0 ∧ (s.buf.set i 0).getD (i - 1) 0 = 13 then
        some (((i - 1 : Nat) : Int), ws1,
          { s with rx := rx', buf := (s.buf.set i 0).set (i - 1) 0 })
      else some ((i : Int), ws1, { s with rx := rx', buf := s.buf.set i 0 }) := by
  have hget : (s.buf.set i 10).getD i 0 = 10 := by
    simp [List.getD_eq_getElem?_getD, List.getElem?_set_self hbuf]
  rw [gets_loop]
  simp only [cancellable_recv, if_neg hfd, recv_one i ws ws1 s 10 rx' hws hv hrx]
  simp only [hget, if_true, List.set_set]

theorem after_reads_join (k : Nat) (ws ws1 r : List wake)
    (h1 : after_reads 1 ws = some ws1) (h2 : after_reads k ws1 = some r) :
    after_reads (k + 1) ws = some r := by
  induction ws with
  | nil => simp [after_reads] at h1
  | cons w ws ih =>
    simp only [after_reads] at h1 ⊢
    split_ifs at h1 ⊢ with h3 h4
    · exact ih h1
    · cases hio : w.io with
      | fail e => rw [hio] at h1; simp at h1
      | xfer n =>
        cases n with
        | zero => rw [hio] at h1; simp at h1
        | succ n =>
          rw [hio] at h1
          simp only [after_reads, Option.some.injEq] at h1 ⊢
          subst h1
          exact h2

theorem after_reads_add (a b : Nat) : ∀ (ws r : List wake),
    after_reads (a + b) ws = some r →
    ∃ m, after_reads a ws = some m ∧ after_reads b m = some r := by
  induction a with
  | zero => intro ws r h; exact ⟨ws, by simp [after_reads], by simpa using h⟩
  | succ a ih =>
    intro ws r h
    have e : a + 1 + b = (a + b) + 1 := by omega
    rw [e] at h
    obtain ⟨ws1, h1, h2⟩ := after_reads_split _ _ _ h
    obtain ⟨m, h3, h4⟩ := ih ws1 r h2
    exact ⟨m, after_reads_join _ _ _ _ h1 h3, h4⟩

/-- Every return value of the receive loop: the full length, or an error together
with what caused it. -/
theorem recv_loop_sound (off len : Nat) : ∀ (ws : List wake) (s : io_state) (count : Nat)
    (r : Int) (ws' : List wake) (s' : io_state),
    count ≤ len → recv_loop off len ws s count = some (r, ws', s') →
    r = int_wrap (len : Int) ∨
    (r = -EINTR ∧ (s'.vpninfo.got_cancel_cmd = true ∨ s'.vpninfo.got_pause_cmd = true)) ∨
    (r = -ECONNRESET ∧
      ∃ w ∈ ws, w.fd_set = true ∧ ∃ n, w.io = .xfer n ∧ (n = 0 ∨ s'.rx = [])) ∨
    (∃ errno : Nat, r = -(errno : Int) ∧ ∃ w ∈ ws, w.fd_set = true ∧ w.io = .fail errno) := by
  intro ws
  induction ws with
  | nil =>
    intro s count r ws' s' hc h
    simp only [recv_loop] at h
    split_ifs at h
    simp only [Option.some.injEq, Prod.mk.injEq] at h
    obtain ⟨rfl, -, -⟩ := h
    left; congr 2; omega
  | cons w ws ih =>
    intro s count r ws' s' hc h
    simp only [recv_loop] at h
    split_ifs at h with h1 h2 h3
    · simp only [Option.some.injEq, Prod.mk.injEq] at h
      obtain ⟨rfl, -, rfl⟩ := h
      right; left
      refine ⟨rfl, ?_⟩
      simpa [is_cancel_pending] using h2
    · have hih := ih _ _ _ _ _ hc h
      rcases hih with a | a | ⟨a, u, hu, b⟩ | ⟨e, a, u, hu, b⟩
      · exact Or.inl a
      · exact Or.inr (Or.inl a)
      · exact Or.inr (Or.inr (Or.inl ⟨a, u, List.mem_cons_of_mem _ hu, b⟩))
      · exact Or.inr (Or.inr (Or.inr ⟨e, a, u, List.mem_cons_of_mem _ hu, b⟩))
    · have hf : w.fd_set = true := by simpa using h3
      cases hio : w.io with
      | fail e =>
        rw [hio] at h
        simp only [Option.some.injEq, Prod.mk.injEq] at h
        obtain ⟨rfl, -, -⟩ := h
        exact Or.inr (Or.inr (Or.inr ⟨e, rfl, w, List.mem_cons_self _ _, hf, hio⟩))
      | xfer n =>
        rw [hio] at h
        simp only at h
        split_ifs at h with h4
        · simp only [Option.some.injEq, Prod.mk.injEq] at h
          obtain ⟨rfl, -, rfl⟩ := h
          refine Or.inr (Or.inr (Or.inl ⟨rfl, w, List.mem_cons_self _ _, hf, n, hio, ?_⟩))
          simp only [List.length_take] at h4
          by_cases hn : n = 0
          · exact Or.inl hn
          · right
            have hpos := io_count_pos n (len - count) (by omega) (by omega)
            have : s.rx.length = 0 := by omega
            simpa using this
        · have hg : (s.rx.take (io_count n (len - count))).length ≤ len - count := by
            have := io_count_le n (len - count)
            simp only [List.length_take]; omega
          have hih := ih _ _ _ _ _ (by omega) h
          rcases hih with a | a | ⟨a, u, hu, b⟩ | ⟨e, a, u, hu, b⟩
          · exact Or.inl a
          · exact Or.inr (Or.inl a)
          · exact Or.inr (Or.inr (Or.inl ⟨a, u, List.mem_cons_of_mem _ hu, b⟩))
          · exact Or.inr (Or.inr (Or.inr ⟨e, a, u, List.mem_cons_of_mem _ hu, b⟩))
    · simp only [Option.some.injEq, Prod.mk.injEq] at h
      obtain ⟨rfl, -, -⟩ := h
      left; congr 2; omega

/-- Every return value of the send loop: the full length, or an error together
with what caused it. -/
theorem send_loop_sound (len : Nat) : ∀ (ws : List wake) (s : io_state) (count : Nat)
    (r : Int) (ws' : List wake) (s' : io_state),
    count ≤ len → send_loop len ws s count = some (r, ws', s') →
    r = int_wrap (len : Int) ∨
    (r = -EINTR ∧ (s'.vpninfo.got_cancel_cmd = true ∨ s'.vpninfo.got_pause_cmd = true)) ∨
    (∃ errno : Nat, r = -(errno : Int) ∧ ∃ w ∈ ws, w.fd_set = true ∧ w.io = .fail errno) := by
  intro ws
  induction ws with
  | nil =>
    intro s count r ws' s' hc h
    simp only [send_loop] at h
    split_ifs at h
    simp only [Option.some.injEq, Prod.mk.injEq] at h
    obtain ⟨rfl, -, -⟩ := h
    left; congr 2; omega
  | cons w ws ih =>
    intro s count r ws' s' hc h
    simp only [send_loop] at h
    split_ifs at h with h1 h2 h3
    · simp only [Option.some.injEq, Prod.mk.injEq] at h
      obtain ⟨rfl, -, rfl⟩ := h
      right; left
      refine ⟨rfl, ?_⟩
      simpa [is_cancel_pending] using h2
    · have hih := ih _ _ _ _ _ hc h
      rcases hih with a | a | ⟨e, a, u, hu, b⟩
      · exact Or.inl a
      · exact Or.inr (Or.inl a)
      · exact Or.inr (Or.inr ⟨e, a, u, List.mem_cons_of_mem _ hu, b⟩)
    · have hf : w.fd_set = true := by simpa using h3
      cases hio : w.io with
      | fail e =>
        rw [hio] at h
        simp only [Option.some.injEq, Prod.mk.injEq] at h
        obtain ⟨rfl, -, -⟩ := h
        exact Or.inr (Or.inr ⟨e, rfl, w, List.mem_cons_self _ _, hf, hio⟩)
      | xfer n =>
        rw [hio] at h
        simp only at h
        have hle := io_count_le n (len - count)
        have hih := ih _ _ _ _ _ (by omega) h
        rcases hih with a | a | ⟨e, a, u, hu, b⟩
        · exact Or.inl a
        · exact Or.inr (Or.inl a)
        · exact Or.inr (Or.inr ⟨e, a, u, List.mem_cons_of_mem _ hu, b⟩)
    · simp only [Option.some.injEq, Prod.mk.injEq] at h
      obtain ⟨rfl, -, -⟩ := h
      left; congr 2; omega

/-- The receive loop returns once the socket has been ready often enough. -/
theorem recv_loop_returns (off len : Nat) : ∀ (ws : List wake) (s : io_state) (count : Nat),
    (∀ w ∈ ws, w.fd_set = true) → len ≤ count + ws.length →
    (recv_loop off len ws s count).isSome = true := by
  intro ws
  induction ws with
  | nil =>
    intro s count _ h
    simp only [List.length_nil] at h
    simp [recv_loop, Nat.not_lt.mpr (by omega : len ≤ count)]
  | cons w ws ih =>
    intro s count hall h
    have hw : w.fd_set = true := hall w (List.mem_cons_self _ _)
    have hrest : ∀ u ∈ ws, u.fd_set = true := fun u hu => hall u (List.mem_cons_of_mem _ hu)
    simp only [List.length_cons] at h
    simp only [recv_loop]
    split_ifs with h1 h2 h3
    · rfl
    · rw [hw] at h3; exact absurd h3 (by decide)
    · cases hio : w.io with
      | fail e => rfl
      | xfer n =>
        simp only
        split_ifs with h4
        · rfl
        · apply ih _ _ hrest
          omega
    · rfl

/-- The send loop returns once the socket has accepted bytes often enough. -/
theorem send_loop_returns (len : Nat) : ∀ (ws : List wake) (s : io_state) (count : Nat),
    (∀ w ∈ ws, w.fd_set = true ∧ w.io ≠ .xfer 0) → len ≤ count + ws.length →
    (send_loop len ws s count).isSome = true := by
  intro ws
  induction ws with
  | nil =>
    intro s count _ h
    simp only [List.length_nil] at h
    simp [send_loop, Nat.not_lt.mpr (by omega : len ≤ count)]
  | cons w ws ih =>
    intro s count hall h
    have hw := hall w (List.mem_cons_self _ _)
    have hrest : ∀ u ∈ ws, u.fd_set = true ∧ u.io ≠ .xfer 0 :=
      fun u hu => hall u (List.mem_cons_of_mem _ hu)
    simp only [List.length_cons] at h
    simp only [send_loop]
    split_ifs with h1 h2 h3
    · rfl
    · rw [hw.1] at h3; exact absurd h3 (by decide)
    · cases hio : w.io with
      | fail e => rfl
      | xfer n =>
        simp only
        have hn : n ≠ 0 := fun e => hw.2 (by rw [hio, e])
        have hpos := io_count_pos n (len - count) (by omega) (by omega)
        apply ih _ _ hrest
        omega
    · rfl

theorem store_bytes_append (a : List Nat) : ∀ (b buf : List Nat) (pos : Nat),
    store_bytes buf pos (a ++ b) = store_bytes (store_bytes buf pos a) (pos + a.length) b := by
  induction a with
  | nil => intro b buf pos; simp [store_bytes]
  | cons x a ih =>
    intro b buf pos
    have e : pos + (x :: a).length = pos + 1 + a.length := by
      simp only [List.length_cons]; omega
    rw [e]
    exact ih b (buf.set pos x) (pos + 1)

theorem take_self_length (l : List Nat) (k : Nat) : l.take k = l.take (l.take k).length := by
  rw [List.take_eq_take]
  simp

/-- A receive loop that returns `len` has consumed exactly the next `len - count`
unread bytes and stored them at `buf[off + count ..]`. -/
theorem recv_loop_complete (off len : Nat) : ∀ (ws : List wake) (s : io_state) (count : Nat)
    (ws' : List wake) (s' : io_state),
    count ≤ len → recv_loop off len ws s count = some ((len : Int), ws', s') →
    len - count ≤ s.rx.length ∧ s'.rx = s.rx.drop (len - count) ∧
      s'.buf = store_bytes s.buf (off + count) (s.rx.take (len - count)) ∧ s'.tx = s.tx := by
  intro ws
  induction ws with
  | nil =>
    intro s count ws' s' hc h
    simp only [recv_loop] at h
    split_ifs at h with h1
    simp only [Option.some.injEq, Prod.mk.injEq] at h
    obtain ⟨-, -, rfl⟩ := h
    have e : len - count = 0 := by omega
    simp [e, store_bytes]
  | cons w ws ih =>
    intro s count ws' s' hc h
    simp only [recv_loop] at h
    split_ifs at h with h1 h2 h3
    · simp only [Option.some.injEq, Prod.mk.injEq] at h
      have := h.1
      simp only [EINTR] at this
      omega
    · have hih := ih _ _ _ _ hc h
      exact hih
    · cases hio : w.io with
      | fail e =>
        rw [hio] at h
        simp only [Option.some.injEq, Prod.mk.injEq] at h
        have := h.1
        omega
      | xfer n =>
        rw [hio] at h
        simp only at h
        split_ifs at h with h4
        · simp only [Option.some.injEq, Prod.mk.injEq] at h
          have := h.1
          simp only [ECONNRESET] at this
          omega
        · obtain ⟨g, hg1, hg2, hg3⟩ : ∃ g, s.rx.take (io_count n (len - count)) = s.rx.take g ∧
              (s.rx.take (io_count n (len - count))).length = g ∧ g ≤ len - count :=
            ⟨_, take_self_length _ _, rfl, by
              have := io_count_le n (len - count)
              simp only [List.length_take]; omega⟩
          have hg4 : (s.rx.take g).length = g := by rw [← hg1]; exact hg2
          rw [hg2] at h
          rw [hg1] at h
          have hih := ih _ _ _ _ (by omega) h
          obtain ⟨a, b, c, d⟩ := hih
          simp only [List.length_drop] at a
          simp only [List.length_take] at hg4
          have hsplit : len - count = g + (len - (count + g)) := by omega
          refine ⟨by omega, ?_, ?_, d⟩
          · rw [b]
            simp only [List.drop_drop]
            congr 1
            omega
          · rw [c]
            simp only
            rw [hsplit, List.take_add, store_bytes_append]
            have e1 : off + count + (List.take g s.rx).length = off + (count + g) := by
              simp only [List.length_take]; omega
            rw [e1]
    · simp only [Option.some.injEq, Prod.mk.injEq] at h
      obtain ⟨-, -, rfl⟩ := h
      have e : len - count = 0 := by omega
      simp [e, store_bytes]

/-- A send loop that returns `len` has sent exactly `buf[count .. len)`. -/
theorem send_loop_complete (len : Nat) : ∀ (ws : List wake) (s : io_state) (count : Nat)
    (ws' : List wake) (s' : io_state),
    count ≤ len → send_loop len ws s count = some ((len : Int), ws', s') →
    s'.tx = s.tx ++ (s.buf.drop count).take (len - count) ∧ s'.buf = s.buf ∧
      s'.rx = s.rx := by
  intro ws
  induction ws with
  | nil =>
    intro s count ws' s' hc h
    simp only [send_loop] at h
    split_ifs at h with h1
    simp only [Option.some.injEq, Prod.mk.injEq] at h
    obtain ⟨-, -, rfl⟩ := h
    have e : len - count = 0 := by omega
    simp [e]
  | cons w ws ih =>
    intro s count ws' s' hc h
    simp only [send_loop] at h
    split_ifs at h with h1 h2 h3
    · simp only [Option.some.injEq, Prod.mk.injEq] at h
      have := h.1
      simp only [EINTR] at this
      omega
    · have hih := ih _ _ _ _ hc h
      exact hih
    · cases hio : w.io with
      | fail e =>
        rw [hio] at h
        simp only [Option.some.injEq, Prod.mk.injEq] at h
        have := h.1
        omega
      | xfer n =>
        rw [hio] at h
        simp only at h
        obtain ⟨m, hm, hle⟩ : ∃ m, io_count n (len - count) = m ∧ m ≤ len - count :=
          ⟨_, rfl, io_count_le n (len - count)⟩
        rw [hm] at h
        have hih := ih _ _ _ _ (by omega) h
        obtain ⟨a, b, c⟩ := hih
        have hsplit : len - count = m + (len - (count + m)) := by omega
        refine ⟨?_, b, c⟩
        rw [a]
        simp only
        rw [hsplit, List.take_add, List.drop_drop, List.append_assoc]
    · simp only [Option.some.injEq, Prod.mk.injEq] at h
      obtain ⟨-, -, rfl⟩ := h
      have e : len - count = 0 := by omega
      simp [e]

/-- The loop of `cancellable_gets` never runs out of iterations: from `len - 1 - i`
on, more fuel does not change its result. -/
theorem gets_loop_fuel (fd : Int) (len : Nat) : ∀ (fuel k : Nat) (ws : List wake)
    (s : io_state) (i : Nat), i + 1 < len → len - 1 - i ≤ fuel →
    gets_loop fd len (fuel + k) ws s i = gets_loop fd len fuel ws s i := by
  intro fuel
  induction fuel with
  | zero => intro k ws s i hi hf; omega
  | succ fuel ih =>
    intro k ws s i hi hf
    have e : fuel + 1 + k = (fuel + k) + 1 := by omega
    rw [e, gets_loop, gets_loop]
    cases hrecv : cancellable_recv fd i 1 ws s with
    | none => rfl
    | some res =>
      obtain ⟨ret, ws1, s1⟩ := res
      simp only
      split_ifs with h1 h2 h3 h4
      · rfl
      · rfl
      · rfl
      · exact ih k ws1 s1 (i + 1) (by omega) (by omega)
      · rfl
      · rfl

/-! ## `cancellable_gets`: truncation and bounds -/

theorem getD_set_self (l : List Nat) (j a d : Nat) (h : j < l.length) :
    (l.set j a).getD j d = a := by
  simp [List.getD_eq_getElem?_getD, List.getElem?_set_self h]

/-- The iteration of the loop of `cancellable_gets` that fills the buffer. -/
theorem gets_loop_full (fd : Int) (len fuel i : Nat) (ws ws1 : List wake) (s : io_state)
    (b : Nat) (rx' : List Nat) (hfd : fd ≠ -1)
    (hws : after_reads 1 ws = some ws1) (hv : no_cmd_pending s.vpninfo)
    (hrx : s.rx = b :: rx') (hb : b ≠ 10) (hi : len - 1 ≤ i + 1) (hbuf : i < s.buf.length) :
    gets_loop fd len (fuel + 1) ws s i
      = some (((i + 1 : Nat) : Int), ws1,
          { s with rx := rx', buf := (s.buf.set i b).set (i + 1) 0 }) := by
  have hget : (s.buf.set i b).getD i 0 = b := getD_set_self _ _ _ _ hbuf
  rw [gets_loop]
  simp only [cancellable_recv, if_neg hfd, recv_one i ws ws1 s b rx' hws hv hrx]
  simp only [hget, if_neg hb, if_true]
  rw [if_pos (by omega)]

/-- C10, counterexample: the count is a `size_t` and the return type is `int`.  A
`cancellable_send` with `len = 2^32 + 1` whose three calls of `send` take
2147483647, 2147483647 and 3 bytes returns 1, a positive value that is not `len`;
one with `len = 2^31` whose calls take 2147483647 and 1 bytes returns
`-2147483648`, a negative value although nothing failed.  Only the counts matter
here: the buffer of the model is left empty. -/
theorem cancellable_send_count_truncated :
    cancellable_send 5 (2 ^ 32 + 1) (List.replicate 3 { io := .xfer 2147483647 })
        { vpninfo := sessionB }
      = some (1, [], { vpninfo := sessionB }) ∧
    (0 < 2 ^ 32 + 1 ∧ (1 : Int) ≠ ((2 ^ 32 + 1 : Nat) : Int) ∧ ¬ ((1 : Int) < 0)) ∧
    cancellable_send 5 (2 ^ 31) (List.replicate 2 { io := .xfer 2147483647 })
        { vpninfo := sessionB }
      = some (-2147483648, [], { vpninfo := sessionB }) := by
  decide

/-- C10 as amended: for `0 < len ≤ INT_MAX` (and positive `errno` values), a call of
`cancellable_recv` or `cancellable_send` that returns, returns exactly `len` or a
negative value, never a positive count short of `len`.  When it returns `len`, all
`len` bytes have been transferred: the next `len` unread bytes are in
`buf[off .. off + len)`, respectively `buf[0 .. len)` has been sent.  The negative
values are `-EINVAL` (only when `fd` is `-1`), `-EINTR` (only with the cancel or
pause flag set), for `cancellable_recv` `-ECONNRESET` (only when `recv` delivered 0
bytes at a wake-up), and `-errno` of a failed `recv` or `send`.  Conversely
`fd = -1` gives `-EINVAL`, and at a wake-up of `select` a pending cancel or pause
gives `-EINTR`, a failing call `-errno`, and a `recv` of 0 bytes `-ECONNRESET`.
Both calls return once the socket has been ready, with bytes moved, `len` times. -/
theorem cancellable_recv_send_results (fd : Int) (off len : Nat) (ws : List wake)
    (s : io_state) (hlen : 0 < len) (hmax : len ≤ INT_MAX)
    (herrno : ∀ w ∈ ws, ∀ errno, w.io = .fail errno → 0 < errno) :
    (∀ r ws' s', cancellable_recv fd off len ws s = some (r, ws', s') →
      (r = (len : Int) ∨ r < 0) ∧
      (r = (len : Int) ∨ (r = -EINVAL ∧ fd = -1) ∨
        (r = -EINTR ∧
          (s'.vpninfo.got_cancel_cmd = true ∨ s'.vpninfo.got_pause_cmd = true)) ∨
        (r = -ECONNRESET ∧
          ∃ w ∈ ws, w.fd_set = true ∧ ∃ n, w.io = .xfer n ∧ (n = 0 ∨ s'.rx = [])) ∨
        (∃ errno : Nat, r = -(errno : Int) ∧
          ∃ w ∈ ws, w.fd_set = true ∧ w.io = .fail errno)) ∧
      (r = (len : Int) →
        len ≤ s.rx.length ∧ s'.rx = s.rx.drop len ∧
        s'.buf = store_bytes s.buf off (s.rx.take len))) ∧
    (∀ r ws' s', cancellable_send fd len ws s = some (r, ws', s') →
      (r = (len : Int) ∨ r < 0) ∧
      (r = (len : Int) ∨ (r = -EINVAL ∧ fd = -1) ∨
        (r = -EINTR ∧
          (s'.vpninfo.got_cancel_cmd = true ∨ s'.vpninfo.got_pause_cmd = true)) ∨
        (∃ errno : Nat, r = -(errno : Int) ∧
          ∃ w ∈ ws, w.fd_set = true ∧ w.io = .fail errno)) ∧
      (r = (len : Int) → s'.tx = s.tx ++ s.buf.take len)) ∧
    (fd = -1 →
      cancellable_recv fd off len ws s = some (-EINVAL, ws, s) ∧
      cancellable_send fd len ws s = some (-EINVAL, ws, s)) ∧
    (∀ w ws0, fd ≠ -1 → ws = w :: ws0 →
      ((is_cancel_pending s.vpninfo w).1 = true →
        cancellable_recv fd off len ws s
          = some (-EINTR, ws0, { s with vpninfo := (is_cancel_pending s.vpninfo w).2 }) ∧
        cancellable_send fd len ws s
          = some (-EINTR, ws0, { s with vpninfo := (is_cancel_pending s.vpninfo w).2 })) ∧
      ((is_cancel_pending s.vpninfo w).1 = false → w.fd_set = true →
        (∀ errno, w.io = .fail errno →
          cancellable_recv fd off len ws s
            = some (-(errno : Int), ws0,
                { s with vpninfo := (is_cancel_pending s.vpninfo w).2 }) ∧
          cancellable_send fd len ws s
            = some (-(errno : Int), ws0,
                { s with vpninfo := (is_cancel_pending s.vpninfo w).2 })) ∧
        (w.io = .xfer 0 →
          cancellable_recv fd off len ws s
            = some (-ECONNRESET, ws0,
                { s with vpninfo := (is_cancel_pending s.vpninfo w).2 })))) ∧
    (len ≤ ws.length → (∀ w ∈ ws, w.fd_set = true ∧ w.io ≠ .xfer 0) →
      (cancellable_recv fd off len ws s).isSome = true ∧
      (cancellable_send fd len ws s).isSome = true) := by
  have hwrap : int_wrap (len : Int) = (len : Int) :=
    int_wrap_nat len (by unfold INT_MAX at hmax; omega)
  have hneg : ∀ (errno : Nat) (w : wake), w ∈ ws → w.io = .fail errno →
      (-(errno : Int)) < 0 := by
    intro errno w hw hio
    have := herrno w hw errno hio
    omega
  refine ⟨?_, ?_, ?_, ?_, ?_⟩
  · intro r ws' s' h
    unfold cancellable_recv at h
    split_ifs at h with hfd
    · simp only [Option.some.injEq, Prod.mk.injEq] at h
      obtain ⟨rfl, -, -⟩ := h
      refine ⟨Or.inr (by decide), Or.inr (Or.inl ⟨rfl, hfd⟩), fun e => ?_⟩
      simp only [EINVAL] at e
      omega
    · have hdone : r = (len : Int) →
          len ≤ s.rx.length ∧ s'.rx = s.rx.drop len ∧
          s'.buf = store_bytes s.buf off (s.rx.take len) := by
        intro e
        subst e
        obtain ⟨a, b, c, -⟩ := recv_loop_complete off len ws s 0 ws' s' (by omega) h
        exact ⟨a, b, c⟩
      rcases recv_loop_sound off len ws s 0 r ws' s' (by omega) h with
        a | a | a | ⟨e, a, w, hw, hf, hio⟩
      · rw [hwrap] at a
        exact ⟨Or.inl a, Or.inl a, hdone⟩
      · exact ⟨Or.inr (by rw [a.1]; decide), Or.inr (Or.inr (Or.inl a)), hdone⟩
      · exact ⟨Or.inr (by rw [a.1]; decide), Or.inr (Or.inr (Or.inr (Or.inl a))), hdone⟩
      · exact ⟨Or.inr (by rw [a]; exact hneg e w hw hio),
          Or.inr (Or.inr (Or.inr (Or.inr ⟨e, a, w, hw, hf, hio⟩))), hdone⟩
  · intro r ws' s' h
    unfold cancellable_send at h
    split_ifs at h with hfd
    · simp only [Option.some.injEq, Prod.mk.injEq] at h
      obtain ⟨rfl, -, -⟩ := h
      refine ⟨Or.inr (by decide), Or.inr (Or.inl ⟨rfl, hfd⟩), fun e => ?_⟩
      simp only [EINVAL] at e
      omega
    · have hdone : r = (len : Int) → s'.tx = s.tx ++ s.buf.take len := by
        intro e
        subst e
        obtain ⟨a, -, -⟩ := send_loop_complete len ws s 0 ws' s' (by omega) h
        simpa using a
      rcases send_loop_sound len ws s 0 r ws' s' (by omega) h with
        a | a | ⟨e, a, w, hw, hf, hio⟩
      · rw [hwrap] at a
        exact ⟨Or.inl a, Or.inl a, hdone⟩
      · exact ⟨Or.inr (by rw [a.1]; decide), Or.inr (Or.inr (Or.inl a)), hdone⟩
      · exact ⟨Or.inr (by rw [a]; exact hneg e w hw hio),
          Or.inr (Or.inr (Or.inr ⟨e, a, w, hw, hf, hio⟩)), hdone⟩
  · intro hfd
    simp [cancellable_recv, cancellable_send, hfd]
  · intro w ws0 hfd hws
    subst hws
    refine ⟨fun hp => ?_, fun hp hf => ⟨fun errno hio => ?_, fun hio => ?_⟩⟩
    · simp [cancellable_recv, cancellable_send, hfd, recv_loop, send_loop, hlen, hp]
    · simp [cancellable_recv, cancellable_send, hfd, recv_loop, send_loop, hlen, hp, hf, hio]
    · simp [cancellable_recv, hfd, recv_loop, hlen, hp, hf, hio, io_count_zero]
  · intro hl hall
    constructor
    · unfold cancellable_recv
      split_ifs
      · rfl
      · exact recv_loop_returns off len ws s 0 (fun w hw => (hall w hw).1) (by omega)
    · unfold cancellable_send
      split_ifs
      · rfl
      · exact send_loop_returns len ws s 0 hall (by omega)

/-- C10 as amended, at a concrete input: two of four bytes have been received when
`recv` fails with `errno = 11`; the call returns `-11`, not the count 2. -/
theorem cancellable_recv_send_results_witness :
    (0 < 4 ∧ 4 ≤ INT_MAX ∧
      ∀ w ∈ partialThenFail, ∀ errno, w.io = .fail errno → 0 < errno) ∧
    cancellable_recv 5 0 4 partialThenFail lineState
      = some (-11, [readyWake],
          { lineState with rx := [13, 13, 10, 99, 10]
                           buf := [97, 98, 255, 255, 255, 255, 255, 255] }) ∧
    ((-11 : Int) = ((4 : Nat) : Int) ∨ (-11 : Int) < 0) :=
  have hwf : ∀ w ∈ partialThenFail, ∀ errno, w.io = .fail errno → 0 < errno := by
    intro w hw errno hio
    simp only [partialThenFail, List.mem_cons, List.mem_singleton, List.not_mem_nil,
      or_false] at hw
    rcases hw with rfl | rfl | rfl | rfl
    · simp at hio
    · simp [idleWake] at hio
    · simp only [io_result.fail.injEq] at hio
      omega
    · simp [readyWake] at hio
  ⟨⟨by decide, by decide, hwf⟩, by decide,
    ((cancellable_recv_send_results 5 0 4 partialThenFail lineState (by decide) (by decide)
        hwf).1
      (-11) [readyWake]
      { lineState with rx := [13, 13, 10, 99, 10]
                       buf := [97, 98, 255, 255, 255, 255, 255, 255] } (by decide)).1⟩

/-! ## `ssl_reconnect`: lemmas -/

theorem check_cmd_fd_reconnect_interval (v : openconnect_info) (w : wake) :
    (check_cmd_fd v w).reconnect_interval = v.reconnect_interval := by
  unfold check_cmd_fd
  split_ifs <;> try rfl
  all_goals
    cases w.cmd_read with
    | none => rfl
    | some cmd =>
      simp only
      split_ifs <;> rfl

theorem poll_cmd_fd_reconnect_interval (ws : List wake) : ∀ (v : openconnect_info),
    (poll_cmd_fd v ws).reconnect_interval = v.reconnect_interval := by
  induction ws with
  | nil => intro v; rfl
  | cons w ws ih =>
    intro v
    simp only [poll_cmd_fd]
    split_ifs
    · rfl
    · rw [ih, check_cmd_fd_reconnect_interval]

/-- One round of the loop of `ssl_reconnect`: either the loop ends in this round,
after at most one sleep, or it sleeps with `timeout > 0` and goes on with
`timeout - interval`, stored in an `int`, and the next interval. -/
theorem reconnect_loop_cases (interval_max : Int) (r : reconnect_round)
    (rs : List reconnect_round) (v : openconnect_info) (timeout interval : Int) :
    ((reconnect_loop interval_max (r :: rs) v timeout interval).2.2.attempts = [timeout] ∧
      ((reconnect_loop interval_max (r :: rs) v timeout interval).2.2.sleeps = [] ∨
        (0 < timeout ∧
          (reconnect_loop interval_max (r :: rs) v timeout interval).2.2.sleeps
            = [interval]))) ∨
    (0 < timeout ∧ ∃ v' : openconnect_info,
      v'.reconnect_interval = v.reconnect_interval ∧
      (reconnect_loop interval_max (r :: rs) v timeout interval).2.2.sleeps
        = interval :: (reconnect_loop interval_max rs v' (int_wrap (timeout - interval))
            (next_interval interval_max v.reconnect_interval interval)).2.2.sleeps ∧
      (reconnect_loop interval_max (r :: rs) v timeout interval).2.2.attempts
        = timeout :: (reconnect_loop interval_max rs v' (int_wrap (timeout - interval))
            (next_interval interval_max v.reconnect_interval interval)).2.2.attempts) := by
  by_cases h1 : r.connect = 0
  · left; simp [reconnect_loop, h1]
  by_cases h2 : timeout ≤ 0
  · left; simp [reconnect_loop, h1, h2]
  by_cases h3 : r.connect = -EPERM
  · left; simp only [reconnect_loop, if_neg h1, if_neg h2, if_pos h3]
    exact ⟨trivial, Or.inl trivial⟩
  by_cases h4 : (poll_cmd_fd v r.wakes).got_cancel_cmd = true
  · left; simp only [reconnect_loop, if_neg h1, if_neg h2, if_neg h3, if_pos h4]
    simp only [true_and, and_true]
    exact Or.inr (by omega)
  by_cases h5 : (poll_cmd_fd v r.wakes).got_pause_cmd = true
  · left; simp only [reconnect_loop, if_neg h1, if_neg h2, if_neg h3, if_neg h4, if_pos h5]
    simp only [true_and, and_true]
    exact Or.inr (by omega)
  right
  refine ⟨by omega, poll_cmd_fd v r.wakes, poll_cmd_fd_reconnect_interval _ _, ?_, ?_⟩
  · simp only [reconnect_loop, if_neg h1, if_neg h2, if_neg h3, if_neg h4, if_neg h5,
      next_interval, poll_cmd_fd_reconnect_interval]
  · simp only [reconnect_loop, if_neg h1, if_neg h2, if_neg h3, if_neg h4, if_neg h5,
      next_interval, poll_cmd_fd_reconnect_interval]

theorem reconnect_loop_nil (interval_max : Int) (v : openconnect_info)
    (timeout interval : Int) :
    reconnect_loop interval_max [] v timeout interval = (none, v, {}) := by
  simp [reconnect_loop]

theorem next_interval_le (interval_max ri interval : Int) :
    next_interval interval_max ri interval ≤ interval_max := by
  unfold next_interval
  split_ifs <;> omega

theorem next_interval_lt (interval_max ri interval : Int) :
    next_interval interval_max ri interval < 2 ^ 31 := by
  have := int_wrap_lt (interval + ri)
  unfold next_interval
  split_ifs <;> omega

/-- The next interval when the addition does not overflow. -/
theorem next_interval_fits (interval_max ri interval : Int)
    (h1 : -2 ^ 31 ≤ interval + ri) (h2 : interval + ri < 2 ^ 31) :
    next_interval interval_max ri interval
      = if interval + ri > interval_max then interval_max else interval + ri := by
  unfold next_interval
  rw [int_wrap_eq _ h1 h2]

theorem next_interval_formula (interval_max ri interval k : Int) (hri : ri ≤ interval_max)
    (hup : interval_max + ri ≤ INT_MAX) (hlow : -2 ^ 31 ≤ (k + 1) * ri)
    (hk : 1 ≤ k) (hi : interval = min (k * ri) interval_max) :
    next_interval interval_max ri interval = min ((k + 1) * ri) interval_max := by
  have e : (k + 1) * ri = k * ri + ri := by ring
  have hneg : ri < 0 → k * ri ≤ ri := fun h => by nlinarith
  have hpos : 0 ≤ ri → 0 ≤ k * ri := fun h => by nlinarith
  rw [e] at hlow ⊢
  simp only [INT_MAX, Nat.cast_ofNat] at hup
  generalize k * ri = a at hi hneg hpos hlow
  subst hi
  rw [next_interval_fits _ _ _ (by omega) (by omega)]
  split_ifs with h <;> omega

/-- The first sleep of a run of the loop, if there is one, is the current interval. -/
theorem reconnect_sleeps_head (interval_max : Int) (rs : List reconnect_round)
    (v : openconnect_info) (timeout interval : Int) :
    ∀ x ∈ (reconnect_loop interval_max rs v timeout interval).2.2.sleeps.head?,
      x = interval := by
  cases rs with
  | nil => simp [reconnect_loop_nil]
  | cons r rs =>
    rcases reconnect_loop_cases interval_max r rs v timeout interval with
      ⟨-, h | ⟨-, h⟩⟩ | ⟨-, v', -, h, -⟩ <;> rw [h] <;> simp

/-- The first recorded attempt of a run of the loop, if there is one, has the
current remaining timeout. -/
theorem reconnect_attempts_head (interval_max : Int) (rs : List reconnect_round)
    (v : openconnect_info) (timeout interval : Int) :
    ∀ x ∈ (reconnect_loop interval_max rs v timeout interval).2.2.attempts.head?,
      x = timeout := by
  cases rs with
  | nil => simp [reconnect_loop_nil]
  | cons r rs =>
    rcases reconnect_loop_cases interval_max r rs v timeout interval with
      ⟨h, -⟩ | ⟨-, v', -, -, h⟩ <;> rw [h] <;> simp

/-- With `reconnect_interval ≤ interval_max`, a loop entered with the `k`-th
interval sleeps `min ((k + j) * reconnect_interval) interval_max` at its `j`-th
sleep. -/
theorem reconnect_sleeps_formula (interval_max ri : Int) (hri : ri ≤ interval_max)
    (hup : interval_max + ri ≤ INT_MAX) :
    ∀ (rs : List reconnect_round) (v : openconnect_info) (timeout interval k : Int),
      v.reconnect_interval = ri → 1 ≤ k → interval = min (k * ri) interval_max →
      ∀ (j : Nat) (x : Int),
        (reconnect_loop interval_max rs v timeout interval).2.2.sleeps[j]? = some x →
        -2 ^ 31 ≤ (k + (j : Int)) * ri →
        x = min ((k + (j : Int)) * ri) interval_max := by
  intro rs
  induction rs with
  | nil => intro v timeout interval k _ _ _ j x h; simp [reconnect_loop_nil] at h
  | cons r rs ih =>
    intro v timeout interval k hv hk hi j x h hlow
    rcases reconnect_loop_cases interval_max r rs v timeout interval with
      ⟨-, h0 | ⟨-, h0⟩⟩ | ⟨-, v', hv', h0, -⟩
    · rw [h0] at h; simp at h
    · rw [h0] at h
      cases j with
      | zero =>
        simp only [List.getElem?_cons_zero, Option.some.injEq] at h
        subst h
        simpa using hi
      | succ j => simp at h
    · rw [h0] at h
      cases j with
      | zero =>
        simp only [List.getElem?_cons_zero, Option.some.injEq] at h
        subst h
        simpa using hi
      | succ j =>
        simp only [List.getElem?_cons_succ] at h
        have e : (k + ((j + 1 : Nat) : Int)) * ri = (k + 1 + (j : Int)) * ri := by
          push_cast
          ring
        rw [e] at hlow ⊢
        have hlow1 : -2 ^ 31 ≤ (k + 1) * ri := by
          rcases le_or_lt 0 ri with h0 | h0
          · have : 0 ≤ (k + 1) * ri := by nlinarith
            omega
          · have : (k + 1 + (j : Int)) * ri ≤ (k + 1) * ri := by
              have hj : (0 : Int) ≤ (j : Int) := Int.ofNat_nonneg j
              nlinarith
            omega
        exact ih v' (int_wrap (timeout - interval)) _ (k + 1) (hv'.trans hv) (by omega)
          (by rw [hv]
              exact next_interval_formula interval_max ri interval k hri hup hlow1 hk hi)
          j x h hlow

/-- A loop entered with an interval of at most `interval_max` never sleeps longer
than `interval_max`. -/
theorem reconnect_sleeps_le (interval_max : Int) :
    ∀ (rs : List reconnect_round) (v : openconnect_info) (timeout interval : Int),
      interval ≤ interval_max →
      ∀ x ∈ (reconnect_loop interval_max rs v timeout interval).2.2.sleeps,
        x ≤ interval_max := by
  intro rs
  induction rs with
  | nil => intro v timeout interval _ x h; simp [reconnect_loop_nil] at h
  | cons r rs ih =>
    intro v timeout interval hi x h
    rcases reconnect_loop_cases interval_max r rs v timeout interval with
      ⟨-, h0 | ⟨-, h0⟩⟩ | ⟨-, v', hv', h0, -⟩
    · rw [h0] at h; simp at h
    · rw [h0] at h
      simp only [List.mem_singleton] at h
      omega
    · rw [h0] at h
      rcases List.mem_cons.mp h with h | h
      · omega
      · exact ih v' _ _ (next_interval_le _ _ _) x h

/-- With `0 < reconnect_interval` and no overflow of the interval, each sleep is
longer than the one before, or both are `interval_max`. -/
theorem reconnect_sleeps_chain (interval_max ri : Int) (hri : 0 < ri)
    (hup : interval_max + ri ≤ INT_MAX) :
    ∀ (rs : List reconnect_round) (v : openconnect_info) (timeout interval : Int),
      v.reconnect_interval = ri → 0 ≤ interval → interval ≤ interval_max →
      List.Chain' (fun a b => a < b ∨ (a = interval_max ∧ b = interval_max))
        (reconnect_loop interval_max rs v timeout interval).2.2.sleeps := by
  intro rs
  induction rs with
  | nil => intro v timeout interval _ _ _; simp [reconnect_loop_nil]
  | cons r rs ih =>
    intro v timeout interval hv h0i hi
    simp only [INT_MAX, Nat.cast_ofNat] at hup
    have hfit := next_interval_fits interval_max ri interval (by omega) (by omega)
    rcases reconnect_loop_cases interval_max r rs v timeout interval with
      ⟨-, h0 | ⟨-, h0⟩⟩ | ⟨-, v', hv', h0, -⟩
    · rw [h0]; exact List.chain'_nil
    · rw [h0]; exact List.chain'_singleton _
    · rw [h0, List.chain'_cons']
      refine ⟨fun b hb => ?_, ih v' _ _ (hv'.trans hv) ?_ (next_interval_le _ _ _)⟩
      · have := reconnect_sleeps_head interval_max rs v' (int_wrap (timeout - interval)) _ b hb
        rw [this, hv, hfit]
        split_ifs <;> omega
      · rw [hv, hfit]
        split_ifs <;> omega

/-- With `reconnect_interval ≥ 0`, `interval_max ≥ 0` and no overflow of the
interval, the remaining timeout of each attempt is at most that of the attempt
before. -/
theorem reconnect_attempts_chain (interval_max ri : Int) (hri : 0 ≤ ri)
    (hmax : 0 ≤ interval_max) (hup : interval_max + ri ≤ INT_MAX) :
    ∀ (rs : List reconnect_round) (v : openconnect_info) (timeout interval : Int),
      v.reconnect_interval = ri → 0 ≤ interval → interval + ri ≤ INT_MAX →
      List.Chain' (fun a b => b ≤ a)
        (reconnect_loop interval_max rs v timeout interval).2.2.attempts := by
  intro rs
  induction rs with
  | nil => intro v timeout interval _ _ _; simp [reconnect_loop_nil]
  | cons r rs ih =>
    intro v timeout interval hv hi hfits
    simp only [INT_MAX, Nat.cast_ofNat] at hup hfits
    have hfit := next_interval_fits interval_max ri interval (by omega) (by omega)
    rcases reconnect_loop_cases interval_max r rs v timeout interval with
      ⟨h0, -⟩ | ⟨ht, v', hv', -, h0⟩
    · rw [h0]; exact List.chain'_singleton _
    · rw [h0, List.chain'_cons']
      have hn : 0 ≤ next_interval interval_max v.reconnect_interval interval ∧
          next_interval interval_max v.reconnect_interval interval + ri ≤ INT_MAX := by
        simp only [INT_MAX, Nat.cast_ofNat]
        rw [hv, hfit]; split_ifs <;> omega
      refine ⟨fun b hb => ?_, ih v' _ _ (hv'.trans hv) hn.1 hn.2⟩
      have := reconnect_attempts_head interval_max rs v' (int_wrap (timeout - interval)) _ b hb
      have hw := int_wrap_le_self (timeout - interval) (by omega)
      omega

/-- A sleep is started only while the remaining timeout is positive: the sleeps
before the last one add up to less than the timeout the loop was entered with. -/
theorem reconnect_sleeps_sum (interval_max : Int) :
    ∀ (rs : List reconnect_round) (v : openconnect_info) (timeout interval : Int),
      interval ≤ INT_MAX →
      (reconnect_loop interval_max rs v timeout interval).2.2.sleeps = [] ∨
      (0 < timeout ∧
        (reconnect_loop interval_max rs v timeout interval).2.2.sleeps.dropLast.sum
          < timeout) := by
  intro rs
  induction rs with
  | nil => intro v timeout interval _; simp [reconnect_loop_nil]
  | cons r rs ih =>
    intro v timeout interval hi
    simp only [INT_MAX, Nat.cast_ofNat] at hi
    rcases reconnect_loop_cases interval_max r rs v timeout interval with
      ⟨-, h0 | ⟨ht, h0⟩⟩ | ⟨ht, v', hv', h0, -⟩
    · exact Or.inl h0
    · right; rw [h0]; simpa using ht
    · right
      rw [h0]
      refine ⟨ht, ?_⟩
      have hw := int_wrap_le_self (timeout - interval) (by omega)
      have hn : next_interval interval_max v.reconnect_interval interval ≤ INT_MAX := by
        have := next_interval_lt interval_max v.reconnect_interval interval
        simp only [INT_MAX, Nat.cast_ofNat]
        omega
      rcases ih v' (int_wrap (timeout - interval))
          (next_interval interval_max v.reconnect_interval interval) hn with h1 | ⟨-, h1⟩
      · rw [h1]; simpa using ht
      · cases hs : (reconnect_loop interval_max rs v' (int_wrap (timeout - interval))
            (next_interval interval_max v.reconnect_interval interval)).2.2.sleeps with
        | nil => simpa using ht
        | cons a l =>
          rw [hs] at h1
          rw [List.dropLast_cons₂, List.sum_cons]
          omega

theorem poll_cmd_fd_quiet (ws : List wake) : ∀ (v : openconnect_info),
    (∀ w ∈ ws, w.cmd_set = false) → poll_cmd_fd v ws = v := by
  induction ws with
  | nil => intro v _; rfl
  | cons w ws ih =>
    intro v h
    simp only [poll_cmd_fd]
    split_ifs
    · rfl
    · rw [check_cmd_fd_quiet v w (h w (List.mem_cons_self _ _))]
      exact ih v (fun u hu => h u (List.mem_cons_of_mem _ hu))

/-- When `tcp_connect` keeps failing, no command arrives, the intervals are at
least one second and do not overflow, the loop gives up with the error of
`tcp_connect` within `timeout + 1` rounds. -/
theorem reconnect_gives_up (interval_max : Int) (hmax : 1 ≤ interval_max) :
    ∀ (rs : List reconnect_round) (v : openconnect_info) (timeout interval : Int),
      (∀ r ∈ rs, r.connect ≠ 0 ∧ r.connect ≠ -EPERM ∧ ∀ w ∈ r.wakes, w.cmd_set = false) →
      no_cmd_pending v → 1 ≤ v.reconnect_interval →
      interval_max + v.reconnect_interval ≤ INT_MAX → 1 ≤ interval →
      interval + v.reconnect_interval ≤ INT_MAX →
      0 < rs.length → timeout < (rs.length : Int) →
      ∃ r ∈ rs, (reconnect_loop interval_max rs v timeout interval).1 = some r.connect := by
  intro rs
  induction rs with
  | nil => intro v timeout interval _ _ _ _ _ _ h; simp at h
  | cons r rs ih =>
    intro v timeout interval hall hv hri hup hi hfits _ ht
    simp only [INT_MAX, Nat.cast_ofNat] at hup hfits
    obtain ⟨h1, h3, hq⟩ := hall r (List.mem_cons_self _ _)
    by_cases h2 : timeout ≤ 0
    · exact ⟨r, List.mem_cons_self _ _, by simp [reconnect_loop, h1, h2]⟩
    · have hp : poll_cmd_fd v r.wakes = v := poll_cmd_fd_quiet _ _ hq
      have hc : ¬ v.got_cancel_cmd = true := by simp [hv.1]
      have hpa : ¬ v.got_pause_cmd = true := by simp [hv.2]
      simp only [List.length_cons, Nat.cast_add, Nat.cast_one] at ht
      have hlen : 0 < rs.length := by omega
      have hwi : int_wrap (interval + v.reconnect_interval) = interval + v.reconnect_interval :=
        int_wrap_eq _ (by omega) (by omega)
      have hn : 1 ≤ (if interval + v.reconnect_interval > interval_max then interval_max
            else interval + v.reconnect_interval) ∧
          (if interval + v.reconnect_interval > interval_max then interval_max
            else interval + v.reconnect_interval) + v.reconnect_interval ≤ INT_MAX := by
        simp only [INT_MAX, Nat.cast_ofNat]
        split_ifs <;> omega
      have hw := int_wrap_le_self (timeout - interval) (by omega)
      obtain ⟨r', hr', hres⟩ := ih v (int_wrap (timeout - interval)) _
        (fun u hu => hall u (List.mem_cons_of_mem _ hu)) hv hri
        (by simp only [INT_MAX, Nat.cast_ofNat]; exact hup) hn.1 hn.2 hlen (by omega)
      refine ⟨r', List.mem_cons_of_mem _ hr', ?_⟩
      simp only [reconnect_loop, if_neg h1, if_neg h2, if_neg h3, hp, if_neg hc, if_neg hpa,
        hwi]
      exact hres

/-- A run in which the interval overflows: with `reconnect_timeout = 2147483647` and
`reconnect_interval = 2147483646` the second interval is `2 * 2147483646` as an
`int`, which is `-4`; the sleeps are 2147483646, -4 and 100 seconds, and the
remaining timeout rises from 1 to 5. -/
theorem reconnect_interval_overflow :
    (ssl_reconnect RECONNECT_INTERVAL_MAX (List.replicate 4 failRound)
        (reconnectSession 2147483647 2147483646)).2.2
      = { attempts := [2147483647, 1, 5, -95], sleeps := [2147483646, -4, 100] } := by
  decide


/-- A run in which the interval overflows downwards: with
`reconnect_interval = -1073741825` the second interval is `2 * (-1073741825)` as an
`int`, which is 2147483646, and is replaced by `RECONNECT_INTERVAL_MAX`. -/
theorem reconnect_interval_underflow :
    (ssl_reconnect RECONNECT_INTERVAL_MAX (List.replicate 2 failRound)
        (reconnectSession 1 (-1073741825))).2.2.sleeps = [-1073741825, 100] := by
  decide

/-- A failed round with time left and no command: the loop sleeps and goes on with
the next round. -/
theorem reconnect_loop_fail_round (interval_max : Int) (rs : List reconnect_round)
    (v : openconnect_info) (timeout interval : Int) (hv : no_cmd_pending v)
    (ht : 0 < timeout) :
    (reconnect_loop interval_max (failRound :: rs) v timeout interval).1
      = (reconnect_loop interval_max rs v (int_wrap (timeout - interval))
          (next_interval interval_max v.reconnect_interval interval)).1 := by
  have h1 : ¬ failRound.connect = 0 := by decide
  have h3 : ¬ failRound.connect = -EPERM := by decide
  have hp : poll_cmd_fd v failRound.wakes = v := rfl
  have hc : ¬ v.got_cancel_cmd = true := by simp [hv.1]
  have hpa : ¬ v.got_pause_cmd = true := by simp [hv.2]
  simp only [reconnect_loop, if_neg h1, if_neg (not_le.mpr ht), if_neg h3, hp, if_neg hc,
    if_neg hpa, next_interval]

/-- While the interval is one second and stays so, each failed round takes one
second off the timeout: with fewer rounds than seconds left, the loop is still
running when the rounds are used up. -/
theorem reconnect_loop_still_running (ri : Int) (h1 : 1 ≤ ri) (h2 : 1 + ri ≤ INT_MAX) :
    ∀ (n : Nat) (v : openconnect_info) (timeout : Int),
      v.reconnect_interval = ri → no_cmd_pending v → (n : Int) < timeout →
      timeout ≤ INT_MAX →
      (reconnect_loop 1 (List.replicate n failRound) v timeout 1).1 = none := by
  simp only [INT_MAX, Nat.cast_ofNat] at h2
  intro n
  induction n with
  | zero => intro v timeout _ _ _ _; simp [reconnect_loop_nil]
  | succ n ih =>
    intro v timeout hri hv hn ht
    simp only [INT_MAX, Nat.cast_ofNat] at ht
    simp only [Nat.cast_add, Nat.cast_one] at hn
    have hnext : next_interval 1 v.reconnect_interval 1 = 1 := by
      rw [hri, next_interval_fits _ _ _ (by omega) (by omega), if_pos (by omega)]
    rw [List.replicate_succ, reconnect_loop_fail_round 1 _ v timeout 1 hv (by omega), hnext,
      int_wrap_eq _ (by omega) (by omega)]
    exact ih v (timeout - 1) hri hv (by omega)
      (by simp only [INT_MAX, Nat.cast_ofNat]; omega)

/-- With an interval that overflows, the loop can outlast `reconnect_timeout + 1`
attempts: with `RECONNECT_INTERVAL_MAX = 1`, `reconnect_interval = 1300000000` and
`reconnect_timeout = 1300000001` the sleeps are 1300000000, -1694967296 and
-394967296 seconds, after which 2089934593 seconds are left and the interval is one
second; after 1300000002 failed attempts the function is still looping. -/
theorem reconnect_overflow_outlasts_timeout :
    (ssl_reconnect 1 (List.replicate 1300000002 failRound)
        (reconnectSession 1300000001 1300000000)).1 = none := by
  have hv : no_cmd_pending (reconnectSession 1300000001 1300000000) := ⟨rfl, rfl⟩
  have hs : ssl_reconnect 1 (List.replicate 1300000002 failRound)
        (reconnectSession 1300000001 1300000000)
      = reconnect_loop 1 (List.replicate 1300000002 failRound)
          (reconnectSession 1300000001 1300000000) 1300000001 1300000000 := rfl
  have e : List.replicate 1300000002 failRound
      = failRound :: failRound :: failRound :: List.replicate 1299999999 failRound := rfl
  have a1 : int_wrap (1300000001 - 1300000000) = 1 := by decide
  have b1 : next_interval 1 (reconnectSession 1300000001 1300000000).reconnect_interval
      1300000000 = -1694967296 := by decide
  have a2 : int_wrap (1 - -1694967296) = 1694967297 := by decide
  have b2 : next_interval 1 (reconnectSession 1300000001 1300000000).reconnect_interval
      (-1694967296) = -394967296 := by decide
  have a3 : int_wrap (1694967297 - -394967296) = 2089934593 := by decide
  have b3 : next_interval 1 (reconnectSession 1300000001 1300000000).reconnect_interval
      (-394967296) = 1 := by decide
  rw [hs, e, reconnect_loop_fail_round 1 _ _ _ _ hv (by decide), a1, b1,
    reconnect_loop_fail_round 1 _ _ _ _ hv (by decide), a2, b2,
    reconnect_loop_fail_round 1 _ _ _ _ hv (by decide), a3, b3]
  exact reconnect_loop_still_running 1300000000 (by decide) (by decide) 1299999999 _ _ rfl hv
    (by decide) (by decide)

/-! ## Properties of `ssl_reconnect` -/

/-- C11, counterexample: with `reconnect_interval = 150` and
`RECONNECT_INTERVAL_MAX = 100` the first sleep lasts 150 seconds: it is longer than
`RECONNECT_INTERVAL_MAX` and it is not `min (1 * 150) 100`. -/
theorem reconnect_first_sleep_uncapped :
    (ssl_reconnect RECONNECT_INTERVAL_MAX [failRound, failRound]
        (reconnectSession 300 150)).2.2.sleeps = [150, 100] ∧
    ¬ ((150 : Int) ≤ RECONNECT_INTERVAL_MAX) ∧
    (150 : Int) ≠ min (1 * 150) RECONNECT_INTERVAL_MAX := by
  decide

/-- C11 as amended: when the configured `reconnect_interval` is at most
`RECONNECT_INTERVAL_MAX`, then for every sequence of `tcp_connect` results and
commands every sleep interval passed to `poll_cmd_fd` is at most
`RECONNECT_INTERVAL_MAX`, and the `n`-th sleep (counted from 1) is
`min (n * reconnect_interval) RECONNECT_INTERVAL_MAX` as long as the `int` holding
the interval does not overflow, that is when
`RECONNECT_INTERVAL_MAX + reconnect_interval ≤ INT_MAX` and
`n * reconnect_interval ≥ INT_MIN`; for every configured `reconnect_interval`, the
first sleep is `reconnect_interval` itself and every sleep after the first is at
most `RECONNECT_INTERVAL_MAX`. -/
theorem reconnect_sleeps_capped (interval_max : Int) (rounds : List reconnect_round)
    (vpninfo : openconnect_info) :
    (vpninfo.reconnect_interval ≤ interval_max →
      (∀ x ∈ (ssl_reconnect interval_max rounds vpninfo).2.2.sleeps, x ≤ interval_max) ∧
      (interval_max + vpninfo.reconnect_interval ≤ INT_MAX →
        ∀ (n : Nat) (x : Int),
          (ssl_reconnect interval_max rounds vpninfo).2.2.sleeps[n]? = some x →
          INT_MIN ≤ ((n : Int) + 1) * vpninfo.reconnect_interval →
          x = min (((n : Int) + 1) * vpninfo.reconnect_interval) interval_max)) ∧
    (∀ x : Int, (ssl_reconnect interval_max rounds vpninfo).2.2.sleeps[0]? = some x →
      x = vpninfo.reconnect_interval) ∧
    (∀ (n : Nat) (x : Int),
      (ssl_reconnect interval_max rounds vpninfo).2.2.sleeps[n + 1]? = some x →
      x ≤ interval_max) := by
  refine ⟨fun hri => ⟨?_, ?_⟩, ?_, ?_⟩
  · exact reconnect_sleeps_le interval_max rounds
      { vpninfo with dtls_pkt := none, tun_pkt := none } _ _ hri
  · intro hup n x h hlow
    have e : (1 + (n : Int)) = (n : Int) + 1 := by ring
    have := reconnect_sleeps_formula interval_max vpninfo.reconnect_interval hri hup rounds
      { vpninfo with dtls_pkt := none, tun_pkt := none } vpninfo.reconnect_timeout
      vpninfo.reconnect_interval 1 rfl (by omega) (by simp [hri]) n x h
      (by rw [e]; simpa [INT_MIN] using hlow)
    rw [e] at this
    exact this
  · intro x h
    refine reconnect_sleeps_head interval_max rounds
      { vpninfo with dtls_pkt := none, tun_pkt := none } vpninfo.reconnect_timeout
      vpninfo.reconnect_interval x ?_
    unfold ssl_reconnect at h
    simp only at h
    rw [List.head?_eq_getElem?]
    exact h
  · intro n x h
    unfold ssl_reconnect at h
    simp only at h
    cases rounds with
    | nil => simp [reconnect_loop_nil] at h
    | cons r rs =>
      rcases reconnect_loop_cases interval_max r rs
          { vpninfo with dtls_pkt := none, tun_pkt := none } vpninfo.reconnect_timeout
          vpninfo.reconnect_interval with ⟨-, h0 | ⟨-, h0⟩⟩ | ⟨-, v', hv', h0, -⟩
      · rw [h0] at h; simp at h
      · rw [h0] at h; simp at h
      · rw [h0] at h
        simp only [List.getElem?_cons_succ] at h
        exact reconnect_sleeps_le interval_max rs v' _ _ (next_interval_le _ _ _) x
          (List.getElem?_mem h)

/-- C11 as amended, at a concrete input: `reconnect_interval = 30`, five sleeps. -/
theorem reconnect_sleeps_capped_witness :
    (ssl_reconnect RECONNECT_INTERVAL_MAX (List.replicate 8 failRound)
        (reconnectSession 300 30)).2.2.sleeps = [30, 60, 90, 100, 100] ∧
    (100 : Int) = min ((((3 : Nat) : Int) + 1) * (reconnectSession 300 30).reconnect_interval)
        RECONNECT_INTERVAL_MAX :=
  ⟨by decide,
    ((reconnect_sleeps_capped RECONNECT_INTERVAL_MAX (List.replicate 8 failRound)
      (reconnectSession 300 30)).1 (by decide)).2 (by decide) 3 100 (by decide) (by decide)⟩

/-- C12, counterexample: with `reconnect_interval = 150` and
`RECONNECT_INTERVAL_MAX = 100` the second sleep (100) is shorter than the first (150),
which is not `RECONNECT_INTERVAL_MAX`. -/
theorem reconnect_interval_can_shrink :
    (ssl_reconnect RECONNECT_INTERVAL_MAX [failRound, failRound, failRound]
        (reconnectSession 900 150)).2.2.sleeps = [150, 100, 100] ∧
    ¬ ((150 : Int) < 100) ∧ (150 : Int) ≠ RECONNECT_INTERVAL_MAX := by
  decide

/-- C12 as amended: when `0 < reconnect_interval ≤ RECONNECT_INTERVAL_MAX` and
`RECONNECT_INTERVAL_MAX + reconnect_interval ≤ INT_MAX`, in every run of the loop
each sleep interval is strictly greater than the one before until it is
`RECONNECT_INTERVAL_MAX`, and stays at that value afterwards; when
`reconnect_interval ≥ 0`, `RECONNECT_INTERVAL_MAX ≥ 0` and the `int` holding the
interval cannot overflow (`2 * reconnect_interval ≤ INT_MAX` and
`RECONNECT_INTERVAL_MAX + reconnect_interval ≤ INT_MAX`), the remaining timeout
never increases from one attempt to the next. -/
theorem reconnect_interval_grows (interval_max : Int) (rounds : List reconnect_round)
    (vpninfo : openconnect_info) :
    (0 < vpninfo.reconnect_interval → vpninfo.reconnect_interval ≤ interval_max →
      interval_max + vpninfo.reconnect_interval ≤ INT_MAX →
      List.Chain' (fun a b => a < b ∨ (a = interval_max ∧ b = interval_max))
        (ssl_reconnect interval_max rounds vpninfo).2.2.sleeps ∧
      ∀ x ∈ (ssl_reconnect interval_max rounds vpninfo).2.2.sleeps, x ≤ interval_max) ∧
    (0 ≤ vpninfo.reconnect_interval → 0 ≤ interval_max →
      vpninfo.reconnect_interval + vpninfo.reconnect_interval ≤ INT_MAX →
      interval_max + vpninfo.reconnect_interval ≤ INT_MAX →
      List.Chain' (fun a b => b ≤ a)
        (ssl_reconnect interval_max rounds vpninfo).2.2.attempts) := by
  constructor
  · intro h0 hri hup
    exact ⟨reconnect_sleeps_chain interval_max vpninfo.reconnect_interval h0 hup rounds
        { vpninfo with dtls_pkt := none, tun_pkt := none } _ _ rfl (le_of_lt h0) hri,
      reconnect_sleeps_le interval_max rounds
        { vpninfo with dtls_pkt := none, tun_pkt := none } _ _ hri⟩
  · intro h0 hmax h2 hup
    exact reconnect_attempts_chain interval_max vpninfo.reconnect_interval h0 hmax hup rounds
      { vpninfo with dtls_pkt := none, tun_pkt := none } _ _ rfl h0 h2

/-- C12 as amended, at a concrete input: `reconnect_interval = 30`. -/
theorem reconnect_interval_grows_witness :
    (ssl_reconnect RECONNECT_INTERVAL_MAX (List.replicate 8 failRound)
        (reconnectSession 300 30)).2.2
      = { attempts := [300, 270, 210, 120, 20, -80], sleeps := [30, 60, 90, 100, 100] } ∧
    List.Chain' (fun a b => b ≤ a)
      (ssl_reconnect RECONNECT_INTERVAL_MAX (List.replicate 8 failRound)
        (reconnectSession 300 30)).2.2.attempts :=
  ⟨by decide,
    (reconnect_interval_grows RECONNECT_INTERVAL_MAX (List.replicate 8 failRound)
      (reconnectSession 300 30)).2 (by decide) (by decide) (by decide) (by decide)⟩

/-- C13, counterexample: with `reconnect_timeout = 5` and `reconnect_interval = 10`,
`tcp_connect` failing and no command arriving, the function sleeps 10 seconds
before it gives up with the error of `tcp_connect`: more than `reconnect_timeout`. -/
theorem reconnect_sleeps_past_timeout :
    ssl_reconnect RECONNECT_INTERVAL_MAX [failRound, failRound] (reconnectSession 5 10)
      = (some (-ECONNRESET), reconnectSession 5 10, { attempts := [5, -5], sleeps := [10] }) ∧
    ¬ (([10] : List Int).sum ≤ (reconnectSession 5 10).reconnect_timeout) := by
  decide

/-- C13 as amended: in every run of `ssl_reconnect` (`reconnect_interval` being an
`int`, at most `INT_MAX`) a sleep is started only while the remaining timeout is
positive, so the sleep intervals before the last one add up to less than
`reconnect_timeout`, the sum of all sleep intervals is less than
`reconnect_timeout` plus the last interval, and there is no sleep at all when
`reconnect_timeout ≤ 0`.  When `tcp_connect` keeps failing (not with `-EPERM`), no
command arrives, `reconnect_interval ≥ 1` and the `int` holding the interval cannot
overflow (`2 * reconnect_interval ≤ INT_MAX` and
`RECONNECT_INTERVAL_MAX + reconnect_interval ≤ INT_MAX`), the function gives up,
returning the error of `tcp_connect`, within `reconnect_timeout + 1` attempts. -/
theorem reconnect_sleep_total (interval_max : Int) (rounds : List reconnect_round)
    (vpninfo : openconnect_info) :
    (vpninfo.reconnect_interval ≤ INT_MAX →
      ((ssl_reconnect interval_max rounds vpninfo).2.2.sleeps = [] ∨
        (0 < vpninfo.reconnect_timeout ∧
          (ssl_reconnect interval_max rounds vpninfo).2.2.sleeps.dropLast.sum
            < vpninfo.reconnect_timeout)) ∧
      (∀ last ∈ (ssl_reconnect interval_max rounds vpninfo).2.2.sleeps.getLast?,
        (ssl_reconnect interval_max rounds vpninfo).2.2.sleeps.sum
          < vpninfo.reconnect_timeout + last)) ∧
    ((∀ r ∈ rounds, r.connect ≠ 0 ∧ r.connect ≠ -EPERM ∧ ∀ w ∈ r.wakes, w.cmd_set = false) →
      no_cmd_pending vpninfo → 1 ≤ vpninfo.reconnect_interval → 1 ≤ interval_max →
      vpninfo.reconnect_interval + vpninfo.reconnect_interval ≤ INT_MAX →
      interval_max + vpninfo.reconnect_interval ≤ INT_MAX →
      0 < rounds.length → vpninfo.reconnect_timeout < (rounds.length : Int) →
      ∃ r ∈ rounds, (ssl_reconnect interval_max rounds vpninfo).1 = some r.connect) := by
  refine ⟨fun hint => ?_, ?_⟩
  · have key := reconnect_sleeps_sum interval_max rounds
      { vpninfo with dtls_pkt := none, tun_pkt := none } vpninfo.reconnect_timeout
      vpninfo.reconnect_interval hint
    refine ⟨key, ?_⟩
    intro last hlast
    have hsplit := List.dropLast_append_getLast? last hlast
    rcases key with h | ⟨-, h⟩
    · unfold ssl_reconnect at hlast
      simp only at hlast
      rw [h] at hlast
      simp at hlast
    · rw [← hsplit, List.sum_append]
      unfold ssl_reconnect
      simp only [List.sum_singleton]
      omega
  · intro hall hv hri hmax h2 hup hlen ht
    exact reconnect_gives_up interval_max hmax rounds
      { vpninfo with dtls_pkt := none, tun_pkt := none } _ _ hall hv hri hup hri h2 hlen ht

/-- C13 as amended, at a concrete input: timeout 300, interval 30; the sleeps
before the last add up to 280. -/
theorem reconnect_sleep_total_witness :
    (ssl_reconnect RECONNECT_INTERVAL_MAX (List.replicate 8 failRound)
        (reconnectSession 300 30)).2.2.sleeps = [30, 60, 90, 100, 100] ∧
    (ssl_reconnect RECONNECT_INTERVAL_MAX (List.replicate 8 failRound)
        (reconnectSession 300 30)).2.2.sleeps.sum
      < (reconnectSession 300 30).reconnect_timeout + 100 :=
  ⟨by decide,
    ((reconnect_sleep_total RECONNECT_INTERVAL_MAX (List.replicate 8 failRound)
      (reconnectSession 300 30)).1 (by decide)).2 100 (by decide)⟩

/-- C14: in the loop of `ssl_reconnect`, a `tcp_connect` result of `-EPERM` is
returned at once, with no sleep, no further attempt and no call of the
`reconnected` callback.  After a failed attempt with remaining timeout `> 0` and a
result other than `-EPERM`, the function sleeps once; if `got_cancel_cmd` is set
after the wait it returns `-EINTR`, otherwise if `got_pause_cmd` is set it returns
0, in both cases without a further `tcp_connect` attempt and without calling the
`reconnected` callback, whatever rounds would follow. -/
theorem reconnect_cancel_pause_eperm (interval_max : Int) (r : reconnect_round)
    (rs : List reconnect_round) (vpninfo : openconnect_info) (timeout interval : Int)
    (hfail : r.connect ≠ 0) :
    (r.connect = -EPERM →
      reconnect_loop interval_max (r :: rs) vpninfo timeout interval
        = (some (-EPERM), vpninfo,
            { attempts := [timeout], sleeps := [], reconnected_calls := 0 })) ∧
    (0 < timeout → r.connect ≠ -EPERM →
      ((poll_cmd_fd vpninfo r.wakes).got_cancel_cmd = true →
        reconnect_loop interval_max (r :: rs) vpninfo timeout interval
          = (some (-EINTR), poll_cmd_fd vpninfo r.wakes,
              { attempts := [timeout], sleeps := [interval], reconnected_calls := 0 })) ∧
      ((poll_cmd_fd vpninfo r.wakes).got_cancel_cmd = false →
        (poll_cmd_fd vpninfo r.wakes).got_pause_cmd = true →
        reconnect_loop interval_max (r :: rs) vpninfo timeout interval
          = (some 0, poll_cmd_fd vpninfo r.wakes,
              { attempts := [timeout], sleeps := [interval], reconnected_calls := 0 }))) := by
  refine ⟨fun h => ?_, fun ht hne => ⟨fun hc => ?_, fun hc hp => ?_⟩⟩
  · by_cases h2 : timeout ≤ 0
    · simp only [reconnect_loop, if_neg hfail, if_pos h2]
      rw [h]
    · simp only [reconnect_loop, if_neg hfail, if_neg h2, if_pos h]
      rw [h]
  · simp only [reconnect_loop, if_neg hfail, if_neg (not_le.mpr ht), if_neg hne, if_pos hc]
  · have hc' : ¬ (poll_cmd_fd vpninfo r.wakes).got_cancel_cmd = true := by simp [hc]
    simp only [reconnect_loop, if_neg hfail, if_neg (not_le.mpr ht), if_neg hne, if_neg hc',
      if_pos hp]

/-- C14 at a concrete input: `OC_CMD_CANCEL` arrives during the first sleep; two
more rounds would follow. -/
theorem reconnect_cancel_pause_eperm_witness :
    failRound.connect ≠ 0 ∧
    (poll_cmd_fd (reconnectSession 300 30) [idleWake, cancelWake]).got_cancel_cmd = true ∧
    reconnect_loop RECONNECT_INTERVAL_MAX
        ({ failRound with wakes := [idleWake, cancelWake] } :: [failRound, failRound])
        (reconnectSession 300 30) 300 30
      = (some (-EINTR), poll_cmd_fd (reconnectSession 300 30) [idleWake, cancelWake],
          { attempts := [300], sleeps := [30], reconnected_calls := 0 }) :=
  ⟨by decide, by decide,
    ((reconnect_cancel_pause_eperm RECONNECT_INTERVAL_MAX
      { failRound with wakes := [idleWake, cancelWake] } [failRound, failRound]
      (reconnectSession 300 30) 300 30 (by decide)).2 (by decide) (by decide)).1 (by decide)⟩

/-! ## The session cookie: lemmas -/

theorem last_cookie_named_nil (name : String) : last_cookie_named [] name = none := rfl

theorem last_cookie_named_cons (x : oc_vpn_option) (xs : List oc_vpn_option)
    (name : String) :
    last_cookie_named (x :: xs) name =
      (last_cookie_named xs name).or (if x.option = name then some x.value else none) := by
  unfold last_cookie_named
  rw [List.reverse_cons, List.find?_append]
  cases h : List.find? (fun c => decide (c.option = name)) xs.reverse with
  | some y => simp
  | none =>
    by_cases hx : x.option = name
    · simp [List.find?, hx]
    · simp [List.find?, hx]

theorem last_cookie_named_isSome (jar : List oc_vpn_option) (name : String) :
    (last_cookie_named jar name).isSome = true ↔ ∃ c ∈ jar, c.option = name := by
  unfold last_cookie_named
  rw [Option.isSome_map', List.find?_isSome]
  constructor
  · rintro ⟨c, hc, h⟩
    exact ⟨c, List.mem_reverse.mp hc, by simpa using h⟩
  · rintro ⟨c, hc, h⟩
    exact ⟨c, List.mem_reverse.mpr hc, by simpa using h⟩

theorem ds_cookie_step_fields (c : ds_cookies) (x : oc_vpn_option) :
    (ds_cookie_step c x).dsid = (if x.option = "DSID" then some x.value else c.dsid) ∧
    (ds_cookie_step c x).dsfirst
      = (if x.option = "DSFirstAccess" then some x.value else c.dsfirst) ∧
    (ds_cookie_step c x).dslast
      = (if x.option = "DSLastAccess" then some x.value else c.dslast) ∧
    (ds_cookie_step c x).dsurl
      = (if x.option = "DSSignInUrl" then some x.value else c.dsurl) := by
  unfold ds_cookie_step
  by_cases h1 : x.option = "DSFirstAccess"
  · simp [h1]
  by_cases h2 : x.option = "DSLastAccess"
  · simp [h2]
  by_cases h3 : x.option = "DSID"
  · simp [h3]
  by_cases h4 : x.option = "DSSignInUrl"
  · simp [h4]
  by_cases h5 : x.option = "DSPREAUTH"
  · simp [h5]
  · simp [h1, h2, h3, h4, h5]

theorem ds_cookies_fold (jar : List oc_vpn_option) (c : ds_cookies) :
    (jar.foldl ds_cookie_step c).dsid = (last_cookie_named jar "DSID").or c.dsid ∧
    (jar.foldl ds_cookie_step c).dsfirst
      = (last_cookie_named jar "DSFirstAccess").or c.dsfirst ∧
    (jar.foldl ds_cookie_step c).dslast
      = (last_cookie_named jar "DSLastAccess").or c.dslast ∧
    (jar.foldl ds_cookie_step c).dsurl
      = (last_cookie_named jar "DSSignInUrl").or c.dsurl := by
  induction jar generalizing c with
  | nil => simp [last_cookie_named_nil]
  | cons x xs ih =>
    obtain ⟨a1, a2, a3, a4⟩ := ih (ds_cookie_step c x)
    obtain ⟨b1, b2, b3, b4⟩ := ds_cookie_step_fields c x
    simp only [List.foldl_cons, last_cookie_named_cons]
    rw [a1, a2, a3, a4, b1, b2, b3, b4]
    refine ⟨?_, ?_, ?_, ?_⟩ <;>
    · cases last_cookie_named xs _ <;> split_ifs <;> simp

theorem ds_cookies_of_jar (jar : List oc_vpn_option) :
    (jar.foldl ds_cookie_step {}).dsid = last_cookie_named jar "DSID" ∧
    (jar.foldl ds_cookie_step {}).dsfirst = last_cookie_named jar "DSFirstAccess" ∧
    (jar.foldl ds_cookie_step {}).dslast = last_cookie_named jar "DSLastAccess" ∧
    (jar.foldl ds_cookie_step {}).dsurl = last_cookie_named jar "DSSignInUrl" := by
  obtain ⟨a1, a2, a3, a4⟩ := ds_cookies_fold jar {}
  rw [a1, a2, a3, a4]
  simp

theorem buf_append_ok (buf : oc_text_buf) (s : String) (h : buf.error = 0) :
    buf_append buf s = { buf with data := buf.data ++ s } := by
  simp [buf_append, h]

theorem buf_append_error (buf : oc_text_buf) (s : String) :
    (buf_append buf s).error = buf.error := by
  unfold buf_append
  split_ifs <;> rfl

theorem buf_append_failed (buf : oc_text_buf) (s : String) (h : buf.error ≠ 0) :
    buf_append buf s = buf := by
  simp [buf_append, h]

theorem check_cookie_success_no_dsid (vpninfo : openconnect_info) (alloc_ok : Bool)
    (h : last_cookie_named vpninfo.cookies "DSID" = none) :
    check_cookie_success vpninfo alloc_ok = (-ENOENT, vpninfo, none) := by
  unfold check_cookie_success
  simp only [(ds_cookies_of_jar vpninfo.cookies).1, h]

theorem check_cookie_success_dsid (vpninfo : openconnect_info) (v : String)
    (h : last_cookie_named vpninfo.cookies "DSID" = some v) :
    (check_cookie_success vpninfo true).1 = 0 ∧
    (check_cookie_success vpninfo true).2.1 =
      { vpninfo with cookie := some (session_cookie_text vpninfo.cookies v) } := by
  obtain ⟨a1, a2, a3, a4⟩ := ds_cookies_of_jar vpninfo.cookies
  unfold check_cookie_success session_cookie_text
  simp only [a1, a2, a3, a4, h]
  by_cases ht : vpninfo.tncc_fd = -1 <;>
  cases last_cookie_named vpninfo.cookies "DSFirstAccess" <;>
  cases last_cookie_named vpninfo.cookies "DSLastAccess" <;>
  cases last_cookie_named vpninfo.cookies "DSSignInUrl" <;>
  simp [ht, buf_alloc, buf_append, buf_error, buf_truncate, cookie_part,
    String.append_assoc]

theorem check_cookie_success_failure (vpninfo : openconnect_info) (alloc_ok : Bool)
    (h : (check_cookie_success vpninfo alloc_ok).1 ≠ 0) :
    (check_cookie_success vpninfo alloc_ok).2.1 = vpninfo := by
  unfold check_cookie_success at h ⊢
  cases hd : (List.foldl ds_cookie_step {} vpninfo.cookies).dsid with
  | none => simp only [hd]
  | some dsid =>
    simp only [hd] at h ⊢
    split_ifs at h ⊢ <;> first | rfl | exact absurd rfl h

/-- With a `DSID` cookie in the jar and a buffer that cannot be allocated, the
function returns the error of the buffer and changes nothing. -/
theorem check_cookie_success_nomem (vpninfo : openconnect_info) (v : String)
    (h : last_cookie_named vpninfo.cookies "DSID" = some v) :
    check_cookie_success vpninfo false = (-ENOMEM, vpninfo, none) := by
  obtain ⟨a1, -, -, -⟩ := ds_cookies_of_jar vpninfo.cookies
  have hE : (-ENOMEM : Int) ≠ 0 := by decide
  unfold check_cookie_success
  simp only [a1, h]
  by_cases ht : vpninfo.tncc_fd = -1 <;>
  cases (List.foldl ds_cookie_step {} vpninfo.cookies).dsfirst <;>
  cases (List.foldl ds_cookie_step {} vpninfo.cookies).dslast <;>
  cases (List.foldl ds_cookie_step {} vpninfo.cookies).dsurl <;>
  simp [ht, buf_alloc, buf_append, buf_error, buf_truncate, hE]
/-! ## Properties of `check_cookie_success` -/

/-- C15, counterexample: the jar holds `DSID=abcd`, but the text buffer cannot be
allocated.  `check_cookie_success` returns the error of the buffer, `-ENOMEM`,
which is neither 0 nor `-ENOENT`, and leaves the session as it was. -/
theorem check_cookie_success_alloc_failure :
    (∃ c ∈ (cookieSession jarAbcd).cookies, c.option = "DSID") ∧
    check_cookie_success (cookieSession jarAbcd) false
      = (-ENOMEM, cookieSession jarAbcd, none) ∧
    (-ENOMEM : Int) ≠ 0 ∧ (-ENOMEM : Int) ≠ -ENOENT := by
  decide

/-- C15 as amended: `check_cookie_success` returns 0 exactly when the cookie jar
contains a cookie named `DSID` and the text buffer could be allocated.  Without
such a cookie it returns `-ENOENT`; with one and a buffer in error it returns the
error of the buffer, `-ENOMEM`; a run that returns a non-zero value leaves the
session, `vpninfo->cookie` included, as it was.  On success `vpninfo->cookie`
becomes `DSID=<v>` followed, in this order and only for the names present in the
jar, by `; DSFirst=<DSFirstAccess>`, `; DSLast=<DSLastAccess>` and
`; DSSignInUrl=<DSSignInUrl>`, each value being that of the last jar entry of that
name. -/
theorem check_cookie_success_spec (vpninfo : openconnect_info) (alloc_ok : Bool) :
    ((check_cookie_success vpninfo alloc_ok).1 = 0 ↔
      (∃ c ∈ vpninfo.cookies, c.option = "DSID") ∧ alloc_ok = true) ∧
    ((¬ ∃ c ∈ vpninfo.cookies, c.option = "DSID") →
      check_cookie_success vpninfo alloc_ok = (-ENOENT, vpninfo, none)) ∧
    ((∃ c ∈ vpninfo.cookies, c.option = "DSID") →
      check_cookie_success vpninfo false = (-ENOMEM, vpninfo, none)) ∧
    ((check_cookie_success vpninfo alloc_ok).1 ≠ 0 →
      (check_cookie_success vpninfo alloc_ok).2.1 = vpninfo) ∧
    (∀ v, last_cookie_named vpninfo.cookies "DSID" = some v →
      (check_cookie_success vpninfo true).1 = 0 ∧
      (check_cookie_success vpninfo true).2.1 =
        { vpninfo with cookie := some (session_cookie_text vpninfo.cookies v) }) := by
  have hnone : (¬ ∃ c ∈ vpninfo.cookies, c.option = "DSID") →
      last_cookie_named vpninfo.cookies "DSID" = none := by
    intro h
    rw [← last_cookie_named_isSome] at h
    simpa using h
  have hsome : (∃ c ∈ vpninfo.cookies, c.option = "DSID") →
      ∃ v, last_cookie_named vpninfo.cookies "DSID" = some v := by
    intro hex
    rw [← last_cookie_named_isSome] at hex
    exact Option.isSome_iff_exists.mp hex
  refine ⟨⟨?_, ?_⟩, ?_, ?_, check_cookie_success_failure vpninfo alloc_ok,
    check_cookie_success_dsid vpninfo⟩
  · intro h0
    have hex : ∃ c ∈ vpninfo.cookies, c.option = "DSID" := by
      by_contra hno
      rw [check_cookie_success_no_dsid vpninfo alloc_ok (hnone hno)] at h0
      exact absurd h0 (show (-ENOENT : Int) ≠ 0 by decide)
    refine ⟨hex, ?_⟩
    cases alloc_ok with
    | true => rfl
    | false =>
      obtain ⟨v, hv⟩ := hsome hex
      rw [check_cookie_success_nomem vpninfo v hv] at h0
      exact absurd h0 (show (-ENOMEM : Int) ≠ 0 by decide)
  · rintro ⟨hex, rfl⟩
    obtain ⟨v, hv⟩ := hsome hex
    exact (check_cookie_success_dsid vpninfo v hv).1
  · intro hno
    exact check_cookie_success_no_dsid vpninfo alloc_ok (hnone hno)
  · intro hex
    obtain ⟨v, hv⟩ := hsome hex
    exact check_cookie_success_nomem vpninfo v hv

/-- C15 as amended, at concrete inputs: the jar holding only `DSID=abcd` gives the
session cookie `DSID=abcd`; a jar that assigns `DSID` twice and holds the three
optional cookies gives `DSID=new; DSFirst=10; DSLast=20; DSSignInUrl=/`; a jar
without `DSID` gives `-ENOENT`. -/
theorem check_cookie_success_spec_witness :
    (last_cookie_named (cookieSession jarFull).cookies "DSID" = some "new" ∧
      (check_cookie_success (cookieSession jarFull) true).1 = 0 ∧
      (check_cookie_success (cookieSession jarFull) true).2.1 =
        { cookieSession jarFull with
          cookie := some (session_cookie_text (cookieSession jarFull).cookies "new") }) ∧
    session_cookie_text jarFull "new" = "DSID=new; DSFirst=10; DSLast=20; DSSignInUrl=/" ∧
    (check_cookie_success (cookieSession jarAbcd) true).2.1.cookie = some "DSID=abcd" ∧
    check_cookie_success (cookieSession jarAnonymous) true
      = (-ENOENT, cookieSession jarAnonymous, none) :=
  ⟨⟨by decide,
      (check_cookie_success_spec (cookieSession jarFull) true).2.2.2.2 "new" (by decide)⟩,
    by decide, by decide,
    (check_cookie_success_spec (cookieSession jarAnonymous) true).2.1 (by decide)⟩
/-! ## `append_form_opts`: lemmas -/

theorem append_opt_ok (enc : Option String → String) (body : oc_text_buf)
    (opt name : Option String) (h : body.error = 0) :
    append_opt enc body opt name =
      (0, { body with
        data := (if body.data.length ≠ 0 then body.data ++ "&" else body.data)
          ++ enc opt ++ "=" ++ enc name }) := by
  unfold append_opt
  by_cases hp : body.data.length = 0
  · simp [buf_error, buf_pos, buf_append, h, hp]
  · simp [buf_error, buf_pos, buf_append, h, hp]

theorem length_pair_ne (c a b : String) : (c ++ a ++ "=" ++ b).length ≠ 0 := by
  have h1 : "=".length = 1 := rfl
  simp only [String.length_append, h1]
  omega

theorem append_opts_from_go (enc : Option String → String) (opts : List oc_form_opt)
    (body : oc_text_buf) (h : body.error = 0) (hpos : body.data.length ≠ 0) :
    append_opts_from enc opts body =
      (0, { body with
        data := String.intercalate.go body.data "&"
          (opts.map (fun o => enc o.name ++ "=" ++ enc o._value)) }) := by
  induction opts generalizing body with
  | nil =>
    cases body
    simp [append_opts_from, String.intercalate.go]
  | cons o rest ih =>
    unfold append_opts_from
    rw [append_opt_ok enc body o.name o._value h]
    simp only [if_pos hpos]
    have hih := ih { body with data := body.data ++ "&" ++ enc o.name ++ "=" ++ enc o._value }
      h (by rw [String.append_assoc body.data]; exact length_pair_ne _ _ _)
    rw [if_neg (by simp), hih]
    simp [String.intercalate.go, String.append_assoc]

theorem append_opts_from_empty (enc : Option String → String) (opts : List oc_form_opt) :
    append_opts_from enc opts {} = (0, { data := urlencoded_pairs enc opts }) := by
  cases opts with
  | nil => rfl
  | cons o rest =>
    unfold append_opts_from
    rw [append_opt_ok enc {} o.name o._value rfl]
    have hgo := append_opts_from_go enc rest
      { data := "" ++ enc o.name ++ "=" ++ enc o._value } rfl (length_pair_ne _ _ _)
    have h0 : ¬ (({} : oc_text_buf).data.length ≠ 0) := by decide
    simp only [if_neg h0]
    rw [if_neg (by simp)]
    exact hgo.trans (by simp [urlencoded_pairs, String.intercalate, String.append_assoc])

theorem intercalate_go_snoc (acc sep x : String) (l : List String) :
    String.intercalate.go acc sep (l ++ [x]) = String.intercalate.go acc sep l ++ sep ++ x := by
  induction l generalizing acc with
  | nil => simp [String.intercalate.go]
  | cons a as ih => simp [String.intercalate.go, ih]

theorem urlencoded_pairs_snoc (enc : Option String → String) (o : oc_form_opt)
    (rest : List oc_form_opt) :
    urlencoded_pairs enc (rest ++ [o]) =
      (if rest = [] then "" else urlencoded_pairs enc rest ++ "&")
        ++ (enc o.name ++ "=" ++ enc o._value) := by
  cases rest with
  | nil => simp [urlencoded_pairs, String.intercalate, String.intercalate.go]
  | cons a as =>
    simp [urlencoded_pairs, String.intercalate, intercalate_go_snoc, String.append_assoc]

theorem append_opts_from_error (enc : Option String → String) (opts : List oc_form_opt)
    (body : oc_text_buf) (h : body.error ≠ 0) (hne : opts ≠ []) :
    append_opts_from enc opts body = (body.error, body) := by
  cases opts with
  | nil => exact absurd rfl hne
  | cons o rest => simp [append_opts_from, append_opt, buf_error, h]

/-! ## Properties of `append_form_opts` -/

/-- C18: for every form, with options `o1..oN` in list order, `append_form_opts`
applied to an empty, error-free body returns 0 and leaves in the body exactly
`urlencode(o1.name)=urlencode(o1.value)&...&urlencode(oN.name)=urlencode(oN.value)`,
the pairs joined by `&` with none before the first or after the last pair; for the
form of scenario S1 with `alice` and `hunter2` entered, the body is
`username=alice&password=hunter2&btnSubmit=Go`. -/
theorem append_form_opts_body :
    (∀ (enc : Option String → String) (form : oc_auth_form),
      append_form_opts enc form {} = (0, { data := urlencoded_pairs enc form.opts })) ∧
    (∀ (enc : Option String → String) (o : oc_form_opt) (rest : List oc_form_opt),
      urlencoded_pairs enc [] = "" ∧
      urlencoded_pairs enc [o] = enc o.name ++ "=" ++ enc o._value ∧
      urlencoded_pairs enc (rest ++ [o]) =
        (if rest = [] then "" else urlencoded_pairs enc rest ++ "&")
          ++ (enc o.name ++ "=" ++ enc o._value)) ∧
    append_form_opts urlencode formS1 {}
      = (0, { data := "username=alice&password=hunter2&btnSubmit=Go" }) ∧
    append_form_opts urlencode formEscaped {}
      = (0, { data := "user%20name=a%26b%3dc&x=" }) := by
  refine ⟨fun enc form => append_opts_from_empty enc form.opts, ?_, by decide, by decide⟩
  intro enc o rest
  exact ⟨rfl, by simp [urlencoded_pairs, String.intercalate, String.intercalate.go],
    urlencoded_pairs_snoc enc o rest⟩
/-! ## The form parser: lemmas -/

theorem append_unless_duplicate_result (opts : List oc_form_opt) (opt : oc_form_opt)
    (l : List oc_form_opt) (h : append_unless_duplicate opts opt = .ok l) :
    (l = opts ∧ ∃ p ∈ opts, p.name = opt.name) ∨
    (l = opts ++ [opt] ∧ ∀ p ∈ opts, p.name ≠ opt.name) := by
  induction opts generalizing l with
  | nil =>
    simp only [append_unless_duplicate, outcome.ok.injEq] at h
    exact Or.inr ⟨by simp [← h], by simp⟩
  | cons p rest ih =>
    unfold append_unless_duplicate at h
    cases hp : p.name with
    | none => simp [hp] at h
    | some a =>
      cases ho : opt.name with
      | none => simp [hp, ho] at h
      | some b =>
        simp only [hp, ho] at h
        by_cases hab : a = b
        · simp only [hab, if_true, outcome.ok.injEq] at h
          exact Or.inl ⟨h.symm, p, List.mem_cons_self _ _, by rw [hp, hab]⟩
        · simp only [if_neg hab] at h
          cases hr : append_unless_duplicate rest opt with
          | undefined => simp [hr] at h
          | unfinished => simp [hr] at h
          | ok l' =>
            simp only [hr, outcome.ok.injEq] at h
            rcases ih l' hr with ⟨e, q, hq, hqn⟩ | ⟨e, hall⟩
            · refine Or.inl ⟨by rw [← h, e], q, List.mem_cons_of_mem _ hq, ?_⟩
              rw [hqn, ho]
            · refine Or.inr ⟨by rw [← h, e]; rfl, ?_⟩
              intro q hq
              rcases List.mem_cons.mp hq with rfl | hq
              · rw [hp]
                intro hc
                exact hab (Option.some.inj hc)
              · have := hall q hq
                rwa [ho] at this

theorem append_unless_duplicate_nodup (opts : List oc_form_opt) (opt : oc_form_opt)
    (l : List oc_form_opt) (h : append_unless_duplicate opts opt = .ok l)
    (hn : (opts.map (fun o => o.name)).Nodup) : (l.map (fun o => o.name)).Nodup := by
  rcases append_unless_duplicate_result opts opt l h with ⟨e, -⟩ | ⟨e, hall⟩
  · rw [e]
    exact hn
  · rw [e, List.map_append, List.nodup_append]
    refine ⟨hn, by simp, ?_⟩
    intro a ha hb
    simp only [List.map_cons, List.map_nil, List.mem_singleton] at hb
    obtain ⟨p, hp, hpn⟩ := List.mem_map.mp ha
    exact hall p hp (hpn.trans hb)

theorem parse_input_node_result (lib : token_lib) (vpninfo : openconnect_info)
    (form : oc_auth_form) (node : xmlNode) (submit_button : String)
    (r : Int × oc_auth_form)
    (h : parse_input_node lib vpninfo form node submit_button = .ok r) :
    r.2 = form ∨
    ∃ opt opts, append_unless_duplicate form.opts opt = .ok opts ∧
      r.2 = { form with opts := opts } := by
  unfold parse_input_node at h
  cases ht : xmlGetProp node "type" with
  | none =>
    simp only [ht, outcome.ok.injEq] at h
    exact Or.inl (by rw [← h])
  | some type =>
    simp only [ht] at h
    cases hi : input_opt lib vpninfo form node submit_button type with
    | undefined => simp [hi] at h
    | unfinished => simp [hi] at h
    | ok o =>
      cases o with
      | none =>
        simp only [hi, outcome.ok.injEq] at h
        exact Or.inl (by rw [← h])
      | some opt =>
        simp only [hi] at h
        cases ha : append_unless_duplicate form.opts opt with
        | undefined => simp [ha] at h
        | unfinished => simp [ha] at h
        | ok opts =>
          simp only [ha, outcome.ok.injEq] at h
          exact Or.inr ⟨opt, opts, ha, by rw [← h]⟩

theorem parse_select_node_result (form : oc_auth_form) (node : xmlNode)
    (r : Int × oc_auth_form) (h : parse_select_node form node = .ok r) :
    ∃ opt authgroup, r.2 = { form with opts := opt :: form.opts, authgroup_opt := authgroup } := by
  unfold parse_select_node at h
  cases hn : xmlGetProp node "name" with
  | none => simp [hn] at h
  | some name =>
    simp only [hn] at h
    cases hc : select_choices node.children with
    | undefined => simp [hc] at h
    | unfinished => simp [hc] at h
    | ok choices =>
      simp only [hc, outcome.ok.injEq] at h
      exact ⟨_, _, by rw [← h]⟩

/-- What the body of the loop of `parse_form_node` leaves of the form: `method`,
`action` and `auth_id` are not touched. -/
theorem parse_form_child_head (lib : token_lib) (vpninfo : openconnect_info)
    (doc : xmlNode) (submit_button : String) (form : oc_auth_form) (child : xmlNodePtr)
    (n : xmlNode) (r : oc_auth_form × xmlNodePtr)
    (h : parse_form_child lib vpninfo doc submit_button form child n = .ok r) :
    r.1.method = form.method ∧ r.1.action = form.action ∧ r.1.auth_id = form.auth_id := by
  unfold parse_form_child at h
  cases hn : n.name with
  | none =>
    simp only [hn, outcome.ok.injEq] at h
    rw [← h]
    exact ⟨rfl, rfl, rfl⟩
  | some name =>
    simp only [hn] at h
    cases h1 : strcaseeq name "input" with
    | true =>
      simp only [h1, if_true] at h
      cases hp : parse_input_node lib vpninfo form n submit_button with
      | undefined => simp [hp] at h
      | unfinished => simp [hp] at h
      | ok r' =>
        simp only [hp, outcome.ok.injEq] at h
        rw [← h]
        rcases parse_input_node_result lib vpninfo form n submit_button r' hp with
          e | ⟨opt, opts, -, e⟩
        · simp [e]
        · simp [e]
    | false =>
      simp only [h1, Bool.false_eq_true, if_false] at h
      cases h2 : strcaseeq name "select" with
      | true =>
        simp only [h2, if_true] at h
        cases hp : parse_select_node form n with
        | undefined => simp [hp] at h
        | unfinished => simp [hp] at h
        | ok r' =>
          simp only [hp, outcome.ok.injEq] at h
          rw [← h]
          obtain ⟨opt, ag, e⟩ := parse_select_node_result form n r' hp
          simp [e]
      | false =>
        simp only [h2, Bool.false_eq_true, if_false] at h
        cases h3 : strcaseeq name "textarea" with
        | true =>
          simp only [h3, if_true] at h
          split at h
          · split at h
            · split at h <;>
              · simp only [outcome.ok.injEq] at h
                rw [← h]
                exact ⟨rfl, rfl, rfl⟩
            · simp only [outcome.ok.injEq] at h
              rw [← h]
              exact ⟨rfl, rfl, rfl⟩
          · simp only [outcome.ok.injEq] at h
            rw [← h]
            exact ⟨rfl, rfl, rfl⟩
        | false =>
          simp only [h3, Bool.false_eq_true, if_false, outcome.ok.injEq] at h
          rw [← h]
          exact ⟨rfl, rfl, rfl⟩

theorem parse_form_loop_head (lib : token_lib) (vpninfo : openconnect_info)
    (doc : xmlNode) (node : xmlNodePtr) (submit_button : String) (fuel : Nat)
    (child : Option xmlNodePtr) (form out : oc_auth_form)
    (h : parse_form_loop lib vpninfo doc node submit_button fuel child form = .ok out) :
    out.method = form.method ∧ out.action = form.action ∧ out.auth_id = form.auth_id := by
  induction fuel generalizing child form with
  | zero =>
    cases child with
    | none =>
      simp only [parse_form_loop, outcome.ok.injEq] at h
      rw [← h]
      exact ⟨rfl, rfl, rfl⟩
    | some c => simp [parse_form_loop] at h
  | succ fuel ih =>
    cases child with
    | none =>
      simp only [parse_form_loop, outcome.ok.injEq] at h
      rw [← h]
      exact ⟨rfl, rfl, rfl⟩
    | some c =>
      unfold parse_form_loop at h
      by_cases hc : c = node
      · simp only [hc, if_true, outcome.ok.injEq] at h
        rw [← h]
        exact ⟨rfl, rfl, rfl⟩
      · simp only [if_neg hc] at h
        cases hn : node_at doc c with
        | none => simp [hn] at h
        | some n =>
          simp only [hn] at h
          cases hp : parse_form_child lib vpninfo doc submit_button form c n with
          | undefined => simp [hp] at h
          | unfinished => simp [hp] at h
          | ok r =>
            simp only [hp] at h
            obtain ⟨a1, a2, a3⟩ := ih _ _ h
            obtain ⟨b1, b2, b3⟩ := parse_form_child_head lib vpninfo doc submit_button
              form c n r hp
            exact ⟨a1.trans b1, a2.trans b2, a3.trans b3⟩
/-- An input element never makes the names of a form collide: when the names of
`form->opts` are pairwise distinct before `parse_input_node`, they are afterwards,
and an input whose name is already present leaves the list as it was. -/
theorem parse_input_node_names_distinct (lib : token_lib) (vpninfo : openconnect_info)
    (form : oc_auth_form) (node : xmlNode) (submit_button : String)
    (r : Int × oc_auth_form)
    (h : parse_input_node lib vpninfo form node submit_button = .ok r)
    (hn : (form.opts.map (fun o => o.name)).Nodup) :
    (r.2.opts.map (fun o => o.name)).Nodup ∧
    (r.2.opts = form.opts ∨
      ∃ opt, r.2.opts = form.opts ++ [opt] ∧ ∀ p ∈ form.opts, p.name ≠ opt.name) := by
  rcases parse_input_node_result lib vpninfo form node submit_button r h with
    e | ⟨opt, opts, ha, e⟩
  · rw [e]
    exact ⟨hn, Or.inl rfl⟩
  · rw [e]
    refine ⟨append_unless_duplicate_nodup form.opts opt opts ha hn, ?_⟩
    rcases append_unless_duplicate_result form.opts opt opts ha with ⟨e', -⟩ | ⟨e', hall⟩
    · exact Or.inl e'
    · exact Or.inr ⟨opt, e', hall⟩

theorem parse_roles_form_loop_head (doc : xmlNode) (node : xmlNodePtr) (fuel : Nat)
    (child : Option xmlNodePtr) (form : oc_auth_form)
    (h : parse_roles_form_loop doc node fuel child = .ok (some form)) :
    ∃ n, form = parse_roles_table_node n := by
  induction fuel generalizing child with
  | zero =>
    cases child with
    | none => simp [parse_roles_form_loop] at h
    | some c => simp [parse_roles_form_loop] at h
  | succ fuel ih =>
    cases child with
    | none => simp [parse_roles_form_loop] at h
    | some c =>
      unfold parse_roles_form_loop at h
      by_cases hc : c = node
      · simp [hc] at h
      · simp only [if_neg hc] at h
        cases hn : node_at doc c with
        | none => simp [hn] at h
        | some n =>
          simp only [hn] at h
          split at h
          · simp only [outcome.ok.injEq, Option.some.injEq] at h
            exact ⟨n, h.symm⟩
          · exact ih _ h

/-! ## Properties of the form parser -/

/-- C16, at a concrete page: a form holding `<input type=text name=realm>`
followed by `<select name=realm>` is returned by `parse_form_node` with two options
named `realm`, the select element first: the select element is not discarded and
the names are not pairwise distinct.  With the two elements in the other order the
input is discarded, and so is the second of two inputs of the same name. -/
theorem parse_form_select_duplicate_kept :
    parsed_names (parse_form_node noTokens (cookieSession []) pageRealmTwice formPtr
      "btnSubmit") = some [some "realm", some "realm"] ∧
    ¬ ([some "realm", some "realm"] : List (Option String)).Nodup ∧
    parsed_names (parse_form_node noTokens (cookieSession []) pageRealmSelectFirst formPtr
      "btnSubmit") = some [some "realm"] ∧
    parsed_names (parse_form_node noTokens (cookieSession []) pageUserTwice formPtr
      "btnSubmit") = some [some "username", some "password"] := by
  decide

/-- C17, counterexample: for the role selection page of scenario S5,
`parse_roles_form_node` returns a form that has neither a method nor an action. -/
theorem roles_form_without_method :
    parse_roles_form_node pageS5 formPtr = .ok (some formS5) ∧
    formS5.method ≠ some "POST" ∧ formS5.action = none := by
  decide

/-- C17 as amended: every form returned by `parse_form_node` has a method that is
`POST` up to letter case and a non-empty action, both as the form element gives
them; `parse_form_node` returns no form when the method attribute is missing or is
not `POST` (up to letter case) or when the action attribute is missing or empty;
a form returned by `parse_roles_form_node` has no method. -/
theorem parse_form_node_method_action (lib : token_lib) (vpninfo : openconnect_info)
    (doc : xmlNode) (node : xmlNodePtr) (submit_button : String) :
    (∀ form, parse_form_node lib vpninfo doc node submit_button = .ok (some form) →
      (∃ m, form.method = some m ∧ strcaseeq m "POST" = true) ∧
      (∃ a, form.action = some a ∧ a ≠ "") ∧
      ∀ n, node_at doc node = some n →
        form.method = xmlGetProp n "method" ∧ form.action = xmlGetProp n "action") ∧
    (∀ n, node_at doc node = some n →
      (xmlGetProp n "method" = none ∨
        (∃ m, xmlGetProp n "method" = some m ∧ strcaseeq m "POST" = false) ∨
        xmlGetProp n "action" = none ∨ xmlGetProp n "action" = some "") →
      parse_form_node lib vpninfo doc node submit_button = .ok none) ∧
    (∀ form, parse_roles_form_node doc node = .ok (some form) → form.method = none) := by
  refine ⟨?_, ?_, ?_⟩
  · intro form h
    unfold parse_form_node at h
    cases hn : node_at doc node with
    | none => simp [hn] at h
    | some n =>
      simp only [hn] at h
      split at h
      · simp at h
      · rename_i hcond
        cases hid : xmlGetProp n "name" with
        | none => simp [hid] at h
        | some auth_id =>
          simp only [hid] at h
          split at h
          · rename_i out hloop
            simp only [outcome.ok.injEq, Option.some.injEq] at h
            obtain ⟨a1, a2, -⟩ := parse_form_loop_head _ _ _ _ _ _ _ _ _ hloop
            simp only at a1 a2
            rw [← h, a1, a2]
            push_neg at hcond
            obtain ⟨hm, ha⟩ := hcond
            refine ⟨?_, ?_, ?_⟩
            · cases hmm : xmlGetProp n "method" with
              | none => simp [hmm] at hm
              | some m =>
                refine ⟨m, rfl, ?_⟩
                simpa [hmm] using hm
            · cases haa : xmlGetProp n "action" with
              | none => simp [haa] at ha
              | some a =>
                refine ⟨a, rfl, ?_⟩
                simpa [haa] using ha
            · intro n' hn'
              cases hn'
              exact ⟨rfl, rfl⟩
          · simp at h
          · simp at h
  · intro n hn hbad
    unfold parse_form_node
    simp only [hn]
    rw [if_pos]
    rcases hbad with h | ⟨m, h, hm⟩ | h | h
    · exact Or.inl (by simp [h])
    · exact Or.inl (by simp [h, hm])
    · exact Or.inr (by simp [h])
    · exact Or.inr (by simp [h])
  · intro form h
    obtain ⟨n, e⟩ := parse_roles_form_loop_head doc node _ _ form h
    rw [e]
    rfl

/-- C17 as amended, at concrete pages: the form written with `method=post` is
returned with that method and the action `/auth`; the form element of the role
selection page, which has no method, gives no form in `parse_form_node`. -/
theorem parse_form_node_method_action_witness :
    ((∃ m, formUserTwice.method = some m ∧ strcaseeq m "POST" = true) ∧
      (∃ a, formUserTwice.action = some a ∧ a ≠ "") ∧
      ∀ n, node_at pageUserTwice formPtr = some n →
        formUserTwice.method = xmlGetProp n "method" ∧
        formUserTwice.action = xmlGetProp n "action") ∧
    parse_form_node noTokens (cookieSession []) pageS5 formPtr "btnSubmit" = .ok none :=
  ⟨(parse_form_node_method_action noTokens (cookieSession []) pageUserTwice formPtr
      "btnSubmit").1 formUserTwice (by decide),
    (parse_form_node_method_action noTokens (cookieSession []) pageS5 formPtr
      "btnSubmit").2.1
      (element "form" [("name", "frmSelectRoles")]
        [element "table" [("id", "TABLE_SelectRole_1")]
          [element "tr" []
            [element "td" [] [text_element "a" [("href", "/rolepick?r=1")] "Admin"]],
           element "tr" []
            [element "td" [] [text_element "a" [("href", "/rolepick?r=2")] "User"]]]])
      (by rfl) (Or.inl (by decide))⟩
/-! ## `oncp_obtain_cookie`: lemmas -/

theorem oncp_fetch_events (sv : oncp_services) (r : oncp_round) (vpninfo : openconnect_info)
    (resp_buf : oc_text_buf) (try_tncc : Bool) :
    ∃ tail, (oncp_fetch sv r vpninfo resp_buf try_tncc).2 =
      (if buf_pos resp_buf ≠ 0 then oncp_event.request "POST" (some resp_buf.data) vpninfo
        else oncp_event.request "GET" none vpninfo) :: tail := by
  unfold oncp_fetch
  simp only
  repeat' split
  all_goals exact ⟨_, rfl⟩

theorem oncp_fetch_parsed (sv : oncp_services) (r : oncp_round) (vpninfo : openconnect_info)
    (resp_buf : oc_text_buf) (try_tncc : Bool) (s : oncp_parsed) (evs : List oncp_event)
    (h : oncp_fetch sv r vpninfo resp_buf try_tncc = (.inr s, evs)) :
    s.resp_buf = buf_truncate resp_buf ∧ s.try_tncc = try_tncc ∧
    evs = [if buf_pos resp_buf ≠ 0 then oncp_event.request "POST" (some resp_buf.data) vpninfo
        else oncp_event.request "GET" none vpninfo] := by
  unfold oncp_fetch at h
  simp only at h
  repeat' split at h
  all_goals simp only [Prod.mk.injEq, Sum.inr.injEq, reduceCtorEq, false_and] at h
  all_goals
    obtain ⟨h1, h2⟩ := h
    rw [← h1, ← h2]
    refine ⟨rfl, rfl, ?_⟩
    simp [*]

theorem oncp_continue_events (rest : openconnect_info → oc_text_buf → Bool →
      oncp_end × openconnect_info × List oncp_event) (step : oncp_step)
    (evs : List oncp_event) :
    ∃ tail, (oncp_continue rest step evs).2.2 = evs ++ tail := by
  cases step with
  | stop e v => exact ⟨[], by simp [oncp_continue]⟩
  | again v b t => exact ⟨_, rfl⟩

theorem oncp_continue_again (rest : openconnect_info → oc_text_buf → Bool →
      oncp_end × openconnect_info × List oncp_event) (v : openconnect_info)
    (b : oc_text_buf) (t : Bool) (evs : List oncp_event) :
    (oncp_continue rest (.again v b t) evs).2.2 = evs ++ (rest v b t).2.2 := rfl

theorem oncp_loop_events (sv : oncp_services) (r : oncp_round) (rs : List oncp_round)
    (vpninfo : openconnect_info) (resp_buf : oc_text_buf) (try_tncc : Bool) :
    ∃ tail, (oncp_loop sv (r :: rs) vpninfo resp_buf try_tncc).2.2 =
      (if buf_pos resp_buf ≠ 0 then oncp_event.request "POST" (some resp_buf.data) vpninfo
        else oncp_event.request "GET" none vpninfo) :: tail := by
  obtain ⟨t1, h1⟩ := oncp_fetch_events sv r vpninfo resp_buf try_tncc
  unfold oncp_loop
  cases hf : oncp_fetch sv r vpninfo resp_buf try_tncc with
  | mk step evs =>
    rw [hf] at h1
    simp only at h1
    cases step with
    | inl step =>
      obtain ⟨t2, h2⟩ := oncp_continue_events (oncp_loop sv rs) step evs
      simp only
      rw [h2, h1]
      exact ⟨_, rfl⟩
    | inr s =>
      obtain ⟨t2, h2⟩ := oncp_continue_events (oncp_loop sv rs)
        (oncp_submit sv r.prompts s).1 (evs ++ (oncp_submit sv r.prompts s).2)
      simp only
      rw [h2, h1]
      exact ⟨_, rfl⟩

theorem oncp_loop_parsed (sv : oncp_services) (r : oncp_round) (rs : List oncp_round)
    (vpninfo : openconnect_info) (resp_buf : oc_text_buf) (try_tncc : Bool)
    (s : oncp_parsed) (evs : List oncp_event)
    (h : oncp_fetch sv r vpninfo resp_buf try_tncc = (.inr s, evs)) :
    oncp_loop sv (r :: rs) vpninfo resp_buf try_tncc =
      oncp_continue (oncp_loop sv rs) (oncp_submit sv r.prompts s).1
        (evs ++ (oncp_submit sv r.prompts s).2) := by
  rw [oncp_loop, h]

theorem do_gen_tokencode_no_opts (lib : token_lib) (vpninfo : openconnect_info)
    (form : oc_auth_form) (h : ∀ o ∈ form.opts, o.type ≠ .OC_FORM_OPT_TOKEN) :
    do_gen_tokencode lib vpninfo form = (0, form) := by
  unfold do_gen_tokencode
  have : form.opts.find? (fun o => o.type = .OC_FORM_OPT_TOKEN) = none := by
    rw [List.find?_eq_none]
    intro o ho
    simpa using h o ho
  rw [this]

/-- C19, counterexample: for a `frmLogin` page whose form has no inputs, followed
by the response that sets `DSID=abcd`, `oncp_obtain_cookie` returns 0 after a
request, a prompt and a second request; both requests are `GET` requests without a
body, and no `POST` is sent. -/
theorem oncp_empty_form_sends_get :
    (oncp_obtain_cookie plainServices true roundsNoInputs loginSession).1 = .returned 0 ∧
    kinds_of (oncp_obtain_cookie plainServices true roundsNoInputs loginSession).2.2
      = ['R', 'P', 'R'] ∧
    requests_of (oncp_obtain_cookie plainServices true roundsNoInputs loginSession).2.2
      = [("GET", none), ("GET", none)] ∧
    ("POST", some "") ∉
      requests_of (oncp_obtain_cookie plainServices true roundsNoInputs loginSession).2.2 := by
  decide

/-- C19 as amended: when a pass of the loop of `oncp_obtain_cookie` receives a
form that is shown to the user (`frmLogin` among them) and that has no options,
and the user confirms it without adding any, the form is accepted: after the call
of `process_auth_form` nothing is appended to the request body, `redirect_url` is set
to the action of the form, `handle_redirect` is called, and the next request is a
`GET` without a body, made in that session. -/
theorem oncp_empty_form_next_request (sv : oncp_services) (r r2 : oncp_round)
    (rs : List oncp_round) (vpninfo : openconnect_info) (resp_buf : oc_text_buf)
    (try_tncc : Bool) (s : oncp_parsed) (evs : List oncp_event) (p : auth_prompt)
    (form : oc_auth_form)
    (hbuf : resp_buf.error = 0)
    (hfetch : oncp_fetch sv r vpninfo resp_buf try_tncc = (.inr s, evs))
    (hask : s.ask = true) (hrole : s.role_select = false) (hopts : s.form.opts = [])
    (hp : r.prompts = [p]) (hans : p s.form = (0, form))
    (hsame : form.opts = s.form.opts) :
    ∃ tail, (oncp_loop sv (r :: r2 :: rs) vpninfo resp_buf try_tncc).2.2 =
      evs ++ [.prompt s.form,
        .request "GET" none (sv.handle_redirect { s.vpninfo with redirect_url := form.action })]
        ++ tail := by
  obtain ⟨hb, -, -⟩ := oncp_fetch_parsed sv r vpninfo resp_buf try_tncc s evs hfetch
  have hform : form.opts = [] := hsame.trans hopts
  have hloop : process_auth_form_loop r.prompts s.form = (some (0, form), [.prompt s.form]) := by
    rw [hp]
    unfold process_auth_form_loop
    rw [hans]
    rw [if_neg (by simp [OC_FORM_RESULT_NEWGROUP])]
  have hgen : do_gen_tokencode sv.lib s.vpninfo form = (0, form) :=
    do_gen_tokencode_no_opts _ _ _ (by rw [hform]; simp)
  have hdone : oncp_form_done sv s.vpninfo s.resp_buf s.try_tncc form =
      .again (sv.handle_redirect { s.vpninfo with redirect_url := form.action })
        s.resp_buf s.try_tncc := by
    unfold oncp_form_done append_form_opts
    rw [hform]
    simp only [append_opts_from]
    rw [if_neg]
    rw [hb]
    simp [buf_error, buf_truncate, hbuf]
  have hsub : oncp_submit sv r.prompts s =
      (.again (sv.handle_redirect { s.vpninfo with redirect_url := form.action })
        s.resp_buf s.try_tncc, [.prompt s.form]) := by
    unfold oncp_submit
    rw [if_pos hask, hloop]
    simp only [ne_eq, not_true_eq_false, if_false, hgen, hrole, Bool.false_eq_true, hdone]
  rw [oncp_loop_parsed sv r (r2 :: rs) vpninfo resp_buf try_tncc s evs hfetch, hsub]
  simp only [oncp_continue_again]
  obtain ⟨tail, ht⟩ := oncp_loop_events sv r2 rs
    (sv.handle_redirect { s.vpninfo with redirect_url := form.action }) s.resp_buf s.try_tncc
  have hpos : ¬ (buf_pos s.resp_buf ≠ 0) := by
    rw [hb]
    simp [buf_pos, buf_truncate]
  rw [if_neg hpos] at ht
  rw [ht]
  exact ⟨tail, by simp⟩

/-- C19 as amended, at a concrete input: the `frmLogin` page without inputs. -/
theorem oncp_empty_form_next_request_witness :
    ∃ tail, (oncp_loop plainServices roundsNoInputs loginSession {} false).2.2 =
      [.request "GET" none loginSession] ++ [.prompt
        { method := some "POST", action := some "/auth", auth_id := some "frmLogin",
          banner := some "frmLogin" },
        .request "GET" none
          (plainServices.handle_redirect { loginSession with redirect_url := some "/auth" })]
        ++ tail :=
  oncp_empty_form_next_request plainServices
    { https_ret := 100, doc := some pageNoInputs, prompts := [promptOk] } roundLoggedIn []
    loginSession {} false
    { vpninfo := loginSession, resp_buf := {}, try_tncc := false,
      form := { method := some "POST", action := some "/auth", auth_id := some "frmLogin",
                banner := some "frmLogin" },
      role_select := false, ask := true }
    [.request "GET" none loginSession] promptOk
    { method := some "POST", action := some "/auth", auth_id := some "frmLogin",
      banner := some "frmLogin" }
    rfl (by decide) rfl rfl rfl rfl rfl rfl

theorem destroy_esp_ciphers_handles (e : esp) :
    (destroy_esp_ciphers e).cipher = none ∧ (destroy_esp_ciphers e).hmac = none := by
  unfold destroy_esp_ciphers
  cases hc : e.cipher <;> cases hh : e.hmac <;> simp [hc, hh]

theorem destroy_esp_ciphers_paired (e : esp) : handles_paired (destroy_esp_ciphers e) := by
  obtain ⟨a, b⟩ := destroy_esp_ciphers_handles e
  simp [handles_paired, a, b]

theorem init_esp_ciphers_paired (cipher_ok hmac_ok : Bool) (e : esp) (macalg encalg : Nat)
    (h : handles_paired e) :
    handles_paired (init_esp_ciphers cipher_ok hmac_ok e macalg encalg).2 := by
  unfold init_esp_ciphers
  by_cases h1 : encalg ≠ GNUTLS_CIPHER_AES_128_CBC ∧ encalg ≠ GNUTLS_CIPHER_AES_256_CBC
  · rw [if_pos h1]
    exact h
  · rw [if_neg h1]
    simp only
    by_cases h2 : cipher_ok = false
    · rw [if_pos h2]
      exact h
    · rw [if_neg h2]
      by_cases h3 : hmac_ok = false
      · rw [if_pos h3]
        exact destroy_esp_ciphers_paired _
      · rw [if_neg h3]
        simp [handles_paired]

theorem setup_esp_keys_paired (g : esp_keygen) (vpninfo : openconnect_info)
    (hin : handles_paired vpninfo.esp_in) (hout : handles_paired vpninfo.esp_out) :
    handles_paired (setup_esp_keys g vpninfo).2.esp_in ∧
    handles_paired (setup_esp_keys g vpninfo).2.esp_out := by
  have hin' : ∀ spi secrets,
      handles_paired { vpninfo.esp_in with spi := spi, secrets := secrets } := by
    intro spi secrets
    exact hin
  unfold setup_esp_keys
  by_cases h1 : vpninfo.dtls_state = .DTLS_DISABLED
  · rw [if_pos h1]
    exact ⟨hin, hout⟩
  rw [if_neg h1]
  by_cases h2 : vpninfo.esp_enc ≠ 0x02 ∧ vpninfo.esp_enc ≠ 0x05
  · rw [if_pos h2]
    exact ⟨hin, hout⟩
  rw [if_neg h2]
  simp only
  by_cases h3 : vpninfo.esp_hmac ≠ 0x01 ∧ vpninfo.esp_hmac ≠ 0x02
  · rw [if_pos h3]
    exact ⟨hin, hout⟩
  rw [if_neg h3]
  cases hr : g.rnd with
  | none => exact ⟨hin, hout⟩
  | some r =>
    obtain ⟨spi, secrets⟩ := r
    simp only
    generalize (if vpninfo.esp_enc = 0x02 then GNUTLS_CIPHER_AES_128_CBC
      else GNUTLS_CIPHER_AES_256_CBC) = encalg
    generalize (if vpninfo.esp_hmac = 0x01 then GNUTLS_MAC_MD5 else GNUTLS_MAC_SHA1) = macalg
    by_cases h4 : (init_esp_ciphers g.cipher_out_ok g.hmac_out_ok vpninfo.esp_out
        macalg encalg).1 ≠ 0
    · rw [if_pos h4]
      exact ⟨hin' spi secrets, init_esp_ciphers_paired _ _ _ _ _ hout⟩
    · rw [if_neg h4]
      split_ifs
      · exact ⟨init_esp_ciphers_paired _ _ _ _ _ (hin' spi secrets),
          destroy_esp_ciphers_paired _⟩
      · exact ⟨init_esp_ciphers_paired _ _ _ _ _ (hin' spi secrets),
          init_esp_ciphers_paired _ _ _ _ _ hout⟩

theorem esp_call_paired (c : esp_call) (vpninfo : openconnect_info)
    (hin : handles_paired vpninfo.esp_in) (hout : handles_paired vpninfo.esp_out) :
    handles_paired (c.run vpninfo).esp_in ∧ handles_paired (c.run vpninfo).esp_out := by
  cases c with
  | init_in cipher_ok hmac_ok macalg encalg =>
    exact ⟨init_esp_ciphers_paired _ _ _ _ _ hin, hout⟩
  | init_out cipher_ok hmac_ok macalg encalg =>
    exact ⟨hin, init_esp_ciphers_paired _ _ _ _ _ hout⟩
  | setup g => exact setup_esp_keys_paired g vpninfo hin hout
  | destroy_in => exact ⟨destroy_esp_ciphers_paired _, hout⟩
  | destroy_out => exact ⟨hin, destroy_esp_ciphers_paired _⟩
  | configure state esp_enc esp_hmac => exact ⟨hin, hout⟩

theorem run_esp_calls_paired (calls : List esp_call) (vpninfo : openconnect_info)
    (hin : handles_paired vpninfo.esp_in) (hout : handles_paired vpninfo.esp_out) :
    handles_paired (run_esp_calls calls vpninfo).esp_in ∧
    handles_paired (run_esp_calls calls vpninfo).esp_out := by
  induction calls generalizing vpninfo with
  | nil => exact ⟨hin, hout⟩
  | cons c cs ih =>
    obtain ⟨a, b⟩ := esp_call_paired c vpninfo hin hout
    exact ih (c.run vpninfo) a b

/-! ## Properties of `setup_esp_keys` -/

/-- C22: `setup_esp_keys` returns `-EOPNOTSUPP` when `dtls_state` is
`DTLS_DISABLED`, and `-EINVAL` when ESP is not disabled and `esp_enc` is neither
0x02 nor 0x05, or `esp_hmac` is neither 0x01 nor 0x02; in each of these cases the
session is left as it was, `dtls_state`, the inbound SPI and the cipher and HMAC
handles of both directions included, whatever GnuTLS would have done. -/
theorem setup_esp_keys_refuses (g : esp_keygen) (vpninfo : openconnect_info) :
    (vpninfo.dtls_state = .DTLS_DISABLED →
      setup_esp_keys g vpninfo = (-EOPNOTSUPP, vpninfo)) ∧
    (vpninfo.dtls_state ≠ .DTLS_DISABLED →
      (vpninfo.esp_enc ≠ 0x02 ∧ vpninfo.esp_enc ≠ 0x05) ∨
        (vpninfo.esp_hmac ≠ 0x01 ∧ vpninfo.esp_hmac ≠ 0x02) →
      setup_esp_keys g vpninfo = (-EINVAL, vpninfo)) ∧
    (vpninfo.dtls_state = .DTLS_DISABLED ∨
        (vpninfo.esp_enc ≠ 0x02 ∧ vpninfo.esp_enc ≠ 0x05) ∨
        (vpninfo.esp_hmac ≠ 0x01 ∧ vpninfo.esp_hmac ≠ 0x02) →
      (setup_esp_keys g vpninfo).2 = vpninfo ∧
      ((setup_esp_keys g vpninfo).1 = -EOPNOTSUPP ∨ (setup_esp_keys g vpninfo).1 = -EINVAL)) := by
  have hdis : vpninfo.dtls_state = .DTLS_DISABLED →
      setup_esp_keys g vpninfo = (-EOPNOTSUPP, vpninfo) := by
    intro h
    simp [setup_esp_keys, h]
  have hinv : vpninfo.dtls_state ≠ .DTLS_DISABLED →
      (vpninfo.esp_enc ≠ 0x02 ∧ vpninfo.esp_enc ≠ 0x05) ∨
        (vpninfo.esp_hmac ≠ 0x01 ∧ vpninfo.esp_hmac ≠ 0x02) →
      setup_esp_keys g vpninfo = (-EINVAL, vpninfo) := ?_
  · refine ⟨hdis, hinv, ?_⟩
    intro h
    by_cases hd : vpninfo.dtls_state = .DTLS_DISABLED
    · rw [hdis hd]
      exact ⟨rfl, Or.inl rfl⟩
    · rw [hinv hd (h.resolve_left hd)]
      exact ⟨rfl, Or.inr rfl⟩
  · intro h hbad
    unfold setup_esp_keys
    rw [if_neg h]
    by_cases he : vpninfo.esp_enc ≠ 0x02 ∧ vpninfo.esp_enc ≠ 0x05
    · rw [if_pos he]
    · rw [if_neg he]
      rcases hbad with hb | hb
      · exact absurd hb he
      · simp only
        rw [if_pos hb]

/-- C22 at concrete inputs: the disabled session, a session with `esp_enc = 0x03`
and one with `esp_hmac = 0x03` are refused and left as they were. -/
theorem setup_esp_keys_refuses_witness :
    setup_esp_keys keygenOk espDisabled = (-EOPNOTSUPP, espDisabled) ∧
    setup_esp_keys keygenOk { espSession with esp_enc := 0x03 }
      = (-EINVAL, { espSession with esp_enc := 0x03 }) ∧
    setup_esp_keys keygenOk { espSession with esp_hmac := 0x03 }
      = (-EINVAL, { espSession with esp_hmac := 0x03 }) :=
  ⟨(setup_esp_keys_refuses keygenOk espDisabled).1 (by decide),
    (setup_esp_keys_refuses keygenOk { espSession with esp_enc := 0x03 }).2.1 (by decide)
      (Or.inl (by decide)),
    (setup_esp_keys_refuses keygenOk { espSession with esp_hmac := 0x03 }).2.1 (by decide)
      (Or.inr (by decide))⟩

/-- C25: in a session in which the cipher and HMAC handles of both directions are
null, after any sequence of calls of `init_esp_ciphers`, `setup_esp_keys` and
`destroy_esp_ciphers` (and of changes of the negotiated parameters), whatever the
outcome of each initialisation in GnuTLS, the cipher handle and the HMAC handle of
each direction are both initialised or both null. -/
theorem esp_handles_stay_paired (calls : List esp_call) (vpninfo : openconnect_info)
    (hin : vpninfo.esp_in.cipher = none ∧ vpninfo.esp_in.hmac = none)
    (hout : vpninfo.esp_out.cipher = none ∧ vpninfo.esp_out.hmac = none) :
    handles_paired (run_esp_calls calls vpninfo).esp_in ∧
    handles_paired (run_esp_calls calls vpninfo).esp_out :=
  run_esp_calls_paired calls vpninfo (by simp [handles_paired, hin.1, hin.2])
    (by simp [handles_paired, hout.1, hout.2])

/-- C25 at a concrete input: a key setup in which the HMAC of the inbound direction
fails, a second one that succeeds, and the destruction of the outbound handles. -/
theorem esp_handles_stay_paired_witness :
    handles_paired
      (run_esp_calls [.setup keygenHmacInFails, .setup keygenOk, .destroy_out] espSession).esp_in ∧
    handles_paired
      (run_esp_calls [.setup keygenHmacInFails, .setup keygenOk, .destroy_out] espSession).esp_out :=
  esp_handles_stay_paired [.setup keygenHmacInFails, .setup keygenOk, .destroy_out] espSession
    (by decide) (by decide)

/-- C26, at a concrete input: with AES-128 and HMAC-SHA1 negotiated and
`gnutls_hmac_init` failing for the outbound direction, `setup_esp_keys` returns 0
and sets `dtls_state` to `DTLS_SECRET` while `esp_out` holds neither a cipher nor
an HMAC handle; the same happens to `esp_in` when the inbound HMAC fails.  A failure
of `gnutls_cipher_init` makes the function return `-EIO`. -/
theorem setup_esp_keys_hmac_failure_returns_zero :
    (setup_esp_keys keygenHmacOutFails espSession).1 = 0 ∧
    (setup_esp_keys keygenHmacOutFails espSession).2.dtls_state = .DTLS_SECRET ∧
    (setup_esp_keys keygenHmacOutFails espSession).2.esp_out.cipher = none ∧
    (setup_esp_keys keygenHmacOutFails espSession).2.esp_out.hmac = none ∧
    (setup_esp_keys keygenHmacInFails espSession).1 = 0 ∧
    (setup_esp_keys keygenHmacInFails espSession).2.dtls_state = .DTLS_SECRET ∧
    (setup_esp_keys keygenHmacInFails espSession).2.esp_in.cipher = none ∧
    (setup_esp_keys keygenHmacInFails espSession).2.esp_in.hmac = none ∧
    (setup_esp_keys keygenCipherInFails espSession).1 = - EIO ∧
    (setup_esp_keys keygenCipherInFails espSession).2.dtls_state = .DTLS_SLEEPING := by
  decide
/-! ## Properties of `check_cmd_fd` -/

/-- C23: when `check_cmd_fd` reads a command byte from the command descriptor (the
descriptor is set and ready, `cmd_fd_write` is set and `read` delivers one byte):
`OC_CMD_CANCEL` and `OC_CMD_DETACH` set `got_cancel_cmd` and store the byte in
`cancel_type`; `OC_CMD_PAUSE` sets `got_pause_cmd` and nothing else; `OC_CMD_STATS`
changes no field but the record of the stats handler, which, when installed, is
invoked once with the live counters; any other byte changes nothing.  Whatever the
wake-up, a flag that was set stays set. -/
theorem check_cmd_fd_commands (vpninfo : openconnect_info) (w : wake) (cmd : Nat)
    (hfd : vpninfo.cmd_fd ≠ -1) (hset : w.cmd_set = true)
    (hwr : vpninfo.cmd_fd_write ≠ -1) (hread : w.cmd_read = some cmd) :
    (cmd = OC_CMD_CANCEL ∨ cmd = OC_CMD_DETACH →
      check_cmd_fd vpninfo w = { vpninfo with got_cancel_cmd := true, cancel_type := cmd }) ∧
    (cmd = OC_CMD_PAUSE →
      check_cmd_fd vpninfo w = { vpninfo with got_pause_cmd := true }) ∧
    (cmd = OC_CMD_STATS →
      check_cmd_fd vpninfo w =
        { vpninfo with
          stats_seen := if vpninfo.stats_handler then vpninfo.stats_seen ++ [vpninfo.stats]
            else vpninfo.stats_seen }) ∧
    (cmd ≠ OC_CMD_CANCEL → cmd ≠ OC_CMD_DETACH → cmd ≠ OC_CMD_PAUSE → cmd ≠ OC_CMD_STATS →
      check_cmd_fd vpninfo w = vpninfo) ∧
    (∀ (v : openconnect_info) (w' : wake),
      (v.got_cancel_cmd = true → (check_cmd_fd v w').got_cancel_cmd = true) ∧
      (v.got_pause_cmd = true → (check_cmd_fd v w').got_pause_cmd = true)) := by
  have hgo : check_cmd_fd vpninfo w =
      if cmd = OC_CMD_CANCEL ∨ cmd = OC_CMD_DETACH then
        { vpninfo with got_cancel_cmd := true, cancel_type := cmd }
      else if cmd = OC_CMD_PAUSE then { vpninfo with got_pause_cmd := true }
      else if cmd = OC_CMD_STATS then
        if vpninfo.stats_handler then
          { vpninfo with stats_seen := vpninfo.stats_seen ++ [vpninfo.stats] }
        else vpninfo
      else vpninfo := by
    unfold check_cmd_fd
    rw [if_neg (by simp [hfd, hset]), if_neg hwr, hread]
  refine ⟨?_, ?_, ?_, ?_, ?_⟩
  · intro h
    rw [hgo, if_pos h]
  · intro h
    rw [hgo, if_neg (by rw [h]; decide), if_pos h]
  · intro h
    rw [hgo, if_neg (by rw [h]; decide), if_neg (by rw [h]; decide), if_pos h]
    by_cases hs : vpninfo.stats_handler = true
    · rw [if_pos hs, if_pos hs]
    · rw [if_neg hs, if_neg hs]
  · intro h1 h2 h3 h4
    rw [hgo, if_neg (by simp [h1, h2]), if_neg h3, if_neg h4]
  · intro v w'
    unfold check_cmd_fd
    constructor
    · intro h
      split_ifs <;> first | exact h | rfl | skip
      all_goals
        cases w'.cmd_read with
        | none => exact h
        | some c =>
          simp only
          split_ifs <;> first | exact h | rfl
    · intro h
      split_ifs <;> first | exact h | rfl | skip
      all_goals
        cases w'.cmd_read with
        | none => exact h
        | some c =>
          simp only
          split_ifs <;> first | exact h | rfl

/-- C23 at concrete inputs: in a session with the pause flag set, `OC_CMD_DETACH`
sets the cancel flag and `cancel_type` and keeps the pause flag; `OC_CMD_STATS`
hands the counters `[10, 20]` to the handler. -/
theorem check_cmd_fd_commands_witness :
    check_cmd_fd statsSession (cmdWake OC_CMD_DETACH) =
      { statsSession with got_cancel_cmd := true, cancel_type := OC_CMD_DETACH } ∧
    check_cmd_fd statsSession (cmdWake OC_CMD_STATS) =
      { statsSession with stats_seen := [[10, 20]] } :=
  ⟨(check_cmd_fd_commands statsSession (cmdWake OC_CMD_DETACH) OC_CMD_DETACH (by decide) rfl
      (by decide) rfl).1 (Or.inr rfl),
    (check_cmd_fd_commands statsSession (cmdWake OC_CMD_STATS) OC_CMD_STATS (by decide) rfl
      (by decide) rfl).2.2.1 rfl⟩

/-! ## Properties of `openconnect_passphrase_from_fsid` -/

/-- C30, at a concrete input: when `statfs` fails with `errno = ENOENT`, the
function returns `2`, a positive value, and leaves `cert_password` unset; a failing
`asprintf` gives `-ENOMEM`.  When both calls succeed it returns 0 and
`cert_password` is the lowercase hexadecimal text of `fsid[0] * 2^32 + fsid[1]`
without leading zeros. -/
theorem passphrase_from_fsid_statfs_failure_positive :
    openconnect_passphrase_from_fsid (.fail 2) true keySession = (2, keySession) ∧
    ¬ ((openconnect_passphrase_from_fsid (.fail 2) true keySession).1 < 0) ∧
    (openconnect_passphrase_from_fsid (.fail 2) true keySession).2.cert_password = none ∧
    openconnect_passphrase_from_fsid (.fsid 0x1234abcd 0xf0e) false keySession
      = (-ENOMEM, keySession) ∧
    openconnect_passphrase_from_fsid (.fsid 0x1234abcd 0xf0e) true keySession
      = (0, { keySession with cert_password := some "1234abcd00000f0e" }) ∧
    openconnect_passphrase_from_fsid (.fsid 0 0x2f) true keySession
      = (0, { keySession with cert_password := some "2f" }) := by
  decide
/-! ## The document walk: lemmas -/

theorem subtree_eq (n : xmlNode) (p : xmlNodePtr) :
    subtree n p = (p, n) :: subtrees n.children 0 p := by
  cases n
  simp [subtree, xmlNode.children]

theorem first_or_append (l1 l2 : List (xmlNodePtr × xmlNode)) (k : Option xmlNodePtr) :
    first_or (l1 ++ l2) k = first_or l1 (first_or l2 k) := by
  cases l1 <;> rfl

theorem first_or_subtrees (c : xmlNode) (cs : List xmlNode) (i : Nat) (p : xmlNodePtr)
    (k : Option xmlNodePtr) : first_or (subtrees (c :: cs) i p) k = some (i :: p) := by
  rw [subtrees, subtree_eq]
  rfl

theorem walks_append (doc : xmlNode) (top : xmlNodePtr) (l1 l2 : List (xmlNodePtr × xmlNode))
    (k : Option xmlNodePtr) (h1 : walks doc top l1 (first_or l2 k)) (h2 : walks doc top l2 k) :
    walks doc top (l1 ++ l2) k := by
  induction l1 with
  | nil => exact h2
  | cons x rest ih =>
    obtain ⟨a, b, c, d⟩ := h1
    exact ⟨a, b, c.trans (first_or_append rest l2 k).symm, ih d⟩

theorem node_at_child (doc : xmlNode) (p : xmlNodePtr) (parent : xmlNode) (i : Nat)
    (h : node_at doc p = some parent) : node_at doc (i :: p) = parent.children[i]? := by
  simp [node_at, h]

theorem htmlnode_climb_cons (doc : xmlNode) (top p : xmlNodePtr) (parent : xmlNode) (i : Nat)
    (h : node_at doc p = some parent) :
    htmlnode_climb doc top (i :: p) =
      if (parent.children[i + 1]?).isSome then some ((i + 1) :: p)
      else if p = top then none else htmlnode_climb doc top p := by
  rw [htmlnode_climb, node_next, node_at_child doc p parent (i + 1) h]
  split_ifs <;> rfl

theorem htmlnode_next_eq (doc : xmlNode) (top p : xmlNodePtr) (n : xmlNode)
    (h : node_at doc p = some n) :
    htmlnode_next doc top p =
      if (n.children[0]?).isSome then some (0 :: p) else htmlnode_climb doc top p := by
  rw [htmlnode_next, node_children, node_at_child doc p n 0 h]
  split_ifs <;> rfl

mutual
theorem subtree_walks (doc : xmlNode) (top : xmlNodePtr) :
    ∀ (n : xmlNode) (p : xmlNodePtr), node_at doc p = some n → top.length < p.length →
      walks doc top (subtree n p) (htmlnode_climb doc top p)
  | .mk name props content cs, p, hn, hp => by
    have hne : p ≠ top := fun e => by rw [e] at hp; exact Nat.lt_irrefl _ hp
    have hl := subtrees_walks doc top cs 0 p (.mk name props content cs) hn rfl
      (Nat.le_of_lt hp)
    rw [if_neg hne] at hl
    rw [subtree]
    refine ⟨hn, hp, ?_, hl⟩
    rw [htmlnode_next_eq doc top p _ hn]
    cases cs with
    | nil => simp [xmlNode.children, subtrees, first_or]
    | cons c cs' =>
      simp only [xmlNode.children, List.getElem?_cons_zero, Option.isSome_some, if_true]
      rw [first_or_subtrees]
theorem subtrees_walks (doc : xmlNode) (top : xmlNodePtr) :
    ∀ (cs : List xmlNode) (i : Nat) (p : xmlNodePtr) (parent : xmlNode),
      node_at doc p = some parent → parent.children.drop i = cs → top.length ≤ p.length →
      walks doc top (subtrees cs i p) (if p = top then none else htmlnode_climb doc top p)
  | [], _, _, _, _, _, _ => by
    rw [subtrees]
    trivial
  | c :: cs, i, p, parent, hn, hd, hp => by
    have hci : parent.children[i]? = some c := by
      have := List.getElem?_drop parent.children i 0
      rw [hd] at this
      simpa using this.symm
    have hd' : parent.children.drop (i + 1) = cs := by
      rw [← List.tail_drop, hd]
      rfl
    have hnext : parent.children[i + 1]? = cs.head? := by
      have := List.getElem?_drop parent.children (i + 1) 0
      rw [hd'] at this
      simpa [List.head?_eq_getElem?] using this.symm
    have h1 := subtree_walks doc top c (i :: p)
      (by rw [node_at_child doc p parent i hn]; exact hci)
      (by simp only [List.length_cons]; omega)
    have h2 := subtrees_walks doc top cs (i + 1) p parent hn hd' hp
    rw [subtrees]
    refine walks_append doc top _ _ _ ?_ h2
    rw [htmlnode_climb_cons doc top p parent i hn, hnext] at h1
    cases cs with
    | nil => simpa [subtrees, first_or] using h1
    | cons c' cs' =>
      simp only [List.head?_cons, Option.isSome_some, if_true] at h1
      rw [first_or_subtrees]
      exact h1
end

mutual
theorem subtree_length : ∀ (n : xmlNode) (p : xmlNodePtr), (subtree n p).length = n.size
  | .mk name props content cs, p => by
    rw [subtree, xmlNode.size, List.length_cons, subtrees_length cs 0 p]
    omega
theorem subtrees_length : ∀ (cs : List xmlNode) (i : Nat) (p : xmlNodePtr),
    (subtrees cs i p).length = xmlNode.sizeList cs
  | [], _, _ => by
    rw [subtrees, xmlNode.sizeList]
    rfl
  | c :: cs, i, p => by
    rw [subtrees, xmlNode.sizeList, List.length_append, subtree_length c (i :: p),
      subtrees_length cs (i + 1) p]
end

/-- C27, at a concrete page: the login form has no children and is followed by an
`input` element.  `htmlnode_next(form, form)` returns that sibling, which is not a
descendant of the form, and `parse_form_node` returns a form with the option
`outside` taken from it. -/
theorem parse_form_node_leaves_empty_form :
    node_at pageEmptyForm formPtr =
      some (element "form" [("name", "frmLogin"), ("method", "POST"), ("action", "/auth")] []) ∧
    descendants
      (element "form" [("name", "frmLogin"), ("method", "POST"), ("action", "/auth")] [])
      formPtr = [] ∧
    htmlnode_next pageEmptyForm formPtr formPtr = some [1, 1] ∧
    node_at pageEmptyForm [1, 1] =
      some (element "input" [("name", "outside"), ("type", "text")] []) ∧
    parsed_names (parse_form_node noTokens (cookieSession []) pageEmptyForm formPtr
      "btnSubmit") = some [some "outside"] := by
  refine ⟨by rfl, by rfl, by decide, by rfl, by decide⟩
/-! ## Reading lines with `cancellable_gets`: lemmas -/

/-- A call of `cancellable_gets` that finds a whole line shorter than `maxlen - 1`:
it returns the line without one trailing carriage return and consumes the line and
its newline. -/
theorem gets_reads_line (fd : Int) (maxlen : Nat) (ws ws1 : List wake)
    (s : io_state) (line rest : List Nat)
    (hfd : fd ≠ -1) (hv : no_cmd_pending s.vpninfo)
    (hbuf : maxlen ≤ s.buf.length)
    (hnl : 10 ∉ line) (hlen : line.length < maxlen - 1)
    (hrx : s.rx = line ++ 10 :: rest)
    (hws : after_reads (line.length + 1) ws = some ws1) :
    ∃ buf,
      cancellable_gets fd maxlen ws s
        = some (((strip_cr line).length : Int), ws1, { s with rx := rest, buf := buf }) ∧
      buf.take ((strip_cr line).length + 1) = strip_cr line ++ [0] ∧
      buf.length = s.buf.length := by
  obtain ⟨ws0, hw0, hw1⟩ := after_reads_add _ _ _ _ hws
  obtain ⟨f, hf⟩ : ∃ f, maxlen = line.length + (f + 1) := ⟨maxlen - line.length - 1, by omega⟩
  subst hf
  have hadv := gets_loop_advance fd (line.length + (f + 1)) hfd line (f + 1) 0 ws ws0 s (10 :: rest)
    hw0 hv hrx hnl (by omega) (by omega)
  have hst : store_bytes s.buf 0 line = line ++ s.buf.drop line.length := by
    have := store_bytes_zero line [] s.buf (by omega)
    simpa using this
  unfold cancellable_gets
  rw [if_neg (by omega)]
  simp only [hadv, Nat.zero_add, hst]
  rw [gets_loop_newline fd _ f line.length ws0 ws1
    { vpninfo := s.vpninfo, rx := 10 :: rest, tx := s.tx, buf := line ++ List.drop line.length s.buf }
    rest hfd hw1 hv rfl
    (by simp only [List.length_append, List.length_drop]; omega)]
  simp only []
  obtain ⟨c, tl, htl⟩ : ∃ c tl, s.buf.drop line.length = c :: tl := by
    cases h : s.buf.drop line.length with
    | nil =>
      have := congrArg List.length h
      simp only [List.length_drop, List.length_nil] at this
      omega
    | cons c tl => exact ⟨c, tl, rfl⟩
  have hlb : line.length + (tl.length + 1) = s.buf.length := by
    have := congrArg List.length htl
    simp only [List.length_drop, List.length_cons] at this
    omega
  rw [htl]
  have hset : (line ++ c :: tl).set line.length 0 = line ++ 0 :: tl := by
    rw [List.set_append_right _ _ (Nat.le_refl _)]
    simp
  rw [hset]
  rcases List.eq_nil_or_concat line with hl | ⟨init, d, hl⟩
  · subst hl
    refine ⟨0 :: tl, ?_, ?_, ?_⟩
    · simp [strip_cr]
    · simp [strip_cr]
    · simpa using hlb
  · rw [List.concat_eq_append] at hl
    subst hl
    have hget : (init ++ [d] ++ 0 :: tl).getD ((init ++ [d]).length - 1) 0 = d := by
      have e1 : (init ++ [d]).length - 1 = init.length := by simp
      have e2 : init ++ [d] ++ 0 :: tl = init ++ (d :: 0 :: tl) := by simp
      rw [e1, e2, List.getD_append_right _ _ _ _ (Nat.le_refl _)]
      simp
    rw [hget]
    by_cases hd : d = 13
    · subst hd
      have hs : strip_cr (init ++ [13]) = init := by simp [strip_cr]
      rw [hs, if_pos ⟨by simp, rfl⟩]
      have e3 : (init ++ [13] ++ 0 :: tl).set ((init ++ [13]).length - 1) 0
          = (init ++ [0]) ++ 0 :: tl := by
        have e1 : (init ++ [13]).length - 1 = init.length := by simp
        have e2 : init ++ [13] ++ 0 :: tl = init ++ (13 :: 0 :: tl) := by simp
        rw [e1, e2, List.set_append_right _ _ (Nat.le_refl _)]
        simp
      refine ⟨(init ++ [0]) ++ 0 :: tl, ?_, ?_, ?_⟩
      · rw [e3]
        simp
      · exact List.take_left' (by simp)
      · simp at hlb ⊢; omega
    · have hs : strip_cr (init ++ [d]) = init ++ [d] := by simp [strip_cr, hd]
      rw [hs, if_neg (fun h => hd h.2)]
      refine ⟨(init ++ [d] ++ [0]) ++ tl, ?_, ?_, ?_⟩
      · simp
      · exact List.take_left' (by simp)
      · simp at hlb ⊢; omega

/-- A call of `cancellable_gets` that finds `maxlen - 1` bytes without a newline:
it returns them and consumes nothing more. -/
theorem gets_fills_buffer (fd : Int) (maxlen : Nat) (ws ws1 : List wake) (s : io_state)
    (chunk rx' : List Nat) (hfd : fd ≠ -1) (hv : no_cmd_pending s.vpninfo) (hmax : 2 ≤ maxlen)
    (hbuf : maxlen ≤ s.buf.length) (hlen : chunk.length = maxlen - 1) (hnl : 10 ∉ chunk)
    (hrx : s.rx = chunk ++ rx') (hws : after_reads (maxlen - 1) ws = some ws1) :
    ∃ buf,
      cancellable_gets fd maxlen ws s
        = some (((maxlen - 1 : Nat) : Int), ws1, { s with rx := rx', buf := buf }) ∧
      buf.take maxlen = chunk ++ [0] ∧ buf.length = s.buf.length := by
  rcases List.eq_nil_or_concat chunk with hl | ⟨init, d, hl⟩
  · subst hl
    simp only [List.length_nil] at hlen
    omega
  rw [List.concat_eq_append] at hl
  subst hl
  simp only [List.length_append, List.length_singleton] at hlen
  have hmx : maxlen = init.length + (1 + 1) := by omega
  subst hmx
  have e0 : init.length + (1 + 1) - 1 = init.length + 1 := by omega
  rw [e0] at hws ⊢
  obtain ⟨ws0, hw0, hw1⟩ := after_reads_add _ _ _ _ hws
  have hd : d ≠ 10 := fun e => hnl (by simp [e])
  have hnl' : 10 ∉ init := fun e => hnl (by simp [e])
  have hadv := gets_loop_advance fd (init.length + (1 + 1)) hfd init (1 + 1) 0 ws ws0 s
    (d :: rx') hw0 hv (by simpa using hrx) hnl' (by omega) (by omega)
  have hst : store_bytes s.buf 0 init = init ++ s.buf.drop init.length := by
    have := store_bytes_zero init [] s.buf (by omega)
    simpa using this
  obtain ⟨c1, c2, tl, htl⟩ : ∃ c1 c2 tl, s.buf.drop init.length = c1 :: c2 :: tl := by
    cases h : s.buf.drop init.length with
    | nil =>
      have := congrArg List.length h
      simp only [List.length_drop, List.length_nil] at this
      omega
    | cons c1 l =>
      cases l with
      | nil =>
        have := congrArg List.length h
        simp only [List.length_drop, List.length_cons, List.length_nil] at this
        omega
      | cons c2 tl => exact ⟨c1, c2, tl, rfl⟩
  have hlb : init.length + (tl.length + 2) = s.buf.length := by
    have := congrArg List.length htl
    simp only [List.length_drop, List.length_cons] at this
    omega
  have hset : ((init ++ c1 :: c2 :: tl).set init.length d).set (init.length + 1) 0
      = (init ++ [d] ++ [0]) ++ tl := by
    rw [List.set_append_right _ _ (Nat.le_refl _)]
    simp only [Nat.sub_self, List.set_cons_zero]
    rw [List.set_append_right _ _ (by omega)]
    simp
  unfold cancellable_gets
  rw [if_neg (by omega)]
  simp only [hadv, Nat.zero_add, hst, htl]
  rw [gets_loop_full fd (init.length + (1 + 1)) 1 init.length ws0 ws1
    { vpninfo := s.vpninfo, rx := d :: rx', tx := s.tx, buf := init ++ c1 :: c2 :: tl }
    d rx' hfd hw1 hv rfl hd (by omega) (by simp)]
  simp only [hset]
  refine ⟨(init ++ [d] ++ [0]) ++ tl, rfl, List.take_left' (by simp), ?_⟩
  simp only [List.length_append, List.length_singleton]
  omega

theorem lines_bytes_cons (l : List Nat) (ls : List (List Nat)) :
    lines_bytes (l :: ls) = l ++ 10 :: lines_bytes ls := by
  simp [lines_bytes, List.flatMap_cons]

theorem lines_bytes_append (a b : List (List Nat)) :
    lines_bytes (a ++ b) = lines_bytes a ++ lines_bytes b := by
  simp [lines_bytes, List.flatMap_append]

/-- A byte string is held as text without loss: the bytes of the text are the
bytes it was made from. -/
theorem bytes_of_string_of (bs : List Nat) (h : ∀ b ∈ bs, b < 256) :
    bytes_of (string_of bs) = bs := by
  induction bs with
  | nil => rfl
  | cons b bs ih =>
    have hb : b < 256 := h b (List.mem_cons_self _ _)
    have hv : b.isValidChar := Or.inl (by omega)
    have ht : (Char.ofNat b).toNat = b := by
      simp [Char.ofNat, hv, Char.ofNatAux, Char.toNat, UInt32.toNat]
    have := ih (fun x hx => h x (List.mem_cons_of_mem _ hx))
    simp only [bytes_of, string_of, List.map_cons, List.cons.injEq] at this ⊢
    refine ⟨?_, this⟩
    rw [Nat.mod_eq_of_lt hb, ht, Nat.mod_eq_of_lt hb]

theorem c_string_of_take (x : List Nat) (h0 : 0 ∉ x) :
    ∀ (buf : List Nat), buf.take (x.length + 1) = x ++ [0] → c_string buf = x := by
  induction x with
  | nil =>
    intro buf h
    cases buf with
    | nil => simp at h
    | cons b bs =>
      simp only [List.length_nil, Nat.zero_add, List.take_succ_cons, List.take_zero,
        List.nil_append, List.cons.injEq, and_true] at h
      simp [c_string, List.takeWhile, h]
  | cons a x ih =>
    intro buf h
    cases buf with
    | nil => simp at h
    | cons b bs =>
      simp only [List.length_cons, List.take_succ_cons, List.cons_append, List.cons.injEq] at h
      obtain ⟨hb, ht⟩ := h
      have ha : a ≠ 0 := fun e => h0 (by simp [e])
      have hx : 0 ∉ x := fun e => h0 (by simp [e])
      have := ih hx bs ht
      simp only [c_string] at this ⊢
      simp only [List.takeWhile, hb, ha, ne_eq, not_false_eq_true, decide_True, List.cons.injEq,
        true_and]
      exact this

/-- The loop over the further lines of the helper, for at most ten non-empty lines
followed by an empty one: the loop is left with `len = 0`. -/
theorem tncc_extra_lines_ok (fd : Int) (hfd : fd ≠ -1) :
    ∀ (extras : List (List Nat)) (count fuel : Nat) (ws ws1 : List wake) (s : io_state)
      (rest : List Nat),
      (∀ e ∈ extras, 10 ∉ e ∧ e.length < 1023 ∧ strip_cr e ≠ []) →
      count + extras.length ≤ 10 → extras.length < fuel →
      no_cmd_pending s.vpninfo → 1024 ≤ s.buf.length →
      s.rx = lines_bytes (extras ++ [[]]) ++ rest →
      after_reads (lines_bytes (extras ++ [[]])).length ws = some ws1 →
      ∃ buf, tncc_extra_lines fd fuel count ws s =
        some (0, ws1, { s with rx := rest, buf := buf })
  | _, _, 0, _, _, _, _, _, _, hf, _, _, _, _ => by
    simp at hf
  | [], count, fuel + 1, ws, ws1, s, rest, _, _, _, hv, hbuf, hrx, hws => by
    obtain ⟨buf, hg, -, -⟩ := gets_reads_line fd 1024 ws ws1 s [] rest hfd hv hbuf
      (by simp) (by simp) (by simpa [lines_bytes] using hrx) (by simpa [lines_bytes] using hws)
    refine ⟨buf, ?_⟩
    have hs : strip_cr [] = [] := by simp [strip_cr]
    rw [hs] at hg
    rw [tncc_extra_lines, hg]
    simp
  | e :: es, count, fuel + 1, ws, ws1, s, rest, hall, hc, hf, hv, hbuf, hrx, hws => by
    obtain ⟨hnl, hlen, hne⟩ := hall e (List.mem_cons_self _ _)
    rw [List.cons_append, lines_bytes_cons] at hrx hws
    have e1 : (e ++ 10 :: lines_bytes (es ++ [[]])).length
        = (e.length + 1) + (lines_bytes (es ++ [[]])).length := by
      simp only [List.length_append, List.length_cons]
      omega
    rw [e1] at hws
    obtain ⟨ws0, hw0, hw1⟩ := after_reads_add _ _ _ _ hws
    obtain ⟨buf, hg, -, hbl⟩ := gets_reads_line fd 1024 ws ws0 s e
      (lines_bytes (es ++ [[]]) ++ rest) hfd hv hbuf hnl (by omega) (by simpa using hrx) hw0
    simp only [List.length_cons] at hc hf
    obtain ⟨buf', hrec⟩ := tncc_extra_lines_ok fd hfd es (count + 1) fuel ws0 ws1
      { s with rx := lines_bytes (es ++ [[]]) ++ rest, buf := buf } rest
      (fun e' he' => hall e' (List.mem_cons_of_mem _ he')) (by omega) (by omega) hv
      (by simpa [hbl] using hbuf) rfl hw1
    refine ⟨buf', ?_⟩
    have hpos : 0 < (strip_cr e).length := List.length_pos.mpr hne
    rw [tncc_extra_lines, hg]
    simp only
    rw [if_neg (by omega), if_pos ⟨by omega, by omega⟩]
    exact hrec

/-- The loop over the further lines of the helper when the eleventh line read is
not empty: the loop is left with `len > 0`. -/
theorem tncc_extra_lines_many (fd : Int) (hfd : fd ≠ -1) :
    ∀ (extras : List (List Nat)) (count fuel : Nat) (ws ws1 : List wake) (s : io_state)
      (rest : List Nat),
      (∀ e ∈ extras, 10 ∉ e ∧ e.length < 1023 ∧ strip_cr e ≠ []) →
      count + extras.length = 11 → 0 < extras.length → extras.length ≤ fuel →
      no_cmd_pending s.vpninfo → 1024 ≤ s.buf.length →
      s.rx = lines_bytes extras ++ rest →
      after_reads (lines_bytes extras).length ws = some ws1 →
      ∃ len buf, 0 < len ∧ tncc_extra_lines fd fuel count ws s =
        some (len, ws1, { s with rx := rest, buf := buf })
  | [], _, _, _, _, _, _, _, _, hp, _, _, _, _, _ => by
    simp at hp
  | _ :: _, _, 0, _, _, _, _, _, _, _, hf, _, _, _, _ => by
    simp at hf
  | e :: es, count, fuel + 1, ws, ws1, s, rest, hall, hc, _, hf, hv, hbuf, hrx, hws => by
    obtain ⟨hnl, hlen, hne⟩ := hall e (List.mem_cons_self _ _)
    rw [lines_bytes_cons] at hrx hws
    have e1 : (e ++ 10 :: lines_bytes es).length = (e.length + 1) + (lines_bytes es).length := by
      simp only [List.length_append, List.length_cons]
      omega
    rw [e1] at hws
    obtain ⟨ws0, hw0, hw1⟩ := after_reads_add _ _ _ _ hws
    obtain ⟨buf, hg, -, hbl⟩ := gets_reads_line fd 1024 ws ws0 s e
      (lines_bytes es ++ rest) hfd hv hbuf hnl (by omega) (by simpa using hrx) hw0
    simp only [List.length_cons] at hc hf
    have hpos : 0 < (strip_cr e).length := List.length_pos.mpr hne
    rw [tncc_extra_lines, hg]
    simp only
    rw [if_neg (by omega)]
    by_cases hcount : count < 10
    · rw [if_pos ⟨by omega, hcount⟩]
      exact tncc_extra_lines_many fd hfd es (count + 1) fuel ws0 ws1
        { s with rx := lines_bytes es ++ rest, buf := buf } rest
        (fun e' he' => hall e' (List.mem_cons_of_mem _ he')) (by omega) (by omega) (by omega) hv
        (by simpa [hbl] using hbuf) rfl hw1
    · rw [if_neg (fun h => hcount h.2)]
      have hes : es = [] := List.length_eq_zero.mp (by omega)
      subst hes
      simp only [lines_bytes, List.flatMap_nil, List.length_nil, after_reads,
        Option.some.injEq, List.nil_append] at hw1
      subst hw1
      exact ⟨((strip_cr e).length : Int), buf, by exact_mod_cast hpos, by simp [lines_bytes]⟩

theorem tncc_start_buf_ok (vpninfo : openconnect_info) (dspreauth dssignin : String) :
    buf_error (tncc_start_buf true vpninfo dspreauth dssignin) = 0 := by
  simp [tncc_start_buf, buf_error, buf_append_error, buf_alloc]

/-- The three reads of `tncc_preauth` that take the status line `200`, the
informational line and the line with the new cookie. -/
theorem tncc_response_header (fd : Int) (hfd : fd ≠ -1) (ws ws3 : List wake) (s : io_state)
    (info cookie rx3 : List Nat) (hv : no_cmd_pending s.vpninfo) (hbuf : 1024 ≤ s.buf.length)
    (hinfo : 10 ∉ info ∧ info.length < 1023) (hck : 10 ∉ cookie ∧ cookie.length < 1023)
    (hrx : s.rx = lines_bytes [bytes_of "200", info, cookie] ++ rx3)
    (hws : after_reads (lines_bytes [bytes_of "200", info, cookie]).length ws = some ws3) :
    ∃ s3 : io_state, s3.vpninfo = s.vpninfo ∧ s3.rx = rx3 ∧ s3.buf.length = s.buf.length ∧
      tncc_response fd ws s = tncc_finish fd ws3 s3 := by
  have h200 : bytes_of "200" = [50, 48, 48] := by decide
  rw [h200] at hrx hws
  simp only [lines_bytes_cons] at hrx hws
  have e : ([50, 48, 48] ++ 10 :: (info ++ 10 :: (cookie ++ 10 :: lines_bytes []))).length
      = (3 + 1) + ((info.length + 1) + (cookie.length + 1)) := by
    simp [lines_bytes]
    omega
  rw [e] at hws
  obtain ⟨wsa, hwa, hwr⟩ := after_reads_add _ _ _ _ hws
  obtain ⟨wsb, hwb, hwc⟩ := after_reads_add _ _ _ _ hwr
  obtain ⟨b1, hg1, ht1, hl1⟩ := gets_reads_line fd 1024 ws wsa s [50, 48, 48]
    (info ++ 10 :: (cookie ++ 10 :: lines_bytes []) ++ rx3) hfd hv hbuf (by decide) (by decide)
    (by simpa using hrx) hwa
  have hs : strip_cr [50, 48, 48] = [50, 48, 48] := by decide
  rw [hs] at hg1 ht1
  have hc1 : c_string b1 = [50, 48, 48] := c_string_of_take [50, 48, 48] (by decide) b1 ht1
  obtain ⟨b2, hg2, -, hl2⟩ := gets_reads_line fd 1024 wsa wsb
    { s with rx := info ++ 10 :: (cookie ++ 10 :: lines_bytes []) ++ rx3, buf := b1 } info
    (cookie ++ 10 :: lines_bytes [] ++ rx3) hfd hv (by simpa [hl1] using hbuf) hinfo.1
    (by have := hinfo.2; omega) (by simp) hwb
  obtain ⟨b3, hg3, -, hl3⟩ := gets_reads_line fd 1024 wsb ws3
    { s with rx := cookie ++ 10 :: lines_bytes [] ++ rx3, buf := b2 } cookie rx3 hfd hv
    (by simp only [hl2, hl1]; exact hbuf) hck.1 (by have := hck.2; omega)
    (by simp [lines_bytes]) hwc
  refine ⟨{ s with rx := rx3, buf := b3 }, rfl, rfl, by simp only [hl3, hl2, hl1], ?_⟩
  rw [tncc_response, hg1]
  simp only
  rw [if_neg (by decide), if_neg (by rw [hc1, h200]; simp), hg2]
  simp only
  rw [if_neg (by omega), hg3]
  simp only
  rw [if_neg (by omega)]

theorem tncc_finish_ok (fd : Int) (hfd : fd ≠ -1) (extras : List (List Nat))
    (ws ws1 : List wake) (s : io_state) (rest : List Nat)
    (hex : ∀ e ∈ extras, 10 ∉ e ∧ e.length < 1023 ∧ strip_cr e ≠ [])
    (hk : extras.length ≤ 10) (hv : no_cmd_pending s.vpninfo) (hbuf : 1024 ≤ s.buf.length)
    (hrx : s.rx = lines_bytes (extras ++ [[]]) ++ rest)
    (hws : after_reads (lines_bytes (extras ++ [[]])).length ws = some ws1) :
    ∃ v, tncc_finish fd ws s = some (0, v, false) := by
  obtain ⟨buf', hex'⟩ := tncc_extra_lines_ok fd hfd extras 0 11 ws ws1
    { s with
      vpninfo :=
        { s.vpninfo with
          cookies := http_add_cookie s.vpninfo.cookies "DSPREAUTH" (string_of (c_string s.buf))
          tncc_fd := fd } }
    rest hex (by omega) (by omega) hv hbuf hrx hws
  rw [tncc_finish]
  simp only [hex']
  exact ⟨_, rfl⟩

theorem tncc_finish_many (fd : Int) (hfd : fd ≠ -1) (extras : List (List Nat))
    (ws ws1 : List wake) (s : io_state) (rest : List Nat)
    (hex : ∀ e ∈ extras, 10 ∉ e ∧ e.length < 1023 ∧ strip_cr e ≠ [])
    (hk : extras.length = 11) (hv : no_cmd_pending s.vpninfo) (hbuf : 1024 ≤ s.buf.length)
    (hrx : s.rx = lines_bytes extras ++ rest)
    (hws : after_reads (lines_bytes extras).length ws = some ws1) :
    ∃ v, tncc_finish fd ws s = some (- EIO, v, true) := by
  obtain ⟨len, buf', hpos, hex'⟩ := tncc_extra_lines_many fd hfd extras 0 11 ws ws1
    { s with
      vpninfo :=
        { s.vpninfo with
          cookies := http_add_cookie s.vpninfo.cookies "DSPREAUTH" (string_of (c_string s.buf))
          tncc_fd := fd } }
    rest hex (by omega) (by omega) (by omega) hv hbuf hrx hws
  rw [tncc_finish]
  simp only [hex']
  rw [if_neg (by omega), if_pos hpos]
  exact ⟨_, rfl⟩

/-- The first of the further lines fills `recvbuf`: the read returns 1023 bytes,
counts as a line, and the loop goes on behind those bytes. -/
theorem tncc_extra_lines_chunk (fd : Int) (hfd : fd ≠ -1) (ws ws0 : List wake)
    (s : io_state) (chunk rx' : List Nat) (fuel : Nat)
    (hv : no_cmd_pending s.vpninfo) (hbuf : 1024 ≤ s.buf.length)
    (hlen : chunk.length = 1023) (hnl : 10 ∉ chunk) (hrx : s.rx = chunk ++ rx')
    (hws : after_reads 1023 ws = some ws0) :
    ∃ buf, buf.length = s.buf.length ∧
      tncc_extra_lines fd (fuel + 1) 0 ws s
        = tncc_extra_lines fd fuel 1 ws0 { s with rx := rx', buf := buf } := by
  obtain ⟨buf, hg, -, hbl⟩ := gets_fills_buffer fd 1024 ws ws0 s chunk rx' hfd hv (by omega)
    hbuf (by omega) hnl hrx hws
  refine ⟨buf, hbl, ?_⟩
  rw [tncc_extra_lines, hg]
  simp

/-- A further line of exactly 1023 bytes: its newline is read as an empty line, so
the call succeeds whatever follows. -/
theorem tncc_finish_exact_fit (fd : Int) (hfd : fd ≠ -1) (ws ws1 : List wake)
    (s : io_state) (chunk rest : List Nat)
    (hv : no_cmd_pending s.vpninfo) (hbuf : 1024 ≤ s.buf.length)
    (hlen : chunk.length = 1023) (hnl : 10 ∉ chunk) (hrx : s.rx = chunk ++ 10 :: rest)
    (hws : after_reads (1023 + 1) ws = some ws1) :
    ∃ v, tncc_finish fd ws s = some (0, v, false) := by
  obtain ⟨ws0, hw0, hw1⟩ := after_reads_add _ _ _ _ hws
  obtain ⟨buf, hbl, hstep⟩ := tncc_extra_lines_chunk fd hfd ws ws0
    { s with
      vpninfo :=
        { s.vpninfo with
          cookies := http_add_cookie s.vpninfo.cookies "DSPREAUTH" (string_of (c_string s.buf))
          tncc_fd := fd } }
    chunk (10 :: rest) 10 hv hbuf hlen hnl hrx hw0
  obtain ⟨buf', hex'⟩ := tncc_extra_lines_ok fd hfd [] 1 10 ws0 ws1
    { vpninfo :=
        { s.vpninfo with
          cookies := http_add_cookie s.vpninfo.cookies "DSPREAUTH" (string_of (c_string s.buf))
          tncc_fd := fd }
      rx := 10 :: rest, tx := s.tx, buf := buf }
    rest (by simp) (by simp) (by simp) hv (by simpa [hbl] using hbuf)
    (by simp [lines_bytes]) (by simpa [lines_bytes] using hw1)
  rw [tncc_finish]
  simp only [hstep, hex']
  exact ⟨_, rfl⟩

/-- A further line of more than 1023 bytes is read as two lines: with nine more
lines behind it, ten lines in all, the eleventh read is not empty and the call
fails. -/
theorem tncc_finish_split_line (fd : Int) (hfd : fd ≠ -1) (ws ws1 : List wake)
    (s : io_state) (chunk : List Nat) (extras : List (List Nat)) (rest : List Nat)
    (hv : no_cmd_pending s.vpninfo) (hbuf : 1024 ≤ s.buf.length)
    (hlen : chunk.length = 1023) (hnl : 10 ∉ chunk)
    (hex : ∀ e ∈ extras, 10 ∉ e ∧ e.length < 1023 ∧ strip_cr e ≠ [])
    (hk : extras.length = 10)
    (hrx : s.rx = chunk ++ (lines_bytes extras ++ rest))
    (hws : after_reads (1023 + (lines_bytes extras).length) ws = some ws1) :
    ∃ v, tncc_finish fd ws s = some (- EIO, v, true) := by
  obtain ⟨ws0, hw0, hw1⟩ := after_reads_add _ _ _ _ hws
  obtain ⟨buf, hbl, hstep⟩ := tncc_extra_lines_chunk fd hfd ws ws0
    { s with
      vpninfo :=
        { s.vpninfo with
          cookies := http_add_cookie s.vpninfo.cookies "DSPREAUTH" (string_of (c_string s.buf))
          tncc_fd := fd } }
    chunk (lines_bytes extras ++ rest) 10 hv hbuf hlen hnl hrx hw0
  obtain ⟨len, buf', hpos, hex'⟩ := tncc_extra_lines_many fd hfd extras 1 10 ws0 ws1
    { vpninfo :=
        { s.vpninfo with
          cookies := http_add_cookie s.vpninfo.cookies "DSPREAUTH" (string_of (c_string s.buf))
          tncc_fd := fd }
      rx := lines_bytes extras ++ rest, tx := s.tx, buf := buf }
    rest hex (by omega) (by omega) (by omega) hv (by simpa [hbl] using hbuf) rfl hw1
  rw [tncc_finish]
  simp only [hstep, hex']
  rw [if_neg (by omega), if_pos hpos]
  exact ⟨_, rfl⟩

theorem send_loop_done (len : Nat) (ws : List wake) (s : io_state) (count : Nat)
    (h : len ≤ count) : send_loop len ws s count = some (int_wrap (count : Int), ws, s) := by
  cases ws with
  | nil => simp [send_loop, Nat.not_lt.mpr h]
  | cons w ws => simp [send_loop, Nat.not_lt.mpr h]

/-- A `cancellable_send` whose bytes are all taken at the first wake-up. -/
theorem cancellable_send_once (fd : Int) (len n : Nat) (ws : List wake) (s : io_state)
    (hfd : fd ≠ -1) (hv : no_cmd_pending s.vpninfo) (hlen : 0 < len) (hn : len ≤ n)
    (hmax : len ≤ INT_MAX) :
    cancellable_send fd len ({ io := .xfer n } :: ws) s
      = some ((len : Int), ws, { s with tx := s.tx ++ s.buf.take len }) := by
  have hc : io_count n len = len := by
    unfold io_count
    omega
  have hw : int_wrap (len : Int) = (len : Int) :=
    int_wrap_nat len (by unfold INT_MAX at hmax; omega)
  have hq : check_cmd_fd s.vpninfo { io := .xfer n } = s.vpninfo :=
    check_cmd_fd_quiet _ _ rfl
  unfold cancellable_send
  rw [if_neg hfd]
  simp only [send_loop, if_pos hlen, is_cancel_pending, hq, hv.1, hv.2]
  simp [hc, send_loop_done, hw]

theorem after_reads_ready (n m : Nat) :
    after_reads n (List.replicate (n + m) readyWake) = some (List.replicate m readyWake) := by
  induction n with
  | zero => simp [after_reads]
  | succ k ih =>
    have e : k + 1 + m = (k + m) + 1 := by omega
    rw [e, List.replicate_succ]
    simpa [after_reads, readyWake] using ih

/-- A run of `tncc_preauth` up to the third line of the response: the start command
is sent and the status line `200`, the informational line and the line with the new
cookie are read. -/
theorem tncc_preauth_header (env : tncc_env) (vpninfo : openconnect_info)
    (dspreauth : String) (ws1 ws3 : List wake) (s1 : io_state) (info cookie rx3 : List Nat)
    (hjar : (vpninfo.cookies.foldl tncc_cookie_step (none, "null")).1 = some dspreauth)
    (hsock : env.socketpair_errno = none) (hfork : env.fork_errno = none)
    (hbuf : env.buf_ok = true) (hfd : env.sockfd1 ≠ -1) (hrecv : 1024 ≤ env.recvbuf.length)
    (hsend : cancellable_send env.sockfd1
        (bytes_of (tncc_start_buf true vpninfo dspreauth
          (vpninfo.cookies.foldl tncc_cookie_step (none, "null")).2).data).length env.wakes
        { vpninfo := vpninfo, rx := env.rx,
          buf := bytes_of (tncc_start_buf true vpninfo dspreauth
            (vpninfo.cookies.foldl tncc_cookie_step (none, "null")).2).data }
      = some (((bytes_of (tncc_start_buf true vpninfo dspreauth
          (vpninfo.cookies.foldl tncc_cookie_step (none, "null")).2).data).length : Int),
          ws1, s1))
    (hquiet : no_cmd_pending s1.vpninfo)
    (hinfo : 10 ∉ info ∧ info.length < 1023) (hck : 10 ∉ cookie ∧ cookie.length < 1023)
    (hrx : env.rx = lines_bytes [bytes_of "200", info, cookie] ++ rx3)
    (hws : after_reads (lines_bytes [bytes_of "200", info, cookie]).length ws1 = some ws3) :
    ∃ s3 : io_state, no_cmd_pending s3.vpninfo ∧ s3.rx = rx3 ∧ 1024 ≤ s3.buf.length ∧
      tncc_preauth env vpninfo =
        match tncc_finish env.sockfd1 ws3 s3 with
        | none => none
        | some (ret, v, closed) =>
          some (ret, v, if closed then [env.sockfd0, env.sockfd1] else [env.sockfd0]) := by
  have hs1 : s1.rx = env.rx := by
    unfold cancellable_send at hsend
    rw [if_neg hfd] at hsend
    exact (send_loop_complete _ _ _ 0 _ _ (Nat.zero_le _) hsend).2.2
  have hgo : tncc_preauth env vpninfo =
      match tncc_response env.sockfd1 ws1 { s1 with buf := env.recvbuf } with
      | none => none
      | some (ret, v, closed) =>
        some (ret, v, if closed then [env.sockfd0, env.sockfd1] else [env.sockfd0]) := by
    unfold tncc_preauth
    simp only [hjar, hsock, hfork, hbuf]
    rw [if_neg (by simp [tncc_start_buf_ok]), hsend]
    simp
  obtain ⟨s3, hv3, hrx3, hbl3, hresp⟩ := tncc_response_header env.sockfd1 hfd ws1 ws3
    { s1 with buf := env.recvbuf } info cookie rx3 hquiet hrecv hinfo hck
    (by simp [hs1, hrx]) hws
  exact ⟨s3, by rw [hv3]; exact hquiet, hrx3, by rw [hbl3]; exact hrecv, by rw [hgo, hresp]⟩

theorem tncc_header_length :
    (lines_bytes [bytes_of "200", bytes_of "ignored", bytes_of "cookieB"]).length = 20 := by
  decide

/-! ## Properties of `tncc_preauth` -/

/-- C24, counterexample: after `200`, `ignored` and `cookieB` the helper sends
eleven non-empty lines and an empty line, the first of the eleven being 1023 bytes
long: the call returns 0, because the newline of that line is read as an empty
line.  When it sends ten non-empty lines and an empty line, the first of the ten
being 1024 bytes long, the call fails with `-EIO`, because that line is read as
two. -/
theorem tncc_preauth_long_lines :
    ((longChunk :: List.replicate 10 [120]).length = 11 ∧
      ∃ v, tncc_preauth tnccEnvExactFit tnccSession = some (0, v, [5])) ∧
    (((longChunk ++ [120]) :: List.replicate 9 [120]).length = 10 ∧
      ∃ v, tncc_preauth tnccEnvSplitLine tnccSession = some (- EIO, v, [5, 6])) := by
  have hchunk : longChunk.length = 1023 := List.length_replicate _ _
  have hnl : 10 ∉ longChunk := fun h => absurd (List.eq_of_mem_replicate h) (by decide)
  have hrecv : 1024 ≤ (List.replicate 1024 0).length :=
    Nat.le_of_eq (List.length_replicate 1024 0).symm
  have hw20 : after_reads
      (lines_bytes [bytes_of "200", bytes_of "ignored", bytes_of "cookieB"]).length
      (List.replicate 1100 readyWake) = some (List.replicate 1080 readyWake) := by
    rw [tncc_header_length]
    exact after_reads_ready 20 1080
  constructor
  · refine ⟨by simp, ?_⟩
    have hsend := cancellable_send_once 6
      (bytes_of (tncc_start_buf true tnccSession "cookieA" "null").data).length 1000
      (List.replicate 1100 readyWake)
      { vpninfo := tnccSession, rx := tnccEnvExactFit.rx,
        buf := bytes_of (tncc_start_buf true tnccSession "cookieA" "null").data }
      (by decide) (by decide) (by decide) (by decide) (by decide)
    obtain ⟨s3, hv3, hrx3, hbl3, hpre⟩ := tncc_preauth_header tnccEnvExactFit tnccSession
      "cookieA" (List.replicate 1100 readyWake) (List.replicate 1080 readyWake) _
      (bytes_of "ignored") (bytes_of "cookieB")
      (longChunk ++ 10 :: lines_bytes (List.replicate 10 [120] ++ [[]]))
      (by decide) rfl rfl rfl (by decide) hrecv hsend (by decide) (by decide) (by decide)
      (by
        show lines_bytes (_ ++ _ ++ _) = _
        simp only [List.append_assoc, lines_bytes_append, List.cons_append, lines_bytes_cons])
      hw20
    obtain ⟨v, hfin⟩ := tncc_finish_exact_fit tnccEnvExactFit.sockfd1 (by decide)
      (List.replicate 1080 readyWake) (List.replicate 56 readyWake) s3 longChunk
      (lines_bytes (List.replicate 10 [120] ++ [[]])) hv3 hbl3 hchunk hnl hrx3
      (after_reads_ready 1024 56)
    refine ⟨v, ?_⟩
    rw [hpre, hfin]
    rfl
  · refine ⟨by simp, ?_⟩
    have hsend := cancellable_send_once 6
      (bytes_of (tncc_start_buf true tnccSession "cookieA" "null").data).length 1000
      (List.replicate 1100 readyWake)
      { vpninfo := tnccSession, rx := tnccEnvSplitLine.rx,
        buf := bytes_of (tncc_start_buf true tnccSession "cookieA" "null").data }
      (by decide) (by decide) (by decide) (by decide) (by decide)
    have hten : List.replicate 10 [120] = [120] :: List.replicate 9 [120] := rfl
    have hlen10 : (lines_bytes (List.replicate 10 [120])).length = 20 := by decide
    obtain ⟨s3, hv3, hrx3, hbl3, hpre⟩ := tncc_preauth_header tnccEnvSplitLine tnccSession
      "cookieA" (List.replicate 1100 readyWake) (List.replicate 1080 readyWake) _
      (bytes_of "ignored") (bytes_of "cookieB")
      (longChunk ++ (lines_bytes (List.replicate 10 [120]) ++ lines_bytes [[]]))
      (by decide) rfl rfl rfl (by decide) hrecv hsend (by decide) (by decide) (by decide)
      (by
        show lines_bytes (_ ++ _ ++ _) = _
        rw [hten]
        have hnil : lines_bytes [] = [] := rfl
        simp only [List.append_assoc, lines_bytes_append, List.cons_append, lines_bytes_cons,
          hnil, List.nil_append])
      hw20
    obtain ⟨v, hfin⟩ := tncc_finish_split_line tnccEnvSplitLine.sockfd1 (by decide)
      (List.replicate 1080 readyWake) (List.replicate 37 readyWake) s3 longChunk
      (List.replicate 10 [120]) (lines_bytes [[]]) hv3 hbl3 hchunk hnl
      (by decide) (by decide) hrx3
      (by rw [hlen10]; exact after_reads_ready 1043 37)
    refine ⟨v, ?_⟩
    rw [hpre, hfin]
    rfl

/-- C24 as amended: in a run of `tncc_preauth` that sends its start command, when
the helper answers with the status line `200`, an informational line and the line
with the new cookie, followed by `k` lines that are not empty (a trailing carriage
return not counted) and, for `k ≤ 10`, an empty line, every line being shorter
than 1023 bytes so that it fits `recvbuf` together with its newline, and no command
arrives meanwhile: the call returns 0 for every `k ≤ 10`, with `sockfd[1]` left
open, and `-EIO` for every `k > 10`, after the eleventh of those lines, with
`sockfd[1]` closed. -/
theorem tncc_preauth_extra_lines (env : tncc_env) (vpninfo : openconnect_info)
    (dspreauth : String) (ws1 : List wake) (s1 : io_state) (info cookie : List Nat)
    (extras : List (List Nat))
    (hjar : (vpninfo.cookies.foldl tncc_cookie_step (none, "null")).1 = some dspreauth)
    (hsock : env.socketpair_errno = none) (hfork : env.fork_errno = none)
    (hbuf : env.buf_ok = true) (hfd : env.sockfd1 ≠ -1) (hrecv : 1024 ≤ env.recvbuf.length)
    (hsend : cancellable_send env.sockfd1
        (bytes_of (tncc_start_buf true vpninfo dspreauth
          (vpninfo.cookies.foldl tncc_cookie_step (none, "null")).2).data).length env.wakes
        { vpninfo := vpninfo, rx := env.rx,
          buf := bytes_of (tncc_start_buf true vpninfo dspreauth
            (vpninfo.cookies.foldl tncc_cookie_step (none, "null")).2).data }
      = some (((bytes_of (tncc_start_buf true vpninfo dspreauth
          (vpninfo.cookies.foldl tncc_cookie_step (none, "null")).2).data).length : Int),
          ws1, s1))
    (hquiet : no_cmd_pending s1.vpninfo)
    (hinfo : 10 ∉ info ∧ info.length < 1023) (hck : 10 ∉ cookie ∧ cookie.length < 1023)
    (hex : ∀ e ∈ extras, 10 ∉ e ∧ e.length < 1023 ∧ strip_cr e ≠ []) :
    (extras.length ≤ 10 →
      ∀ rest ws2,
        env.rx = lines_bytes ([bytes_of "200", info, cookie] ++ extras ++ [[]]) ++ rest →
        after_reads (lines_bytes ([bytes_of "200", info, cookie] ++ extras ++ [[]])).length ws1
          = some ws2 →
        ∃ v, tncc_preauth env vpninfo = some (0, v, [env.sockfd0])) ∧
    (10 < extras.length →
      ∀ rest ws2,
        env.rx = lines_bytes ([bytes_of "200", info, cookie] ++ extras) ++ rest →
        after_reads (lines_bytes ([bytes_of "200", info, cookie] ++ extras.take 11)).length ws1
          = some ws2 →
        ∃ v, tncc_preauth env vpninfo = some (- EIO, v, [env.sockfd0, env.sockfd1])) := by
  have hs1 : s1.rx = env.rx := by
    unfold cancellable_send at hsend
    rw [if_neg hfd] at hsend
    exact (send_loop_complete _ _ _ 0 _ _ (Nat.zero_le _) hsend).2.2
  have hgo : tncc_preauth env vpninfo =
      match tncc_response env.sockfd1 ws1 { s1 with buf := env.recvbuf } with
      | none => none
      | some (ret, v, closed) =>
        some (ret, v, if closed then [env.sockfd0, env.sockfd1] else [env.sockfd0]) := by
    unfold tncc_preauth
    simp only [hjar, hsock, hfork, hbuf]
    rw [if_neg (by simp [tncc_start_buf_ok]), hsend]
    simp
  constructor
  · intro hk rest ws2 hrx hws
    rw [List.append_assoc, lines_bytes_append] at hrx hws
    rw [List.length_append] at hws
    obtain ⟨ws3, hw3, hw4⟩ := after_reads_add _ _ _ _ hws
    obtain ⟨s3, hv3, hrx3, hbl3, hresp⟩ := tncc_response_header env.sockfd1 hfd ws1 ws3
      { s1 with buf := env.recvbuf } info cookie (lines_bytes (extras ++ [[]]) ++ rest)
      hquiet hrecv hinfo hck (by simp [hs1, hrx]) hw3
    obtain ⟨v, hfin⟩ := tncc_finish_ok env.sockfd1 hfd extras ws3 ws2 s3 rest hex hk
      (by rw [hv3]; exact hquiet) (by rw [hbl3]; exact hrecv) hrx3 hw4
    rw [hgo, hresp, hfin]
    exact ⟨v, by simp⟩
  · intro hk rest ws2 hrx hws
    have hsplit : extras = extras.take 11 ++ extras.drop 11 :=
      (List.take_append_drop 11 extras).symm
    rw [hsplit, ← List.append_assoc, lines_bytes_append, List.append_assoc] at hrx
    rw [lines_bytes_append, List.length_append] at hws
    rw [lines_bytes_append, List.append_assoc] at hrx
    obtain ⟨ws3, hw3, hw4⟩ := after_reads_add _ _ _ _ hws
    obtain ⟨s3, hv3, hrx3, hbl3, hresp⟩ := tncc_response_header env.sockfd1 hfd ws1 ws3
      { s1 with buf := env.recvbuf } info cookie
      (lines_bytes (extras.take 11) ++ (lines_bytes (extras.drop 11) ++ rest))
      hquiet hrecv hinfo hck (by simp [hs1, hrx]) hw3
    have hlen11 : (extras.take 11).length = 11 := by
      rw [List.length_take]
      omega
    obtain ⟨v, hfin⟩ := tncc_finish_many env.sockfd1 hfd (extras.take 11) ws3 ws2 s3
      (lines_bytes (extras.drop 11) ++ rest)
      (fun e he => hex e (List.mem_of_mem_take he)) hlen11
      (by rw [hv3]; exact hquiet) (by rw [hbl3]; exact hrecv) hrx3 hw4
    rw [hgo, hresp, hfin]
    exact ⟨v, by simp⟩

/-- C24 as amended, at concrete inputs: the reply of scenario S4 followed by ten
lines `x` and an empty line is accepted; with eleven such lines the call fails with
`-EIO`. -/
theorem tncc_preauth_extra_lines_witness :
    (∃ v, tncc_preauth (tnccEnv (tnccReply 10) 60) tnccSession = some (0, v, [5])) ∧
    (∃ v, tncc_preauth (tnccEnv (tnccReply 11) 60) tnccSession = some (- EIO, v, [5, 6])) :=
  ⟨(tncc_preauth_extra_lines (tnccEnv (tnccReply 10) 60) tnccSession "cookieA"
      (List.replicate 60 readyWake)
      { vpninfo := tnccSession, rx := bytes_of (tnccReply 10),
        tx := bytes_of (tncc_start_buf true tnccSession "cookieA" "null").data,
        buf := bytes_of (tncc_start_buf true tnccSession "cookieA" "null").data }
      (bytes_of "ignored") (bytes_of "cookieB") (List.replicate 10 [120])
      (by decide) (by decide) (by decide) (by decide) (by decide) (Nat.le_of_eq (List.length_replicate 1024 0).symm)
      (by decide) (by decide) (by decide) (by decide) (by decide)).1 (by decide) []
      (List.replicate 19 readyWake) (by decide) (by decide),
    (tncc_preauth_extra_lines (tnccEnv (tnccReply 11) 60) tnccSession "cookieA"
      (List.replicate 60 readyWake)
      { vpninfo := tnccSession, rx := bytes_of (tnccReply 11),
        tx := bytes_of (tncc_start_buf true tnccSession "cookieA" "null").data,
        buf := bytes_of (tncc_start_buf true tnccSession "cookieA" "null").data }
      (bytes_of "ignored") (bytes_of "cookieB") (List.replicate 11 [120])
      (by decide) (by decide) (by decide) (by decide) (by decide) (Nat.le_of_eq (List.length_replicate 1024 0).symm)
      (by decide) (by decide) (by decide) (by decide) (by decide)).2 (by decide) [10]
      (List.replicate 18 readyWake) (by decide) (by decide)⟩

/-- C29, at concrete inputs: the helper sends `200`, a second line and the new
cookie `cookieB` and then closes its end of the socket (or goes on with eleven
non-empty lines).  `tncc_preauth` returns `-EIO` and has closed `sockfd[1]`, yet
`vpninfo->tncc_fd`, which was `-1`, now is that descriptor, and the `DSPREAUTH`
cookie, which was `cookieA`, now is `cookieB`.  A failure before the third line,
here the status `500`, leaves both as they were. -/
theorem tncc_preauth_late_failure_not_undone :
    tnccSession.tncc_fd = -1 ∧ tnccSession.cookies = [⟨"DSPREAUTH", "cookieA"⟩] ∧
    (tncc_preauth (tnccEnv "200\nignored\ncookieB\n" 60) tnccSession).map
        (fun r => (r.1, r.2.1.tncc_fd, r.2.1.cookies, r.2.2))
      = some (- EIO, 6, [⟨"DSPREAUTH", "cookieB"⟩], [5, 6]) ∧
    (tncc_preauth (tnccEnv (tnccReply 11) 60) tnccSession).map
        (fun r => (r.1, r.2.1.tncc_fd, r.2.1.cookies, r.2.2))
      = some (- EIO, 6, [⟨"DSPREAUTH", "cookieB"⟩], [5, 6]) ∧
    (tncc_preauth (tnccEnv "500\n" 60) tnccSession).map
        (fun r => (r.1, r.2.1.tncc_fd, r.2.1.cookies, r.2.2))
      = some (-EINVAL, -1, [⟨"DSPREAUTH", "cookieA"⟩], [5, 6]) :=
  ⟨by decide, by decide, by decide, by decide, by decide⟩
end Openconnect
